import Mathlib

/-!
# ADpco: the PCO camera driver (pcocam2App/src/Pco.cpp)

A shallow embedding of the frame-reception pipeline, the frame producer,
the actions of the state machine for arming, disarming, rebooting,
connecting, receiving images and stopping, the function `doArm` with the
configuration functions it calls, the functions that read the camera
information, the transition table of the driver and the performance
counters of PerformanceMonitor.cpp, followed by theorems about them.

Conventions used throughout.

* C++ `int` and `long` values are `Int`; counters are not wrapped (an
  acquisition would need more than 2^31 frames to overflow one).  Samples
  of an image are `Nat` and are reduced modulo the sample width wherever
  the code stores into a sample.
* A `NDArray*` is modelled by the array value it points to together with
  the identity `id` of the object; every `release()` is recorded by
  identity in `Pco.released`.  The queue holds the only pointer to a
  frame, so the in-place updates of the local `image` are updates of the
  value; `imageSum` keeps the value `image` had when it was assigned, and
  only the samples and the identity of that array are read afterwards.
* Calls into the camera SDK are recorded in `Pco.log`; whether a call
  raises `PcoException`, and what it reports, is decided by a `DllApi`
  value the theorems quantify over.
* Constants that Pco.cpp takes from the headers `DllApi.h`, `Pco.h` and
  areaDetector are fields of `Constants`; the theorems hold for every
  value of them.
* The driver mutex is followed in `doArm` and `smConnectToCamera`, which
  record in `Pco.log` where it is taken and given up; the other embedded
  functions leave their `TakeLock` out.
-/

namespace ADpco

/-! ## Constants -/

/-- Constants of `DllApi.h`, `Pco.h` and the areaDetector headers, which
Pco.cpp uses by name only. -/
structure Constants where
  bitAlignmentMsb : Int
  timestampModeBinary : Int
  timestampModeBinaryAndAscii : Int
  triggerSoftware : Int
  triggerExternal : Int
  triggerAuto : Int
  cameraTypeEdge : Int
  cameraTypeEdgeGl : Int
  recorderStateOff : Int
  ADImageSingle : Int
  ADImageContinuous : Int
  ADStatusIdle : Int
  ADStatusReadout : Int
  numApiBuffers : Nat
  cameraType1600 : Int
  cameraType2000 : Int
  cameraType4000 : Int
  cameraTypeDimaxStd : Int
  cameraTypeDimaxTv : Int
  cameraTypeDimaxAutomotive : Int
  adcModeSingle : Int
  adcModeDual : Int
  triggerExternalOnly : Int
  timestampModeOff : Int
  timestampModeAscii : Int
  generalCapsNoTimestamp : Nat
  generalCapsTimestampAsciiOnly : Nat
  recorderStateOn : Int
  edgeSetupGlobalShutter : Int
  camlinkDataFormat5x12 : Nat
  camlinkDataFormat5x12L : Nat
  camlinkDataFormat5x16 : Nat
  sccmosFormatTopCenterBottomCenter : Nat
  camlinkLutNone : Nat
  camLinkLutSqrt : Nat
  transferTransmitEnable : Nat
  transferTransmitLongGap : Nat
  bufferUnallocated : Int
  /-- The width of `size_t` on the platform the driver is built for. -/
  sizeBits : Nat
  /-- The width of `unsigned long` on the platform the driver is built
  for. -/
  ulongBits : Nat
  descriptionNumPixelRates : Nat
  binSteppingLinear : Int
  /-- Whether the platform the driver is built for stores the low byte of
  a multi-byte value first. -/
  littleEndian : Bool

/-- The value of `Pco::bitsPerShortWord`. -/
def bitsPerShortWord : Int := 16

/-- The value of `Pco::bitsPerNybble`. -/
def bitsPerNybble : Int := 4

/-- The value of `Pco::nybbleMask`. -/
def nybbleMask : Nat := 0x0f

/-- The value of `Pco::bcdDigitValue`. -/
def bcdDigitValue : Int := 10

/-- The value of `Pco::bcdPixelLength`. -/
def bcdPixelLength : Nat := 4

/-- The value of `Pco::requestQueueCapacity`. -/
def requestQueueCapacity : Nat := 10

/-- The value of `Pco::defaultHorzBin`. -/
def defaultHorzBin : Int := 1

/-- The value of `Pco::defaultVertBin`. -/
def defaultVertBin : Int := 1

/-- The value of `Pco::edgeXSizeNeedsReducedCamlink`. -/
def edgeXSizeNeedsReducedCamlink : Int := 1920

/-- The value of `Pco::edgePixRateNeedsReducedCamlink`. -/
def edgePixRateNeedsReducedCamlink : Int := 286000000

/-- The value of `Pco::edgeBaudRate`. -/
def edgeBaudRate : Nat := 115200

/-! ## Images -/

/-- Element types of an image (areaDetector's `NDDataType_t`). -/
inductive NDDataType_t
  | NDInt8 | NDUInt8 | NDInt16 | NDUInt16 | NDInt32 | NDUInt32 | NDFloat32 | NDFloat64
  deriving DecidableEq, Repr

/-- The fields of `struct tm` filled in by `extractImageTimeStamp`, with
the nanoseconds it passes on to `epicsTimeFromTM`. -/
structure FrameTime where
  tm_year : Int
  tm_mon : Int
  tm_mday : Int
  tm_hour : Int
  tm_min : Int
  tm_sec : Int
  nanoSec : Int
  deriving DecidableEq, Repr

/-- Where the time stamp of an image comes from: not yet set, decoded from
the frame, or the wall clock at processing time. -/
inductive TimeStamp
  | unset
  | fromFrame (ct : FrameTime)
  | current
  deriving DecidableEq, Repr

/-- An image: `id` is the identity of the array object, `pData` its
samples in storage order. -/
structure NDArray where
  id : Nat := 0
  pData : List Nat := []
  dataType : NDDataType_t := NDDataType_t.NDUInt16
  uniqueId : Int := 0
  timeStamp : TimeStamp := TimeStamp.unset
  deriving DecidableEq, Repr

/-! ## BCD decoding (Pco.cpp 2188-2249) -/

/-- The size in bytes of an element of each data type. -/
def elementSize : NDDataType_t → Nat
  | NDDataType_t.NDInt8 => 1
  | NDDataType_t.NDUInt8 => 1
  | NDDataType_t.NDInt16 => 2
  | NDDataType_t.NDUInt16 => 2
  | NDDataType_t.NDInt32 => 4
  | NDDataType_t.NDUInt32 => 4
  | NDDataType_t.NDFloat32 => 4
  | NDDataType_t.NDFloat64 => 8

/-- The bytes of an element of `size` bytes holding the bit pattern `v`, in
the order they are stored. -/
def elementBytes (littleEndian : Bool) (size v : Nat) : List Nat :=
  let lowFirst := (List.range size).map (fun k => v / 256 ^ k % 256)
  if littleEndian then lowFirst else lowFirst.reverse

/-- Stored bytes read two at a time as `unsigned short`; a last byte
without a partner is left out. -/
def shortsOfBytes (littleEndian : Bool) : List Nat → List Nat
  | b0 :: b1 :: rest =>
    (if littleEndian then b0 + 256 * b1 else 256 * b0 + b1) :: shortsOfBytes littleEndian rest
  | _ => []

/-- The data of an image as read through `(unsigned short*)image->pData`:
the stored bytes of its samples, whatever the data type, two at a time.  A
sample is taken as its bit pattern. -/
def shortView (c : Constants) (image : NDArray) : List Nat :=
  shortsOfBytes c.littleEndian
    ((image.pData.map (elementBytes c.littleEndian (elementSize image.dataType))).flatten)

/-- The shift `shiftLowBcd` computed by `Pco::bcdToInt`: zero unless the
bit alignment parameter is MSB. -/
def shiftLowBcd (c : Constants) (paramBitAlignment : Int) (dynResolution : Nat) : Int :=
  if paramBitAlignment = c.bitAlignmentMsb then bitsPerShortWord - (dynResolution : Int) else 0

/-- `Pco::bcdToInt`.  The argument is converted to `unsigned short`
(reduced modulo 2^16) as at the call.  A negative shift count is undefined
in C++; `Int.toNat` maps it to zero here. -/
def bcdToInt (c : Constants) (paramBitAlignment : Int) (dynResolution : Nat) (pixel : Int) : Int :=
  let pixel16 : Nat := (pixel % 65536).toNat
  let lowShift : Int := shiftLowBcd c paramBitAlignment dynResolution
  let highShift : Int := lowShift + bitsPerNybble
  let p1 : Int := (((pixel16 >>> lowShift.toNat) &&& nybbleMask : Nat) : Int)
  let p2 : Int := (((pixel16 >>> highShift.toNat) &&& nybbleMask : Nat) : Int)
  p2 * bcdDigitValue + p1

/-- The pixel `imagebuffer[i]`; an index past the end of the list reads 0. -/
def pixelAt (imagebuffer : List Nat) (i : Nat) : Int :=
  ((imagebuffer.getD i 0 : Nat) : Int)

/-- `Pco::extractImageNumber`: the loop over the first `bcdPixelLength`
pixels. -/
def extractImageNumber (c : Constants) (paramBitAlignment : Int) (dynResolution : Nat)
    (imagebuffer : List Nat) : Int :=
  (List.range bcdPixelLength).foldl
    (fun imageNumber i =>
      imageNumber * (bcdDigitValue * bcdDigitValue)
        + bcdToInt c paramBitAlignment dynResolution (pixelAt imagebuffer i))
    0

/-- `Pco::extractImageTimeStamp`, up to the call of `epicsTimeFromTM`. -/
def extractImageTimeStamp (c : Constants) (paramBitAlignment : Int) (dynResolution : Nat)
    (imageBuffer : List Nat) : FrameTime :=
  let bcd : Int → Int := bcdToInt c paramBitAlignment dynResolution
  { tm_year := bcd (pixelAt imageBuffer 4) * 100 + bcd (pixelAt imageBuffer 5 - 1900)
    tm_mon := bcd (pixelAt imageBuffer 6) - 1
    tm_mday := bcd (pixelAt imageBuffer 7)
    tm_hour := bcd (pixelAt imageBuffer 8)
    tm_min := bcd (pixelAt imageBuffer 9)
    tm_sec := bcd (pixelAt imageBuffer 10)
    nanoSec := (bcd (pixelAt imageBuffer 11) * 10000 + bcd (pixelAt imageBuffer 12) * 100
      + bcd (pixelAt imageBuffer 13)) * 1000 }

/-- The encoding of two decimal digits in one pixel that the camera uses
for its BCD fields: high digit in the upper nybble, shifted up by `s`. -/
def packBcd (hi lo s : Nat) : Nat :=
  ((hi <<< 4) ||| lo) <<< s

/-! ## The state machine object (StateMachine.h) -/

/-- The states registered by the constructor (Pco.cpp 166-172). -/
inductive State
  | Uninitialised | Unconnected | Idle | Armed | Acquiring | UnarmedAcquiring
  | ExternalAcquiring
  deriving DecidableEq, Repr

/-- The events registered by the constructor (Pco.cpp 174-183). -/
inductive Event
  | Initialise | TimerExpiry | Acquire | Stop | Arm | ImageReceived | Disarm | Trigger
  | Reboot | MakeImages
  deriving DecidableEq, Repr

/-- The value an action returns to pick its resulting state. -/
inductive StateSelector
  | firstState | secondState | thirdState | fourthState
  deriving DecidableEq, Repr

/-- Position of the selected state in the list given to `transition`. -/
def StateSelector.ordinal : StateSelector → Nat
  | StateSelector.firstState => 0
  | StateSelector.secondState => 1
  | StateSelector.thirdState => 2
  | StateSelector.fourthState => 3

/-- The timer periods declared at the top of Pco.cpp. -/
inductive TimerPeriod
  | reconnectPeriod | rebootPeriod | connectPeriod | statusPollPeriod
  | acquisitionStatusPollPeriod | triggerRetryPeriod
  deriving DecidableEq, Repr

/-- The periods in milliseconds (Pco.cpp 31-35 and 54). -/
def TimerPeriod.milliseconds : TimerPeriod → Nat
  | TimerPeriod.reconnectPeriod => 5000
  | TimerPeriod.rebootPeriod => 10000
  | TimerPeriod.connectPeriod => 5000
  | TimerPeriod.statusPollPeriod => 2000
  | TimerPeriod.acquisitionStatusPollPeriod => 5000
  | TimerPeriod.triggerRetryPeriod => 10

/-- Modelled from the spec: the `StateMachine` instance, whose class is
defined outside Pco.cpp: the current state, the FIFO of posted events and
the single-shot timer with the event it posts on expiry. -/
structure StateMachine where
  currentState : State := State.Uninitialised
  eventQueue : List Event := []
  timer : Option (TimerPeriod × Event) := none
  deriving DecidableEq, Repr

/-- Modelled from the spec: `StateMachine::post`, which enqueues the event
behind those already posted.  The spec does not say what a full queue
does, so the bound `requestQueueCapacity` is not enforced here. -/
def StateMachine.post (sm : StateMachine) (e : Event) : StateMachine :=
  { sm with eventQueue := sm.eventQueue ++ [e] }

/-- Modelled from the spec: `StateMachine::startTimer`; a timer that is
started while one is pending replaces it. -/
def StateMachine.startTimer (sm : StateMachine) (p : TimerPeriod) (e : Event) : StateMachine :=
  { sm with timer := some (p, e) }

/-- Modelled from the spec: `StateMachine::stopTimer`, which cancels the
pending timer. -/
def StateMachine.stopTimer (sm : StateMachine) : StateMachine :=
  { sm with timer := none }

/-- Modelled from the spec: `StateMachine::clear`, the explicit flush that
discards every event already queued. -/
def StateMachine.clear (sm : StateMachine) : StateMachine :=
  { sm with eventQueue := [] }

/-! ## Calls leaving the driver -/

/-- The SDK calls made by the functions embedded below, with the
arguments that follow the camera handle. -/
inductive ApiCall
  | addBufferEx (firstImage lastImage bufferNumber xRes yRes : Int) (bitRes : Nat)
  | cancelImages
  | freeBuffer (bufferNumber : Int)
  | setRecordingState (state : Int)
  | setTimeouts (hdr image transfer : Int)
  | rebootCamera
  | closeCamera
  | forceTrigger
  | openCamera (board : Int)
  | setBinning (x y : Int)
  | setRoi (x1 y1 x2 y2 : Int)
  | setTriggerMode (mode : Int)
  | getTriggerMode
  | setTimestampMode (mode : Int)
  | getTimestampMode
  | setAcquireMode (mode : Int)
  | getAcquireMode
  | setAdcOperation (mode : Int)
  | getAdcOperation
  | setBitAlignment (mode : Int)
  | getBitAlignment
  | setPixelRate (rate : Int)
  | getPixelRate
  | setDelayExposureTime
  | getDelayExposureTime
  | allocateBuffer (size : Int)
  | setTransferParameters (dataFormat baudRate transmit : Nat)
  | getTransferParameters
  | setActiveLookupTable (lut : Nat)
  | camlinkSetImageParameters (x y : Int)
  | setDateTime
  | arm
  | getActiveRamSegment
  | getNumberOfImagesInSegment (segment : Int)
  | getStorageMode
  | getRecorderSubmode
  | getTemperature
  deriving DecidableEq, Repr

/-- One entry of the call log: an SDK call, a call on the state machine
object that an ordering claim speaks about, or the driver mutex being
taken or given up. -/
inductive Effect
  | api (call : ApiCall)
  | stopTimer
  | clear
  | startTimer (period : TimerPeriod) (event : Event)
  | lock
  | unlock
  deriving DecidableEq, Repr

/-- The behaviour of the camera SDK: given the calls logged so far,
whether a call raises `PcoException` and which trigger state
`forceTrigger` reports. -/
structure DllApi where
  raises : List Effect → ApiCall → Bool
  triggerState : List Effect → Nat
  what : ApiCall → String
  /-- The values a call writes through its out parameters, in the order
  of the parameters. -/
  readback : List Effect → ApiCall → List Nat := fun _ _ => []

/-- The two exception types the driver catches, with `what()`. -/
inductive Exn
  | badAlloc (what : String)
  | pcoException (what : String)
  deriving DecidableEq, Repr

/-- The text returned by `what()`. -/
def Exn.what : Exn → String
  | Exn.badAlloc w => w
  | Exn.pcoException w => w

/-- One `NDDimension_t` of areaDetector: `size` and `offset` are `size_t`
values, `binning` and `reverse` are `int` values. -/
structure NDDimension_t where
  size : Nat := 0
  offset : Nat := 0
  binning : Int := 0
  reverse : Int := 0
  deriving DecidableEq, Repr

/-- The members of `Pco` and the parameters that only `doArm` and the
functions it calls use, kept in a record of their own.  The members and
parameters of type `double` (the exposure, delay and period times) are
left out. -/
structure ArmMembers where
  paramADTriggerMode : Int := 0
  paramADImageMode : Int := 0
  paramTimestampMode : Int := 0
  paramADMaxSizeX : Int := 0
  paramADMaxSizeY : Int := 0
  paramADMinX : Int := 0
  paramADMinY : Int := 0
  paramADSizeX : Int := 0
  paramADSizeY : Int := 0
  paramADBinX : Int := 1
  paramADBinY : Int := 1
  paramAdcMode : Int := 0
  paramAcquireMode : Int := 0
  paramPixRate : Int := 0
  paramCameraSetup : Int := 0
  paramNDDataType : NDDataType_t := NDDataType_t.NDUInt16
  paramADReverseX : Int := 0
  paramADReverseY : Int := 0
  paramCamlinkLongGap : Int := 0
  paramHwBinX : Int := 0
  paramHwBinY : Int := 0
  paramHwRoiX1 : Int := 0
  paramHwRoiY1 : Int := 0
  paramHwRoiX2 : Int := 0
  paramHwRoiY2 : Int := 0
  paramXCamSize : Int := 0
  paramYCamSize : Int := 0
  xMaxSize : Int := 0
  yMaxSize : Int := 0
  reqRoiStartX : Int := 0
  reqRoiStartY : Int := 0
  reqRoiSizeX : Int := 0
  reqRoiSizeY : Int := 0
  reqBinX : Int := 1
  reqBinY : Int := 1
  adcMode : Int := 0
  bitAlignmentMode : Int := 0
  acquireMode : Int := 0
  pixRateValue : Int := 0
  pixRate : Int := 0
  cameraSetup : Int := 0
  reverseX : Int := 0
  reverseY : Int := 0
  camlinkLongGap : Int := 0
  hwBinX : Int := 1
  hwBinY : Int := 1
  swBinX : Int := 1
  swBinY : Int := 1
  hwRoiX1 : Int := 0
  hwRoiX2 : Int := 0
  hwRoiY1 : Int := 0
  hwRoiY2 : Int := 0
  swRoiStartX : Int := 0
  swRoiStartY : Int := 0
  swRoiSizeX : Int := 0
  swRoiSizeY : Int := 0
  /-- The entry `arrayDims[Pco::xDimension]`. -/
  arrayDimsX : NDDimension_t := {}
  /-- The entry `arrayDims[Pco::yDimension]`. -/
  arrayDimsY : NDDimension_t := {}
  /-- The elements of the set `availBinX`. -/
  availBinX : List Int := [1]
  /-- The elements of the set `availBinY`. -/
  availBinY : List Int := [1]
  /-- The member `camSizes.xResActual`. -/
  xResActual : Int := 0
  /-- The member `camSizes.yResActual`. -/
  yResActual : Int := 0
  /-- The array `camDescription.pixelRate`. -/
  pixelRate : List Int := []
  /-- The member `camDescription.roiHorSteps`. -/
  roiHorSteps : Int := 1
  /-- The member `camDescription.roiVertSteps`. -/
  roiVertSteps : Int := 1
  /-- The member `camDescription.generalCaps`. -/
  generalCaps : Nat := 0
  pixRateEnumValues : List Int := []
  pixRateMax : Int := 0
  pixRateMaxValue : Int := 0
  pixRateNumEnums : Int := 0
  /-- The member `camTransfer.dataFormat`. -/
  dataFormat : Nat := 0
  /-- The member `camTransfer.baudRate`. -/
  baudRate : Nat := 0
  /-- The member `camTransfer.transmit`. -/
  transmit : Nat := 0
  /-- The member `buffers[i].ready`, by `i`. -/
  bufferReady : Nat → Bool := fun _ => false
  /-- The member `buffers[i].bufferNumber`, by `i`. -/
  bufferNumber : Nat → Int := fun _ => 0
  lastImageNumberValid : Bool := false

/-- The gang server as seen from the pipeline: whether `imageReceived`
consumes the image it is offered.  The class is defined outside Pco.cpp. -/
structure GangServer where
  imageReceived : Int → NDArray → Bool

/-! ## The driver state -/

/-- The members and parameters of `Pco` that the embedded functions read
or write. -/
structure Pco where
  triggerMode : Int := 0
  numImages : Int := 0
  imageMode : Int := 0
  timestampMode : Int := 0
  numExposures : Int := 0
  dataType : NDDataType_t := NDDataType_t.NDUInt16
  roiRequired : Bool := false
  xCamSize : Int := 0
  yCamSize : Int := 0
  camType : Int := 0
  dynResolution : Nat := 16
  arrayCounter : Int := 0
  numImagesCounter : Int := 0
  numExposuresCounter : Int := 0
  lastImageNumber : Int := 0
  outOfNDArrays : Int := 0
  bufferQueueReadFailures : Int := 0
  buffersWithNoData : Int := 0
  misplacedBuffers : Int := 0
  missingFrames : Int := 0
  driverLibraryErrors : Int := 0
  paramBitAlignment : Int := 1
  paramNDArrayCounter : Int := 0
  paramADNumImages : Int := 0
  paramADNumExposures : Int := 1
  paramADNumImagesCounter : Int := 0
  paramADNumExposuresCounter : Int := 0
  paramImageNumber : Int := 0
  paramOutOfNDArrays : Int := 0
  paramBufferQueueReadFailures : Int := 0
  paramBuffersWithNoData : Int := 0
  paramMisplacedBuffers : Int := 0
  paramMissingFrames : Int := 0
  paramDriverLibraryErrors : Int := 0
  paramADStatus : Int := 0
  paramADAcquire : Int := 0
  paramArm : Int := 0
  paramDisarm : Int := 0
  paramArmMode : Int := 0
  paramNDArraySize : Int := 0
  paramNDArraySizeX : Int := 0
  paramNDArraySizeY : Int := 0
  paramADStatusMessage : String := ""
  /-- The images waiting in `receivedFrameQueue`, oldest first. -/
  receivedFrameQueue : List NDArray := []
  /-- The capacity `maxBuffers` the queue was constructed with. -/
  queueCapacity : Nat := 0
  /-- The accumulator pointer; `none` before its first assignment. -/
  imageSum : Option NDArray := none
  /-- The identities of the arrays `release()` was called on, in order. -/
  released : List Nat := []
  /-- The images passed to `doCallbacksGenericPointer`, in order. -/
  delivered : List NDArray := []
  /-- The images handed to `gangConnection->sendImage`, with their index. -/
  gangSent : List (NDArray × Int) := []
  /-- The images offered to `gangServer->imageReceived`, with their index. -/
  gangOffered : List (NDArray × Int) := []
  /-- The content of the hardware buffer with a given number. -/
  buffers : Int → List Nat := fun _ => []
  stateMachine : StateMachine := {}
  /-- The trigger timer: the period and event it is running with. -/
  triggerTimer : Option (TimerPeriod × Event) := none
  /-- Whether `camera` is not NULL. -/
  cameraOpen : Bool := true
  /-- The calls made so far, oldest first. -/
  log : List Effect := []
  gangServer : Option GangServer := none
  /-- Whether `gangConnection` is not NULL. -/
  gangConnection : Bool := false
  /-- The members and parameters of the functions that arm the camera. -/
  arm : ArmMembers := {}
  camRamSize : Int := 0
  paramCamRamUse : Int := 0
  paramStorageMode : Int := 0
  paramRecorderSubmode : Int := 0

/-- A call that may raise: the state it returns with, or the exception
together with the state at the throw. -/
abbrev Throwing (α : Type) := Except (Exn × Pco) α

/-- What the embedded functions take from outside Pco.cpp. -/
structure Env where
  c : Constants
  api : DllApi
  /-- The array `NDArrayPool::convert` produces from a raw image for the
  requested data type (the dimensions are fixed while armed). -/
  convert : NDArray → NDDataType_t → NDArray
  /-- The function `Pco::doArm` (Pco.cpp 1475-1579).  The arm actions only
  depend on whether it returns or raises and on the state it leaves, so
  they are embedded for an arbitrary such function. -/
  doArm : Pco → Throwing Pco
  /-- The call `gangServer->makeCompleteImages(takeLock)`: the state it
  leaves.  The class is defined outside Pco.cpp. -/
  makeCompleteImages : Pco → Pco := fun s => s
  /-- The function `Pco::initialiseCamera` (Pco.cpp 710-930), which
  `smConnectToCamera` calls with its lock: the state it returns with, or
  the exception it raises. -/
  initialiseCamera : Pco → Throwing Pco := fun s => Except.ok s
  /-- Whether `new unsigned short[bufferSize]` for the buffer with the
  given index throws `std::bad_alloc`, after the calls logged so far. -/
  badAlloc : List Effect → Nat → Bool := fun _ _ => false

/-! ## The frame-reception pipeline (Pco.cpp 2010-2169, 2277-2291) -/

/-- The call `image->release()`. -/
def Pco.release (s : Pco) (image : NDArray) : Pco :=
  { s with released := s.released ++ [image.id] }

/-- The net reference count of the array with identity `i` that the
pool handed out once: one reference, less the releases recorded. -/
def Pco.refCount (s : Pco) (i : Nat) : Int :=
  1 - (s.released.count i : Int)

/-- The loop of `Pco::sumArray<T>` for a sample type of `bits` bits: the
first `n` samples of the in/out data have the samples of the added
data added to them.  A position outside either array is left alone. -/
def sumData (bits : Nat) : Nat → List Nat → List Nat → List Nat
  | 0, inOutData, _ => inOutData
  | _ + 1, [], _ => []
  | _ + 1, x :: inOutData, [] => x :: inOutData
  | n + 1, x :: inOutData, a :: addData => (x + a) % 2 ^ bits :: sumData bits n inOutData addData

/-- `Pco::sumArray<T>` called from a driver with frame size
`xCamSize * yCamSize`. -/
def sumArray (bits : Nat) (s : Pco) (startingArray addArray : NDArray) : NDArray :=
  { startingArray with
    pData := sumData bits (s.xCamSize * s.yCamSize).toNat startingArray.pData addArray.pData }

/-- The `switch(image->dataType)` of `receiveImages` (Pco.cpp 2083-2099). -/
def sumByType (s : Pco) (image imageSum : NDArray) : NDArray :=
  match image.dataType with
  | NDDataType_t.NDUInt8 => sumArray 8 s image imageSum
  | NDDataType_t.NDInt8 => sumArray 8 s image imageSum
  | NDDataType_t.NDUInt16 => sumArray 16 s image imageSum
  | NDDataType_t.NDInt16 => sumArray 16 s image imageSum
  | NDDataType_t.NDUInt32 => sumArray 32 s image imageSum
  | NDDataType_t.NDInt32 => sumArray 32 s image imageSum
  | _ => image

/-- The test `timestampMode == timestampModeBinary ||
timestampMode == timestampModeBinaryAndAscii` made by `receiveImages`. -/
def Pco.binaryTimestamp (c : Constants) (s : Pco) : Bool :=
  decide (s.timestampMode = c.timestampModeBinary ∨
    s.timestampMode = c.timestampModeBinaryAndAscii)

/-- The image number `receiveImages` gives a frame (Pco.cpp 2051-2057):
decoded from the frame in the binary time stamp modes, otherwise the
dead-reckoning number. -/
def Pco.imageNumber (c : Constants) (s : Pco) (image : NDArray) : Int :=
  if s.binaryTimestamp c then
    extractImageNumber c s.paramBitAlignment s.dynResolution image.pData
  else
    s.lastImageNumber + 1

/-- Pco.cpp 2047-2066 of `receiveImages`: the missing-frame check and the
adoption of the number of the frame. -/
def Pco.checkImageNumber (c : Constants) (s : Pco) (image : NDArray) : Pco :=
  let imageNumber := s.imageNumber c image
  let s1 : Pco :=
    if imageNumber ≠ s.lastImageNumber + 1 then
      { s with missingFrames := s.missingFrames + 1, paramMissingFrames := s.missingFrames + 1 }
    else s
  { s1 with lastImageNumber := imageNumber }

/-- Pco.cpp 2067-2075 of `receiveImages`: the software ROI, binning and
reversal, which replaces the raw image by the converted one. -/
def Pco.softwareRoi (env : Env) (s : Pco) (image : NDArray) : NDArray × Pco :=
  if s.roiRequired then (env.convert image s.dataType, s.release image) else (image, s)

/-- Pco.cpp 2076-2115 of `receiveImages`: the summing of multiple
exposures.  Returns the image, `nextImageReady` and the state. -/
def Pco.sumExposures (s : Pco) (image : NDArray) : NDArray × Bool × Pco :=
  if s.numExposures > 1 then
    let s1 : Pco := { s with numExposuresCounter := s.numExposuresCounter + 1 }
    let r : NDArray × Pco :=
      if s1.numExposuresCounter > 1 then
        match s1.imageSum with
        | some acc => (sumByType s1 image acc, s1.release acc)
        | none => (image, s1)
      else (image, s1)
    let s2 : Pco := { r.2 with imageSum := some r.1 }
    if s2.numExposuresCounter ≥ s2.numExposures then
      (r.1, true, { s2 with numExposuresCounter := 0 })
    else
      (r.1, false, s2)
  else
    (image, true, s)

/-- `Pco::imageComplete`. -/
def Pco.imageComplete (s : Pco) (image : NDArray) : Pco :=
  let s1 : Pco :=
    { s with arrayCounter := s.arrayCounter + 1, numImagesCounter := s.numImagesCounter + 1 }
  let s2 : Pco := { s1 with delivered := s1.delivered ++ [image] }
  let s3 : Pco := s2.release image
  { s3 with paramNDArrayCounter := s3.arrayCounter,
            paramADNumImagesCounter := s3.numImagesCounter }

/-- The image of Pco.cpp 2118-2132: the finished image with its
`uniqueId` and time stamp attached; the time stamp is decoded from the
finished image read through `unsigned short*`.  The attribute list is not
modelled. -/
def Pco.attachInfo (c : Constants) (s : Pco) (image : NDArray) : NDArray :=
  { image with
    uniqueId := s.arrayCounter
    timeStamp :=
      if s.binaryTimestamp c then
        TimeStamp.fromFrame
          (extractImageTimeStamp c s.paramBitAlignment s.dynResolution (shortView c image))
      else TimeStamp.current }

/-- Pco.cpp 2116-2145 of `receiveImages`: a finished image is shown to the
gang connection, offered to the gang server and, unless consumed there,
passed to `imageComplete`. -/
def Pco.finishImage (c : Constants) (s : Pco) (image : NDArray) : Pco :=
  let image1 := s.attachInfo c image
  let s1 : Pco :=
    if s.gangConnection then { s with gangSent := s.gangSent ++ [(image1, s.numImagesCounter)] }
    else s
  match s1.gangServer with
  | none => s1.imageComplete image1
  | some g =>
    let s2 : Pco := { s1 with gangOffered := s1.gangOffered ++ [(image1, s1.numImagesCounter)] }
    if g.imageReceived s1.numImagesCounter image1 then s2 else s2.imageComplete image1

/-- The body of the loop of `receiveImages` for the image taken from the
queue (Pco.cpp 2046-2146). -/
def Pco.processImage (env : Env) (s : Pco) (image : NDArray) : Pco :=
  let s1 := s.checkImageNumber env.c image
  let r := s1.softwareRoi env image
  let e := r.2.sumExposures r.1
  if e.2.1 then e.2.2.finishImage env.c e.1 else e.2.2

/-- The guard `imageMode == ADImageContinuous ||
numImagesCounter < numImages` of the loop of `receiveImages`. -/
def Pco.wantsImages (c : Constants) (s : Pco) : Bool :=
  decide (s.imageMode = c.ADImageContinuous ∨ s.numImagesCounter < s.numImages)

/-- The state with `receivedFrameQueue` holding `q`: how taking an image
from the queue and appending one to it change the state. -/
def Pco.withQueue (s : Pco) (q : List NDArray) : Pco :=
  { s with receivedFrameQueue := q }

/-- The `while` loop of `receiveImages` (Pco.cpp 2039-2146).  The first
argument is the content of `receivedFrameQueue`, which the body does not
touch; each turn takes the oldest image from it. -/
def Pco.receiveLoop (env : Env) : List NDArray → Pco → Pco
  | [], s => s
  | image :: rest, s =>
    if s.wantsImages env.c then
      Pco.receiveLoop env rest ((s.withQueue rest).processImage env image)
    else s

/-- `Pco::receiveImages`: the state on return and the result. -/
def Pco.receiveImages (env : Env) (s : Pco) : Bool × Pco :=
  let s1 := Pco.receiveLoop env s.receivedFrameQueue s
  let s2 : Pco :=
    { s1 with paramADNumExposuresCounter := s1.numExposuresCounter,
              paramImageNumber := s1.lastImageNumber }
  (decide (s2.imageMode ≠ env.c.ADImageContinuous ∧ s2.numImagesCounter ≥ s2.numImages), s2)

/-- `Pco::discardImages`: every queued image is taken and released. -/
def Pco.discardImages (s : Pco) : Pco :=
  { s with released := s.released ++ s.receivedFrameQueue.map NDArray.id,
           receivedFrameQueue := [] }

/-- `Pco::updateErrorCounters`. -/
def Pco.updateErrorCounters (s : Pco) : Pco :=
  { s with paramOutOfNDArrays := s.outOfNDArrays,
           paramBufferQueueReadFailures := s.bufferQueueReadFailures,
           paramBuffersWithNoData := s.buffersWithNoData,
           paramMisplacedBuffers := s.misplacedBuffers,
           paramMissingFrames := s.missingFrames,
           paramDriverLibraryErrors := s.driverLibraryErrors }

/-- `Pco::nowAcquiring` (Pco.cpp 1905-1935). -/
def Pco.nowAcquiring (c : Constants) (s : Pco) : Pco :=
  let s1 : Pco :=
    { s with arrayCounter := s.paramNDArrayCounter, numImages := s.paramADNumImages,
             numExposures := s.paramADNumExposures }
  let s2 : Pco := if s1.imageMode = c.ADImageSingle then { s1 with numImages := 1 } else s1
  let s3 : Pco :=
    { s2 with numImagesCounter := 0, numExposuresCounter := 0, outOfNDArrays := 0,
              bufferQueueReadFailures := 0, buffersWithNoData := 0, misplacedBuffers := 0,
              missingFrames := 0, driverLibraryErrors := 0 }
  let s4 : Pco :=
    { s3 with paramADStatus := c.ADStatusReadout, paramADAcquire := 1,
              paramNDArraySize := s3.xCamSize * s3.yCamSize * 2,
              paramNDArraySizeX := s3.xCamSize, paramNDArraySizeY := s3.yCamSize,
              paramADNumImagesCounter := s3.numImagesCounter,
              paramADNumExposuresCounter := s3.numExposuresCounter }
  s4.updateErrorCounters

/-- A series of calls of `receiveImages`; before each call the frames of
one batch have been appended to the queue by the producer. -/
def Pco.receiveImagesSeries (env : Env) : List (List NDArray) → Pco → Pco
  | [], s => s
  | batch :: batches, s =>
    Pco.receiveImagesSeries env batches
      (Pco.receiveImages env (s.withQueue (s.receivedFrameQueue ++ batch))).2

/-- The finished images in the order they were finished: those offered to
the gang server when one is registered, otherwise those passed on to the
output consumer. -/
def Pco.finished (s : Pco) : List NDArray :=
  match s.gangServer with
  | none => s.delivered
  | some _ => s.gangOffered.map Prod.fst

/-! ### What the pipeline is compared with -/

/-- The numbers a list of frames gets when processed in order: the decoded
number in the binary time stamp modes, otherwise one more than the number
before. -/
def frameNumbers (binary : Bool) (decode : NDArray → Int) : Int → List NDArray → List Int
  | _, [] => []
  | last, image :: rest =>
    (if binary then decode image else last + 1)
      :: frameNumbers binary decode (if binary then decode image else last + 1) rest

/-- The number of entries of a list of frame numbers that are not one more
than the entry before them, `last` standing before the first. -/
def countGaps : Int → List Int → Nat
  | _, [] => 0
  | last, n :: rest => (if n ≠ last + 1 then 1 else 0) + countGaps n rest

/-- The last entry of a list of frame numbers, `last` when it is empty. -/
def lastNumber : Int → List Int → Int
  | last, [] => last
  | _, n :: rest => lastNumber n rest

/-- The frames that left a queue: the front part of `before` that is no
longer in `after`. -/
def drained (before after : List NDArray) : List NDArray :=
  before.take (before.length - after.length)

/-- The image the output consumer receives for a queued frame when
exposures are not summed: converted if the software ROI is required,
carrying the sequence id `uniqueId` and its time stamp. -/
def Pco.outputImage (env : Env) (s : Pco) (uniqueId : Int) (image : NDArray) : NDArray :=
  ({ s with arrayCounter := uniqueId } : Pco).attachInfo env.c (s.softwareRoi env image).1

/-- The images expected at the output for a list of queued frames, the
first with sequence id `a`, the next with `a + 1`, and so on. -/
def Pco.expectedOutput (env : Env) (s : Pco) : Int → List NDArray → List NDArray
  | _, [] => []
  | a, image :: rest => s.outputImage env a image :: Pco.expectedOutput env s (a + 1) rest

/-- Sample by sample, the sum modulo `2 ^ bits` of the samples of a list of
frames of `n` samples. -/
def sumFrames (bits n : Nat) (frames : List NDArray) : List Nat :=
  (List.range n).map (fun i => (frames.map (fun f => f.pData.getD i 0)).sum % 2 ^ bits)

/-! ## The frame producer (Pco.cpp 1213-1262) -/

/-- The state a call that may raise leaves behind, raised or not. -/
def Throwing.state : Throwing Pco → Pco
  | Except.ok s => s
  | Except.error e => e.2

/-- A call of the SDK: it is logged, then raises or returns as the
`DllApi` decides from the calls before it. -/
def Pco.call (api : DllApi) (s : Pco) (call : ApiCall) : Throwing Pco :=
  let s1 : Pco := { s with log := s.log ++ [Effect.api call] }
  if api.raises s.log call then Except.error (Exn.pcoException (api.what call), s1)
  else Except.ok s1

/-- `Pco::post`. -/
def Pco.post (s : Pco) (req : Event) : Pco :=
  { s with stateMachine := s.stateMachine.post req }

/-- `Pco::allocArray`.  `pool` is what `NDArrayPool::alloc` returns: the
identity of a fresh array, or `none` for NULL.  The samples of a fresh
array are taken as zero. -/
def Pco.allocArray (s : Pco) (pool : Option Nat) (sizeX sizeY : Int)
    (dataType : NDDataType_t) : Option NDArray × Pco :=
  match pool with
  | some i =>
    (some { id := i, pData := List.replicate (sizeX * sizeY).toNat 0, dataType := dataType }, s)
  | none =>
    (none, { s with outOfNDArrays := s.outOfNDArrays + 1,
                    paramOutOfNDArrays := s.outOfNDArrays + 1 })

/-- The `memcpy` of `frameReceived`: the first `n` samples of the
hardware buffer; a position past the end of the buffer reads 0. -/
def copyFrame (n : Nat) (buffer : List Nat) : List Nat :=
  (List.range n).map (fun i => buffer.getD i 0)

/-- Modelled from the spec: the `send` of the pending-frame queue, a
bounded FIFO of fixed capacity whose send fails, without waiting, when
the queue is full (the queue class belongs to EPICS base).  Returns
whether the send succeeded. -/
def Pco.send (s : Pco) (image : NDArray) : Bool × Pco :=
  if s.receivedFrameQueue.length < s.queueCapacity then
    (true, s.withQueue (s.receivedFrameQueue ++ [image]))
  else (false, s)

/-- `Pco::frameReceived`.  The `lock()` and `unlock()` around the last
call are not modelled. -/
def Pco.frameReceived (env : Env) (s : Pco) (pool : Option Nat) (bufferNumber : Int) :
    Throwing Pco :=
  let a := s.allocArray pool s.xCamSize s.yCamSize NDDataType_t.NDUInt16
  let s1 : Pco :=
    match a.1 with
    | some image0 =>
      let image : NDArray :=
        { image0 with
          pData := copyFrame (a.2.xCamSize * a.2.yCamSize).toNat (a.2.buffers bufferNumber) }
      let q := a.2.send image
      let s2 : Pco := if q.1 then q.2 else q.2.release image
      s2.post Event.ImageReceived
    | none => a.2
  s1.call env.api (ApiCall.addBufferEx 0 0 bufferNumber s1.xCamSize s1.yCamSize s1.dynResolution)

/-! ## Arming, disarming and rebooting (Pco.cpp 274-485, 1318-1336, 1940-2008) -/

/-- The call `stateMachine->startTimer(period, event)`. -/
def Pco.startTimer (s : Pco) (p : TimerPeriod) (e : Event) : Pco :=
  { s with stateMachine := s.stateMachine.startTimer p e,
           log := s.log ++ [Effect.startTimer p e] }

/-- The call `stateMachine->stopTimer()`. -/
def Pco.stopTimer (s : Pco) : Pco :=
  { s with stateMachine := s.stateMachine.stopTimer, log := s.log ++ [Effect.stopTimer] }

/-- The call `stateMachine->clear()`. -/
def Pco.clear (s : Pco) : Pco :=
  { s with stateMachine := s.stateMachine.clear, log := s.log ++ [Effect.clear] }

/-- `Pco::outputStatusMessage`. -/
def Pco.outputStatusMessage (s : Pco) (text : String) : Pco :=
  { s with paramADStatusMessage := text }

/-- The loop of `freeImageBuffers`: `n` turns are left and `i` is the
buffer freed next; a raising call ends the loop. -/
def Pco.freeBufferLoop (api : DllApi) : Nat → Int → Pco → Throwing Pco
  | 0, _, s => Except.ok s
  | n + 1, i, s =>
    match s.call api (ApiCall.freeBuffer i) with
    | Except.ok s1 => Pco.freeBufferLoop api n (i + 1) s1
    | Except.error e => Except.error e

/-- `Pco::freeImageBuffers`: the `try` block and the handler that only
traces the failure. -/
def Pco.freeImageBuffers (env : Env) (s : Pco) : Pco :=
  match s.call env.api ApiCall.cancelImages with
  | Except.error e => e.2
  | Except.ok s1 => (Pco.freeBufferLoop env.api env.c.numApiBuffers 0 s1).state

/-- `Pco::acquisitionComplete`. -/
def Pco.acquisitionComplete (c : Constants) (s : Pco) : Pco :=
  { s with paramADStatus := c.ADStatusIdle, paramADAcquire := 0, triggerTimer := none }

/-- `Pco::doDisarm`. -/
def Pco.doDisarm (env : Env) (s : Pco) : Pco :=
  let s1 : Pco := { s with paramArmMode := 0, paramDisarm := 0 }
  let s2 : Pco := (s1.call env.api (ApiCall.setRecordingState env.c.recorderStateOff)).state
  s2.freeImageBuffers env

/-- `Pco::startCamera`. -/
def Pco.startCamera (env : Env) (s : Pco) : Pco :=
  if s.triggerMode = env.c.triggerSoftware ∨ s.triggerMode = env.c.triggerExternal then
    let r : Nat × Pco :=
      match s.call env.api ApiCall.forceTrigger with
      | Except.ok s1 => (env.api.triggerState s.log, s1)
      | Except.error e =>
        (0, ({ e.2 with driverLibraryErrors := e.2.driverLibraryErrors + 1 } : Pco).updateErrorCounters)
    if r.1 = 0 then
      { r.2 with triggerTimer := some (TimerPeriod.triggerRetryPeriod, Event.Trigger) }
    else r.2
  else s

/-- The body shared by the two `catch` clauses of `smRequestArm` and of
`smArmAndAcquire`, which differ only in the text they trace. -/
def Pco.armFailed (env : Env) (s : Pco) (e : Exn) : StateSelector × Pco :=
  let s1 := s.acquisitionComplete env.c
  let s2 := s1.doDisarm env
  (StateSelector.secondState, s2.outputStatusMessage e.what)

/-- `Pco::smRequestArm`. -/
def Pco.smRequestArm (env : Env) (s : Pco) : StateSelector × Pco :=
  match env.doArm s with
  | Except.ok s1 =>
    let s2 := s1.startTimer TimerPeriod.statusPollPeriod Event.TimerExpiry
    (StateSelector.firstState, s2.outputStatusMessage "")
  | Except.error (Exn.badAlloc w, s1) => s1.armFailed env (Exn.badAlloc w)
  | Except.error (Exn.pcoException w, s1) => s1.armFailed env (Exn.pcoException w)

/-- `Pco::smArmAndAcquire`. -/
def Pco.smArmAndAcquire (env : Env) (s : Pco) : StateSelector × Pco :=
  match env.doArm s with
  | Except.ok s1 =>
    let s2 := s1.nowAcquiring env.c
    let s3 := s2.startCamera env
    let s4 := s3.startTimer TimerPeriod.acquisitionStatusPollPeriod Event.TimerExpiry
    (StateSelector.firstState, s4.outputStatusMessage "")
  | Except.error (Exn.badAlloc w, s1) => s1.armFailed env (Exn.badAlloc w)
  | Except.error (Exn.pcoException w, s1) => s1.armFailed env (Exn.pcoException w)

/-- `Pco::doReboot`; an SDK call that raises ends it. -/
def Pco.doReboot (env : Env) (s : Pco) : Throwing Pco :=
  match s.call env.api (ApiCall.setTimeouts 2000 3000 250) with
  | Except.error e => Except.error e
  | Except.ok s1 =>
    let r : Throwing Pco :=
      if s1.camType = env.c.cameraTypeEdge ∨ s1.camType = env.c.cameraTypeEdgeGl then
        s1.call env.api ApiCall.rebootCamera
      else Except.ok s1
    match r with
    | Except.error e => Except.error e
    | Except.ok s2 =>
      match s2.call env.api ApiCall.closeCamera with
      | Except.error e => Except.error e
      | Except.ok s3 => Except.ok { s3 with cameraOpen := false }

/-- `Pco::smRequestReboot`; it has no handler, so an exception raised by
`doReboot` leaves it. -/
def Pco.smRequestReboot (env : Env) (s : Pco) : Throwing (StateSelector × Pco) :=
  let s1 := s.stopTimer
  let s2 := s1.clear
  match s2.doReboot env with
  | Except.error e => Except.error e
  | Except.ok s3 =>
    Except.ok (StateSelector.firstState,
      s3.startTimer TimerPeriod.rebootPeriod Event.TimerExpiry)

/-- `Pco::smExternalStopAcquisition`. -/
def Pco.smExternalStopAcquisition (env : Env) (s : Pco) : StateSelector × Pco :=
  let s1 := s.acquisitionComplete env.c
  let s2 := s1.doDisarm env
  (StateSelector.firstState, s2.discardImages)

/-! ## The transition table (Pco.cpp 184-217) -/

/-- The member functions registered as actions. -/
inductive Action
  | smInitialiseWait | smConnectToCamera | smPollWhileIdle | smPollWhileAcquiring
  | smRequestArm | smArmAndAcquire | smAcquire | smDiscardImages | smRequestReboot
  | smFirstImageWhileArmed | smAcquireImage | smUnarmedAcquireImage
  | smExternalAcquireImage | smMakeGangedImage | smUnarmedMakeGangedImage
  | smDisarmAndDiscard | smTrigger | smStopAcquisition | smExternalStopAcquisition
  deriving DecidableEq, Repr

/-- One call of `stateMachine->transition`: the state and event it is
registered for, the action, and the candidate resulting states in the
order they are passed. -/
structure Transition where
  fromState : State
  event : Event
  action : Action
  states : List State
  deriving DecidableEq, Repr

/-- The calls of `stateMachine->transition` made by the constructor, in
source order. -/
def transitions : List Transition :=
  [ ⟨State.Uninitialised, Event.Initialise, Action.smInitialiseWait, [State.Unconnected]⟩,
    ⟨State.Unconnected, Event.TimerExpiry, Action.smConnectToCamera,
      [State.Idle, State.Unconnected]⟩,
    ⟨State.Idle, Event.TimerExpiry, Action.smPollWhileIdle, [State.Idle]⟩,
    ⟨State.Idle, Event.Arm, Action.smRequestArm, [State.Armed, State.Idle]⟩,
    ⟨State.Idle, Event.Acquire, Action.smArmAndAcquire, [State.UnarmedAcquiring, State.Idle]⟩,
    ⟨State.Idle, Event.ImageReceived, Action.smDiscardImages, [State.Idle]⟩,
    ⟨State.Idle, Event.Reboot, Action.smRequestReboot, [State.Unconnected]⟩,
    ⟨State.Armed, Event.TimerExpiry, Action.smPollWhileAcquiring, [State.Armed]⟩,
    ⟨State.Armed, Event.Acquire, Action.smAcquire, [State.Acquiring]⟩,
    ⟨State.Armed, Event.ImageReceived, Action.smFirstImageWhileArmed,
      [State.ExternalAcquiring, State.Idle, State.Armed, State.Armed]⟩,
    ⟨State.Armed, Event.Disarm, Action.smDisarmAndDiscard, [State.Idle]⟩,
    ⟨State.Armed, Event.Stop, Action.smDisarmAndDiscard, [State.Idle]⟩,
    ⟨State.Acquiring, Event.TimerExpiry, Action.smPollWhileAcquiring, [State.Acquiring]⟩,
    ⟨State.Acquiring, Event.ImageReceived, Action.smAcquireImage,
      [State.Acquiring, State.Idle, State.Armed]⟩,
    ⟨State.Acquiring, Event.MakeImages, Action.smMakeGangedImage,
      [State.Acquiring, State.Idle, State.Armed]⟩,
    ⟨State.Acquiring, Event.Trigger, Action.smTrigger, [State.Acquiring]⟩,
    ⟨State.Acquiring, Event.Stop, Action.smStopAcquisition, [State.Idle, State.Armed]⟩,
    ⟨State.ExternalAcquiring, Event.TimerExpiry, Action.smPollWhileAcquiring,
      [State.ExternalAcquiring]⟩,
    ⟨State.ExternalAcquiring, Event.ImageReceived, Action.smExternalAcquireImage,
      [State.ExternalAcquiring, State.Idle, State.Armed]⟩,
    ⟨State.ExternalAcquiring, Event.MakeImages, Action.smMakeGangedImage,
      [State.ExternalAcquiring, State.Idle, State.Armed]⟩,
    ⟨State.ExternalAcquiring, Event.Stop, Action.smExternalStopAcquisition, [State.Idle]⟩,
    ⟨State.UnarmedAcquiring, Event.TimerExpiry, Action.smPollWhileAcquiring,
      [State.UnarmedAcquiring]⟩,
    ⟨State.UnarmedAcquiring, Event.ImageReceived, Action.smUnarmedAcquireImage,
      [State.UnarmedAcquiring, State.Idle]⟩,
    ⟨State.UnarmedAcquiring, Event.MakeImages, Action.smUnarmedMakeGangedImage,
      [State.UnarmedAcquiring, State.Idle]⟩,
    ⟨State.UnarmedAcquiring, Event.Trigger, Action.smTrigger, [State.UnarmedAcquiring]⟩,
    ⟨State.UnarmedAcquiring, Event.Stop, Action.smExternalStopAcquisition, [State.Idle]⟩ ]

/-- The transitions of the table registered for a state and an event. -/
def registered (st : State) (ev : Event) : List Transition :=
  transitions.filter (fun t => decide (t.fromState = st ∧ t.event = ev))

/-- Modelled from the spec: the look-up `process` makes for the current
state and the event taken from the queue. -/
def findTransition (st : State) (ev : Event) : Option Transition :=
  (registered st ev).head?

/-- The resulting state a transition gives for the ordinal its action
returned; `none` when the ordinal is past the registered candidates. -/
def Transition.destination (t : Transition) (sel : StateSelector) : Option State :=
  t.states.get? sel.ordinal

/-- Modelled from the spec: `StateMachine::process` for one event, the
engine being defined outside Pco.cpp.  It takes the oldest event; when no
transition is registered for the current state and that event the event
is discarded and nothing else happens; otherwise the action runs and the
machine moves to the state its ordinal selects (staying put on an ordinal
past the candidates, a case the spec leaves open).  An exception leaving
the action leaves `process`.  `run` gives the behaviour of each action. -/
def Pco.process (run : Action → Pco → Throwing (StateSelector × Pco)) (s : Pco) :
    Throwing Pco :=
  match s.stateMachine.eventQueue with
  | [] => Except.ok s
  | ev :: rest =>
    let s1 : Pco := { s with stateMachine := { s.stateMachine with eventQueue := rest } }
    match findTransition s.stateMachine.currentState ev with
    | none => Except.ok s1
    | some t =>
      match run t.action s1 with
      | Except.error e => Except.error e
      | Except.ok r =>
        match t.destination r.1 with
        | some st =>
          Except.ok { r.2 with stateMachine := { r.2.stateMachine with currentState := st } }
        | none => Except.ok r.2

/-- Modelled from the spec: `n` successive calls of `process`, stopping at
the first exception. -/
def Pco.processN (run : Action → Pco → Throwing (StateSelector × Pco)) :
    Nat → Pco → Throwing Pco
  | 0, s => Except.ok s
  | n + 1, s =>
    match s.process run with
    | Except.error e => Except.error e
    | Except.ok s1 => Pco.processN run n s1

/-! ## Values for worked examples -/

/-- The values the constants have in the PCO SDK and in areaDetector, for
the worked examples; `triggerExternalOnly`, `numApiBuffers`, `sizeBits`,
`ulongBits` and `littleEndian` are not fixed by either and are given
plausible values. -/
def sdkConstants : Constants :=
  { bitAlignmentMsb := 0, timestampModeBinary := 1, timestampModeBinaryAndAscii := 2,
    triggerSoftware := 1, triggerExternal := 2, triggerAuto := 0,
    cameraTypeEdge := 0x1300, cameraTypeEdgeGl := 0x1310, recorderStateOff := 0,
    ADImageSingle := 0, ADImageContinuous := 2, ADStatusIdle := 0, ADStatusReadout := 2,
    numApiBuffers := 8,
    cameraType1600 := 0x0220, cameraType2000 := 0x0240, cameraType4000 := 0x0260,
    cameraTypeDimaxStd := 0x1000, cameraTypeDimaxTv := 0x1010,
    cameraTypeDimaxAutomotive := 0x1020, adcModeSingle := 1, adcModeDual := 2,
    triggerExternalOnly := 5, timestampModeOff := 0, timestampModeAscii := 3,
    generalCapsNoTimestamp := 0x100, generalCapsTimestampAsciiOnly := 0x8,
    recorderStateOn := 1, edgeSetupGlobalShutter := 2, camlinkDataFormat5x12 := 0x07,
    camlinkDataFormat5x12L := 0x09, camlinkDataFormat5x16 := 0x05,
    sccmosFormatTopCenterBottomCenter := 0x0100, camlinkLutNone := 0, camLinkLutSqrt := 0x1612,
    transferTransmitEnable := 1, transferTransmitLongGap := 2, bufferUnallocated := -1,
    sizeBits := 64, ulongBits := 32, descriptionNumPixelRates := 4, binSteppingLinear := 1,
    littleEndian := true }

/-- An SDK none of whose calls raises and whose forced trigger succeeds. -/
def quietApi : DllApi :=
  { raises := fun _ _ => false, triggerState := fun _ => 1, what := fun _ => "" }

/-- An SDK whose `cancelImages` raises and whose other calls succeed. -/
def cancelFailsApi : DllApi :=
  { raises := fun _ call => decide (call = ApiCall.cancelImages),
    triggerState := fun _ => 1, what := fun _ => "cancelImages failed" }

/-- An SDK whose `closeCamera` raises and whose other calls succeed. -/
def closeFailsApi : DllApi :=
  { raises := fun _ call => decide (call = ApiCall.closeCamera),
    triggerState := fun _ => 1, what := fun _ => "closeCamera failed" }

/-- An environment with the quiet SDK, a conversion that keeps the image
and an arm that succeeds without effect. -/
def quietEnv : Env :=
  { c := sdkConstants, api := quietApi, convert := fun image _ => image,
    doArm := fun s => Except.ok s }

/-- A 16-bit frame with the given identity and samples. -/
def frame (i : Nat) (samples : List Nat) : NDArray :=
  { id := i, pData := samples }

/-- An environment whose arm raises `PcoException` at once. -/
def failingArmEnv (api : DllApi) : Env :=
  { c := sdkConstants, api := api, convert := fun image _ => image,
    doArm := fun s => Except.error (Exn.pcoException "arm failed", s) }

/-- The SDK calls `doReboot` makes for a camera type, in order, when none
of them raises. -/
def rebootCalls (c : Constants) (camType : Int) : List Effect :=
  [Effect.api (ApiCall.setTimeouts 2000 3000 250)]
    ++ (if camType = c.cameraTypeEdge ∨ camType = c.cameraTypeEdgeGl then
          [Effect.api ApiCall.rebootCamera] else [])
    ++ [Effect.api ApiCall.closeCamera]

/-- A driver in Idle with two frame-ready events queued and the poll
timer pending. -/
def rebootStart (camType : Int) : Pco :=
  { camType := camType,
    stateMachine :=
      { currentState := State.Idle, eventQueue := [Event.ImageReceived, Event.ImageReceived],
        timer := some (TimerPeriod.statusPollPeriod, Event.TimerExpiry) } }

/-- A driver in Idle with two Disarm events and an Arm event queued. -/
def idleWithDisarms : Pco :=
  { stateMachine :=
      { currentState := State.Idle,
        eventQueue := [Event.Disarm, Event.Disarm, Event.Arm] } }

/-- An action behaviour that closes the camera, so that a run would show. -/
def closingRun (_ : Action) (s : Pco) : Throwing (StateSelector × Pco) :=
  Except.ok (StateSelector.firstState, { s with cameraOpen := false })

/-! ## Relations between driver states used in the proofs -/

/-- The second state has the configuration of the first: the members the
loop of `receiveImages` reads but never writes. -/
structure Pco.SameConfig (s t : Pco) : Prop where
  timestampMode : t.timestampMode = s.timestampMode
  paramBitAlignment : t.paramBitAlignment = s.paramBitAlignment
  dynResolution : t.dynResolution = s.dynResolution
  imageMode : t.imageMode = s.imageMode
  numImages : t.numImages = s.numImages
  numExposures : t.numExposures = s.numExposures
  roiRequired : t.roiRequired = s.roiRequired
  dataType : t.dataType = s.dataType
  xCamSize : t.xCamSize = s.xCamSize
  yCamSize : t.yCamSize = s.yCamSize
  gangConnection : t.gangConnection = s.gangConnection
  gangServer : t.gangServer = s.gangServer

/-- The second state has the frame numbering and the queue of the first:
what the steps after the missing-frame check leave alone. -/
structure Pco.SameNumbering (s t : Pco) : Prop where
  missingFrames : t.missingFrames = s.missingFrames
  lastImageNumber : t.lastImageNumber = s.lastImageNumber
  receivedFrameQueue : t.receivedFrameQueue = s.receivedFrameQueue

/-- A continuous acquisition with binary time stamps, just armed, whose
queue holds the frame numbered 1. -/
def gapStart : Pco :=
  { timestampMode := 2, imageMode := 2, lastImageNumber := 0,
    receivedFrameQueue := [frame 1 [0, 0, 0, 0x01]] }

/-- The frames numbered 2, 4 and 5 as they arrive before two further calls
of `receiveImages`. -/
def gapBatches : List (List NDArray) :=
  [[frame 2 [0, 0, 0, 0x02], frame 3 [0, 0, 0, 0x04]], [frame 4 [0, 0, 0, 0x05]]]

/-- The second state has the output bookkeeping of the first: what the
missing-frame check and the software ROI leave alone. -/
structure Pco.SameOutput (s t : Pco) : Prop where
  delivered : t.delivered = s.delivered
  arrayCounter : t.arrayCounter = s.arrayCounter
  numImagesCounter : t.numImagesCounter = s.numImagesCounter
  numExposuresCounter : t.numExposuresCounter = s.numExposuresCounter
  imageSum : t.imageSum = s.imageSum
  gangOffered : t.gangOffered = s.gangOffered

/-- The grouping of processed frames into runs of `E` exposures: the
complete runs so far and the frames of the run under way, after one more
frame. -/
def nextRun (E : Int) (rp : List (List NDArray) × List NDArray) (f : NDArray) :
    List (List NDArray) × List NDArray :=
  if (rp.2.length : Int) + 1 < E then (rp.1, rp.2 ++ [f]) else (rp.1 ++ [rp.2 ++ [f]], [])

/-- The state of the summing after the complete runs `runs` and the
frames `part` of the run under way were processed from `s0`: one finished
image per complete run, holding the sums of its run, and an accumulator
that holds, modulo 2^16, the sums of `part`. -/
structure Pco.Accumulated (s0 : Pco) (runs : List (List NDArray)) (part : List NDArray)
    (s : Pco) : Prop where
  config : Pco.SameConfig s0 s
  counter : s.numExposuresCounter = part.length
  finished : s.finished.map NDArray.pData
    = s0.finished.map NDArray.pData
        ++ runs.map (sumFrames 16 (s0.xCamSize * s0.yCamSize).toNat)
  images : s.numImagesCounter ≤ s0.numImagesCounter + runs.length
  accumulator : part ≠ [] → ∃ acc : NDArray, s.imageSum = some acc ∧
    acc.pData.length = (s0.xCamSize * s0.yCamSize).toNat ∧
    acc.pData.map (fun x => x % 2 ^ 16) = sumFrames 16 (s0.xCamSize * s0.yCamSize).toNat part

/-- Three 16-bit frames of two samples, all samples 10, one per call of
`receiveImages`. -/
def tenBatches : List (List NDArray) :=
  [[frame 1 [10, 10]], [frame 2 [10, 10]], [frame 3 [10, 10]]]

/-- An acquisition of one image of three exposures, just started. -/
def threeExposures : Pco :=
  { imageMode := 1, numImages := 1, numExposures := 3, xCamSize := 2, yCamSize := 1 }

/-- A continuous acquisition of images of three exposures each, before
`nowAcquiring`. -/
def leakStart : Pco :=
  { imageMode := 2, paramADNumExposures := 3, xCamSize := 2, yCamSize := 1 }

/-- The first acquisition after its first frame: `nowAcquiring`, then
`receiveImages` with frame 1 queued. -/
def leakFirst : Pco :=
  (Pco.receiveImages quietEnv
    ((leakStart.nowAcquiring sdkConstants).withQueue [frame 1 [10, 10]])).2

/-- The acquisition stopped there by `smExternalStopAcquisition`, and the
next one started by `nowAcquiring`. -/
def leakRestarted : Pco :=
  (leakFirst.smExternalStopAcquisition quietEnv).2.nowAcquiring sdkConstants

/-- The second acquisition after `receiveImages` with frames 2, 3 and 4
queued. -/
def leakSecond : Pco :=
  (Pco.receiveImages quietEnv
    (leakRestarted.withQueue [frame 2 [10, 10], frame 3 [10, 10], frame 4 [10, 10]])).2

/-! ## The image and stop actions (Pco.cpp 524-705, 2171-2186) -/

/-- `Pco::smAcquireImage`. -/
def Pco.smAcquireImage (env : Env) (s : Pco) : StateSelector × Pco :=
  let r := Pco.receiveImages env s
  if r.1 = false then (StateSelector.firstState, r.2.startCamera env)
  else if r.2.triggerMode ≠ env.c.triggerSoftware then
    (StateSelector.secondState, (r.2.acquisitionComplete env.c).doDisarm env)
  else (StateSelector.thirdState, r.2.acquisitionComplete env.c)

/-- `Pco::smUnarmedAcquireImage`. -/
def Pco.smUnarmedAcquireImage (env : Env) (s : Pco) : StateSelector × Pco :=
  let r := Pco.receiveImages env s
  if r.1 = false then (StateSelector.firstState, r.2.startCamera env)
  else
    (StateSelector.secondState, ((r.2.acquisitionComplete env.c).doDisarm env).discardImages)

/-- `Pco::smExternalAcquireImage`. -/
def Pco.smExternalAcquireImage (env : Env) (s : Pco) : StateSelector × Pco :=
  let r := Pco.receiveImages env s
  if r.1 = false then (StateSelector.firstState, r.2)
  else if r.2.triggerMode = env.c.triggerAuto then
    (StateSelector.secondState, (r.2.acquisitionComplete env.c).doDisarm env)
  else (StateSelector.thirdState, r.2.acquisitionComplete env.c)

/-- `Pco::makeImages`: the result and the state on return. -/
def Pco.makeImages (env : Env) (s : Pco) : Bool × Pco :=
  match s.gangServer with
  | none => (false, s)
  | some _ =>
    let s1 := env.makeCompleteImages s
    (decide (s1.imageMode ≠ env.c.ADImageContinuous ∧ s1.numImagesCounter ≥ s1.numImages), s1)

/-- `Pco::smMakeGangedImage`. -/
def Pco.smMakeGangedImage (env : Env) (s : Pco) : StateSelector × Pco :=
  let r := s.makeImages env
  if r.1 = false then (StateSelector.firstState, r.2)
  else if r.2.triggerMode ≠ env.c.triggerSoftware then
    (StateSelector.secondState, (r.2.acquisitionComplete env.c).doDisarm env)
  else (StateSelector.thirdState, r.2.acquisitionComplete env.c)

/-- `Pco::smUnarmedMakeGangedImage`. -/
def Pco.smUnarmedMakeGangedImage (env : Env) (s : Pco) : StateSelector × Pco :=
  let r := s.makeImages env
  if r.1 = false then (StateSelector.firstState, r.2)
  else
    (StateSelector.secondState, ((r.2.acquisitionComplete env.c).doDisarm env).discardImages)

/-- `Pco::smStopAcquisition`. -/
def Pco.smStopAcquisition (env : Env) (s : Pco) : StateSelector × Pco :=
  if s.triggerMode ≠ env.c.triggerSoftware then
    (StateSelector.firstState, (s.acquisitionComplete env.c).doDisarm env)
  else (StateSelector.secondState, s.acquisitionComplete env.c)

/-- The actions embedded above, by the name they are registered under;
`none` for an action that is not among them. -/
def Pco.runAction (env : Env) (s : Pco) : Action → Option (StateSelector × Pco)
  | Action.smAcquireImage => some (s.smAcquireImage env)
  | Action.smUnarmedAcquireImage => some (s.smUnarmedAcquireImage env)
  | Action.smExternalAcquireImage => some (s.smExternalAcquireImage env)
  | Action.smMakeGangedImage => some (s.smMakeGangedImage env)
  | Action.smUnarmedMakeGangedImage => some (s.smUnarmedMakeGangedImage env)
  | Action.smStopAcquisition => some (s.smStopAcquisition env)
  | Action.smExternalStopAcquisition => some (s.smExternalStopAcquisition env)
  | _ => none

/-! ## The table read as a relation -/

/-- Modelled from the spec: the state the machine is in after an event
whose action returned the ordinal `sel`: the selected candidate of the
transition found for the pair; the state stays when none is registered or
the ordinal is past the candidates. -/
def nextState (st : State) (ev : Event) (sel : StateSelector) : State :=
  match findTransition st ev with
  | none => st
  | some t => (t.destination sel).getD st

/-- Modelled from the spec: a move the table allows for an event whose
action returned the ordinal `sel`: any transition registered for the pair
may be taken, whatever its place in the table. -/
def Moves (st : State) (ev : Event) (sel : StateSelector) (st2 : State) : Prop :=
  (∃ t ∈ transitions, t.fromState = st ∧ t.event = ev ∧ st2 = (t.destination sel).getD st) ∨
  ((∀ t ∈ transitions, ¬ (t.fromState = st ∧ t.event = ev)) ∧ st2 = st)

/-- Modelled from the spec: a run of the machine over a sequence of events
taken in order, each with the ordinal its action returns. -/
def Runs : State → List (Event × StateSelector) → State → Prop
  | st, [], st2 => st2 = st
  | st, step :: rest, st2 => ∃ mid, Moves st step.1 step.2 mid ∧ Runs mid rest st2

/-- The state `nextState` gives after a sequence of events and ordinals. -/
def tableRun : State → List (Event × StateSelector) → State
  | st, [] => st
  | st, step :: rest => tableRun (nextState st step.1 step.2) rest

/-- The state and the driver after the action registered for `ev` in
state `st` has run, for the actions of `Pco.runAction`. -/
def Pco.handle (env : Env) (st : State) (ev : Event) (s : Pco) : Option (State × Pco) :=
  match findTransition st ev with
  | none => none
  | some t =>
    match s.runAction env t.action with
    | none => none
    | some r => some (nextState st ev r.1, r.2)

/-- The second state has the members of the first that `receiveImages`
leaves alone and the actions around it read. -/
structure Pco.SameControl (s t : Pco) : Prop where
  triggerMode : t.triggerMode = s.triggerMode
  log : t.log = s.log
  triggerTimer : t.triggerTimer = s.triggerTimer
  stateMachine : t.stateMachine = s.stateMachine
  paramADAcquire : t.paramADAcquire = s.paramADAcquire
  paramADStatus : t.paramADStatus = s.paramADStatus
  driverLibraryErrors : t.driverLibraryErrors = s.driverLibraryErrors
  cameraOpen : t.cameraOpen = s.cameraOpen

/-- The images delivered and the image counter have advanced by the same
amount from the first state to the second. -/
def Pco.Counted (s t : Pco) : Prop :=
  (t.delivered.length : Int) - t.numImagesCounter
    = (s.delivered.length : Int) - s.numImagesCounter

/-- A single-image acquisition in the given trigger mode whose image has
been delivered, so that the target is reached. -/
def targetReached (triggerMode : Int) : Pco :=
  { triggerMode := triggerMode, numImages := 1, numImagesCounter := 1 }

/-- An externally triggered acquisition with a frame waiting in the queue. -/
def stoppedWithFrame : Pco :=
  { triggerMode := 2, numImages := 5, receivedFrameQueue := [frame 1 [5, 6]] }

/-- An environment whose SDK raises in `cancelImages` only. -/
def cancelFailsEnv : Env :=
  { c := sdkConstants, api := cancelFailsApi, convert := fun image _ => image,
    doArm := fun s => Except.ok s }

/-- A single-image acquisition about to start, with one frame queued. -/
def singleStart : Pco :=
  { imageMode := 0, paramADNumImages := 7, receivedFrameQueue := [frame 1 [5, 6]],
    xCamSize := 2, yCamSize := 1 }

/-- An SDK whose forced trigger raises. -/
def triggerFailsApi : DllApi :=
  { raises := fun _ call => decide (call = ApiCall.forceTrigger),
    triggerState := fun _ => 1, what := fun _ => "forceTrigger failed" }

/-- An environment whose SDK raises in `forceTrigger` only. -/
def triggerFailsEnv : Env :=
  { c := sdkConstants, api := triggerFailsApi, convert := fun image _ => image,
    doArm := fun s => Except.ok s }

/-! ## The driver mutex and the connection to the camera (Pco.cpp 316-354) -/

/-- Modelled from the spec: the driver mutex ("a separate coarse-grained
mutex") being taken, as the constructor of `TakeLock takeLock(this)` and
the destructor of a `FreeLock` do; both classes are defined outside
Pco.cpp. -/
def Pco.lock (s : Pco) : Pco :=
  { s with log := s.log ++ [Effect.lock] }

/-- Modelled from the spec: the driver mutex being given up, as the
destructor of a `TakeLock` (at the end of its scope, also when an
exception leaves it) and the constructor of a `FreeLock` do. -/
def Pco.unlock (s : Pco) : Pco :=
  { s with log := s.log ++ [Effect.unlock] }

/-- The SDK calls of a stretch of the log that are made while the driver
mutex is held; `d` is how many times it is held where the stretch
starts. -/
def heldCalls : Nat → List Effect → List ApiCall
  | _, [] => []
  | d, Effect.lock :: rest => heldCalls (d + 1) rest
  | d, Effect.unlock :: rest => heldCalls (d - 1) rest
  | d, Effect.api call :: rest =>
    if d = 0 then heldCalls d rest else call :: heldCalls d rest
  | d, _ :: rest => heldCalls d rest

/-- The SDK calls of a stretch of the log. -/
def sdkCalls : List Effect → List ApiCall
  | [] => []
  | Effect.api call :: rest => call :: sdkCalls rest
  | _ :: rest => sdkCalls rest

/-- The second log continues the first with SDK calls only. -/
def OnlyCalls (l l2 : List Effect) : Prop :=
  ∃ calls : List ApiCall, l2 = l ++ calls.map Effect.api

/-- Pco.cpp 325-336 of `smConnectToCamera`: a camera that may be open is
closed, an exception of the SDK being swallowed. -/
def Pco.closeStale (env : Env) (s : Pco) : Pco :=
  if s.cameraOpen then (s.call env.api ApiCall.closeCamera).state else s

/-- The `try` block of `smConnectToCamera` (Pco.cpp 338-347). -/
def Pco.openAndInitialise (env : Env) (s : Pco) : Throwing Pco :=
  let s1 : Pco := { s with cameraOpen := false }
  (s1.call env.api (ApiCall.openCamera 0)).bind fun s2 =>
  (env.initialiseCamera { s2 with cameraOpen := true }).bind fun s3 =>
  Except.ok (s3.discardImages.startTimer TimerPeriod.statusPollPeriod Event.TimerExpiry)

/-- `Pco::smConnectToCamera`.  Its handler catches `PcoException` only. -/
def Pco.smConnectToCamera (env : Env) (s : Pco) : Throwing (StateSelector × Pco) :=
  match (s.lock.closeStale env).openAndInitialise env with
  | Except.ok s1 => Except.ok (StateSelector.firstState, s1.unlock)
  | Except.error (Exn.pcoException _, s1) =>
    Except.ok (StateSelector.secondState,
      (s1.startTimer TimerPeriod.reconnectPeriod Event.TimerExpiry).unlock)
  | Except.error (Exn.badAlloc w, s1) => Except.error (Exn.badAlloc w, s1.unlock)

/-- An SDK whose `openCamera` raises and whose other calls succeed. -/
def openFailsApi : DllApi :=
  { raises := fun _ call => decide (call = ApiCall.openCamera 0),
    triggerState := fun _ => 1, what := fun _ => "openCamera failed" }

/-- An environment whose SDK raises in `openCamera` only. -/
def openFailsEnv : Env :=
  { c := sdkConstants, api := openFailsApi, convert := fun image _ => image,
    doArm := fun s => Except.ok s }

/-- The state `smConnectToCamera` calls `initialiseCamera` in when
`openCamera` has returned. -/
def Pco.opened (env : Env) (s : Pco) : Pco :=
  { s.lock.closeStale env with
    cameraOpen := true
    log := (s.lock.closeStale env).log ++ [Effect.api (ApiCall.openCamera 0)] }

/-! ## Arming (Pco.cpp 1272-1311, 1337-1468, 1475-1851) -/

/-- The conversion of an `int` to `size_t`. -/
def toSizeT (c : Constants) (v : Int) : Nat :=
  (v % 2 ^ c.sizeBits).toNat

/-- The conversion `(int)` of a `size_t` value: its low 32 bits read in
two's complement. -/
def toInt (n : Nat) : Int :=
  ((n : Int) + 2 ^ 31) % 2 ^ 32 - 2 ^ 31

/-- The conversion `(unsigned short)` of an `int`. -/
def toUShort (v : Int) : Int :=
  v % 2 ^ 16

/-- The value is in the range of the C++ type `int`. -/
def IsInt (v : Int) : Prop :=
  -2 ^ 31 ≤ v ∧ v < 2 ^ 31

/-- An element of a C array read at an `int` index; an index outside the
array, undefined in C++, reads 0 here. -/
def arrayAt (a : List Int) (i : Int) : Int :=
  if i < 0 then 0 else a.getD i.toNat 0

/-- The value an SDK call writes to its first out parameter, an
`unsigned short`. -/
def DllApi.ushort (api : DllApi) (log : List Effect) (call : ApiCall) : Int :=
  (((api.readback log call).getD 0 0 % 2 ^ 16 : Nat) : Int)

/-- Pco.cpp 1478-1511 of `doArm`: the parameters are copied to the
members. -/
def Pco.readSettings (c : Constants) (s : Pco) : Pco :=
  let a := s.arm
  { s with
    paramArm := 0
    paramADStatus := c.ADStatusReadout
    triggerMode := a.paramADTriggerMode
    numImages := s.paramADNumImages
    imageMode := a.paramADImageMode
    timestampMode := a.paramTimestampMode
    dataType := a.paramNDDataType
    arm :=
      { a with
        xMaxSize := a.paramADMaxSizeX
        yMaxSize := a.paramADMaxSizeY
        reqRoiStartX := a.paramADMinX
        reqRoiStartY := a.paramADMinY
        reqRoiSizeX := a.paramADSizeX
        reqRoiSizeY := a.paramADSizeY
        reqBinX := a.paramADBinX
        reqBinY := a.paramADBinY
        adcMode := a.paramAdcMode
        bitAlignmentMode := s.paramBitAlignment
        acquireMode := a.paramAcquireMode
        pixRateValue := a.paramPixRate
        pixRate := arrayAt a.pixelRate (arrayAt a.pixRateEnumValues a.paramPixRate)
        cameraSetup := a.paramCameraSetup
        reverseX := a.paramADReverseX
        reverseY := a.paramADReverseY
        camlinkLongGap := a.paramCamlinkLongGap } }

/-- Pco.cpp 1684-1708 of `cfgBinningAndRoi`: the requested binning is
done by the camera when it can do it and in software otherwise. -/
def Pco.chooseBinning (s : Pco) : Pco :=
  let a := s.arm
  let a1 : ArmMembers :=
    if a.reqBinX ∉ a.availBinX then { a with hwBinX := defaultHorzBin, swBinX := a.reqBinX }
    else { a with hwBinX := a.reqBinX, swBinX := defaultHorzBin }
  let a2 : ArmMembers :=
    if a1.reqBinY ∉ a1.availBinY then { a1 with hwBinY := defaultVertBin, swBinY := a1.reqBinY }
    else { a1 with hwBinY := a1.reqBinY, swBinY := defaultHorzBin }
  { s with arm := a2 }

/-- The symmetry rule of `cfgBinningAndRoi` for one axis: the nearer end
of the region is kept and the other end mirrored. -/
def symmetric (camSize : Int) (roi : Int × Int) : Int × Int :=
  if roi.1 ≤ camSize - roi.2 then (roi.1, camSize - roi.1) else (camSize - roi.2, roi.2)

/-- Pco.cpp 1710-1782 of `cfgBinningAndRoi`: the size of the binned
sensor, the requested region made valid, the hardware region with the
symmetry and stepping rules applied, the software region and the size of
the frame.  `/` of C++ is `Int.tdiv`; a division by zero, undefined in
C++, gives 0 here. -/
def Pco.fitRoi (c : Constants) (s : Pco) : Pco :=
  let a := s.arm
  let xCamSize := a.xResActual.tdiv a.hwBinX
  let yCamSize := a.yResActual.tdiv a.hwBinY
  let reqRoiStartX := min (max a.reqRoiStartX 0) (xCamSize - 1)
  let reqRoiStartY := min (max a.reqRoiStartY 0) (yCamSize - 1)
  let reqRoiSizeX := min (max a.reqRoiSizeX 0) (xCamSize - reqRoiStartX)
  let reqRoiSizeY := min (max a.reqRoiSizeY 0) (yCamSize - reqRoiStartY)
  let wanted : (Int × Int) × (Int × Int) :=
    ((reqRoiStartX, reqRoiStartX + reqRoiSizeX), (reqRoiStartY, reqRoiStartY + reqRoiSizeY))
  let hor : Int × Int :=
    if a.adcMode = c.adcModeDual ∨ s.camType = c.cameraTypeDimaxStd ∨
        s.camType = c.cameraTypeDimaxTv ∨ s.camType = c.cameraTypeDimaxAutomotive then
      symmetric xCamSize wanted.1
    else wanted.1
  let ver : Int × Int :=
    if s.camType = c.cameraTypeEdge ∨ s.camType = c.cameraTypeEdgeGl ∨
        s.camType = c.cameraTypeDimaxStd ∨ s.camType = c.cameraTypeDimaxTv ∨
        s.camType = c.cameraTypeDimaxAutomotive then
      symmetric yCamSize wanted.2
    else wanted.2
  let hwRoiX1 := hor.1.tdiv a.roiHorSteps * a.roiHorSteps
  let hwRoiY1 := ver.1.tdiv a.roiVertSteps * a.roiVertSteps
  let hwRoiX2 := (hor.2 + a.roiHorSteps - 1).tdiv a.roiHorSteps * a.roiHorSteps
  let hwRoiY2 := (ver.2 + a.roiVertSteps - 1).tdiv a.roiVertSteps * a.roiVertSteps
  { s with
    xCamSize := hwRoiX2 - hwRoiX1
    yCamSize := hwRoiY2 - hwRoiY1
    arm :=
      { a with
        reqRoiStartX := reqRoiStartX
        reqRoiStartY := reqRoiStartY
        reqRoiSizeX := reqRoiSizeX
        reqRoiSizeY := reqRoiSizeY
        swRoiStartX := reqRoiStartX - hwRoiX1
        swRoiStartY := reqRoiStartY - hwRoiY1
        swRoiSizeX := reqRoiSizeX
        swRoiSizeY := reqRoiSizeY
        hwRoiX1 := hwRoiX1 + 1
        hwRoiY1 := hwRoiY1 + 1
        hwRoiX2 := hwRoiX2
        hwRoiY2 := hwRoiY2 } }

/-- Pco.cpp 1789-1809 of `cfgBinningAndRoi`: the software region is
written to `arrayDims` and `roiRequired` is worked out from it. -/
def Pco.setUpSoftwareRoi (c : Constants) (s : Pco) : Pco :=
  let a := s.arm
  let x : NDDimension_t :=
    { offset := toSizeT c a.swRoiStartX, size := toSizeT c a.swRoiSizeX, binning := a.swBinX,
      reverse := a.reverseX }
  let y : NDDimension_t :=
    { offset := toSizeT c a.swRoiStartY, size := toSizeT c a.swRoiSizeY, binning := a.swBinY,
      reverse := a.reverseY }
  { s with
    roiRequired :=
      decide (x.offset ≠ 0 ∨ y.offset ≠ 0 ∨ toInt x.size ≠ s.xCamSize ∨
        toInt y.size ≠ s.yCamSize ∨ x.binning ≠ 1 ∨ y.binning ≠ 1 ∨ x.reverse ≠ 0 ∨
        y.reverse ≠ 0 ∨ s.dataType ≠ NDDataType_t.NDUInt16)
    arm := { a with arrayDimsX := x, arrayDimsY := y } }

/-- `Pco::cfgBinningAndRoi`. -/
def Pco.cfgBinningAndRoi (env : Env) (s : Pco) : Throwing Pco :=
  let s1 := s.chooseBinning
  (s1.call env.api (ApiCall.setBinning s1.arm.hwBinX s1.arm.hwBinY)).bind fun s2 =>
  let s3 := s2.fitRoi env.c
  (s3.call env.api
    (ApiCall.setRoi (toUShort s3.arm.hwRoiX1) (toUShort s3.arm.hwRoiY1)
      (toUShort s3.arm.hwRoiX2) (toUShort s3.arm.hwRoiY2))).bind fun s4 =>
  Except.ok (s4.setUpSoftwareRoi env.c)

/-- `Pco::cfgTriggerMode`. -/
def Pco.cfgTriggerMode (env : Env) (s : Pco) : Throwing Pco :=
  if s.triggerMode = env.c.triggerExternalOnly then
    (s.call env.api (ApiCall.setTriggerMode env.c.triggerExternal)).bind fun s1 =>
    (s1.call env.api ApiCall.getTriggerMode).bind fun s2 =>
    let v := env.api.ushort s1.log ApiCall.getTriggerMode
    Except.ok (if v ≠ env.c.triggerExternal then { s2 with triggerMode := v } else s2)
  else
    (s.call env.api (ApiCall.setTriggerMode s.triggerMode)).bind fun s1 =>
    (s1.call env.api ApiCall.getTriggerMode).bind fun s2 =>
    Except.ok { s2 with triggerMode := env.api.ushort s1.log ApiCall.getTriggerMode }

/-- The two calls that end two branches of `cfgTimestampMode`: the mode
is written to the camera and read back. -/
def Pco.writeTimestampMode (env : Env) (s : Pco) : Throwing Pco :=
  (s.call env.api (ApiCall.setTimestampMode s.timestampMode)).bind fun s1 =>
  (s1.call env.api ApiCall.getTimestampMode).bind fun s2 =>
  Except.ok { s2 with timestampMode := env.api.ushort s1.log ApiCall.getTimestampMode }

/-- `Pco::cfgTimestampMode`. -/
def Pco.cfgTimestampMode (env : Env) (s : Pco) : Throwing Pco :=
  if s.arm.generalCaps &&& env.c.generalCapsNoTimestamp ≠ 0 then
    Except.ok { s with timestampMode := env.c.timestampModeOff }
  else if s.arm.generalCaps &&& env.c.generalCapsTimestampAsciiOnly ≠ 0 then
    s.writeTimestampMode env
  else
    let s1 : Pco :=
      if s.timestampMode = env.c.timestampModeAscii then
        { s with timestampMode := env.c.timestampModeBinaryAndAscii }
      else s
    s1.writeTimestampMode env

/-- `Pco::cfgAcquireMode`. -/
def Pco.cfgAcquireMode (env : Env) (s : Pco) : Throwing Pco :=
  (s.call env.api (ApiCall.setAcquireMode s.arm.acquireMode)).bind fun s1 =>
  (s1.call env.api ApiCall.getAcquireMode).bind fun s2 =>
  Except.ok
    { s2 with arm := { s2.arm with acquireMode := env.api.ushort s1.log ApiCall.getAcquireMode } }

/-- `Pco::cfgAdcMode`. -/
def Pco.cfgAdcMode (env : Env) (s : Pco) : Throwing Pco :=
  if s.camType = env.c.cameraType1600 ∨ s.camType = env.c.cameraType2000 ∨
      s.camType = env.c.cameraType4000 then
    (s.call env.api (ApiCall.setAdcOperation s.arm.adcMode)).bind fun s1 =>
    (s1.call env.api ApiCall.getAdcOperation).bind fun s2 =>
    Except.ok
      { s2 with arm := { s2.arm with adcMode := env.api.ushort s1.log ApiCall.getAdcOperation } }
  else
    Except.ok { s with arm := { s.arm with adcMode := env.c.adcModeSingle } }

/-- `Pco::cfgBitAlignmentMode`. -/
def Pco.cfgBitAlignmentMode (env : Env) (s : Pco) : Throwing Pco :=
  (s.call env.api (ApiCall.setBitAlignment s.arm.bitAlignmentMode)).bind fun s1 =>
  (s1.call env.api ApiCall.getBitAlignment).bind fun s2 =>
  Except.ok
    { s2 with
      arm := { s2.arm with bitAlignmentMode := env.api.ushort s1.log ApiCall.getBitAlignment } }

/-- `Pco::cfgPixelRate`.  The conversions to and from `unsigned long` are
not modelled. -/
def Pco.cfgPixelRate (env : Env) (s : Pco) : Throwing Pco :=
  (s.call env.api (ApiCall.setPixelRate s.arm.pixRate)).bind fun s1 =>
  (s1.call env.api ApiCall.getPixelRate).bind fun s2 =>
  Except.ok
    { s2 with
      arm := { s2.arm with pixRate := ((env.api.readback s1.log ApiCall.getPixelRate).getD 0 0 : Nat) } }

/-- `Pco::cfgAcquisitionTimes`: its two SDK calls.  The times are of type
`double`; they and the arguments worked out from them are left out. -/
def Pco.cfgAcquisitionTimes (env : Env) (s : Pco) : Throwing Pco :=
  (s.call env.api ApiCall.setDelayExposureTime).bind fun s1 =>
  s1.call env.api ApiCall.getDelayExposureTime

/-- The loop of `allocateImageBuffers` (Pco.cpp 1285-1299): `n` turns are
left and `i` is the index of the buffer allocated next.  The memory
itself and the `assert` on the buffer number are not modelled. -/
def Pco.allocateLoop (env : Env) (bufferSize : Int) : Nat → Nat → Pco → Throwing Pco
  | 0, _, s => Except.ok s
  | n + 1, i, s =>
    if env.badAlloc s.log i then Except.error (Exn.badAlloc "std::bad_alloc", s)
    else
      let s1 : Pco :=
        { s with
          arm :=
            { s.arm with
              bufferNumber := Function.update s.arm.bufferNumber i env.c.bufferUnallocated } }
      match s1.call env.api (ApiCall.allocateBuffer (bufferSize * 2)) with
      | Except.error e => Except.error e
      | Except.ok s2 =>
        let number : Int := ((env.api.readback s1.log (ApiCall.allocateBuffer (bufferSize * 2))).getD 0 0 : Nat)
        Pco.allocateLoop env bufferSize n (i + 1)
          { s2 with
            arm :=
              { s2.arm with
                bufferNumber := Function.update s2.arm.bufferNumber i number
                bufferReady := Function.update s2.arm.bufferReady i true } }

/-- `Pco::allocateImageBuffers`: either handler frees the buffers and
raises the exception again. -/
def Pco.allocateImageBuffers (env : Env) (s : Pco) : Throwing Pco :=
  match Pco.allocateLoop env (s.arm.xResActual * s.arm.yResActual) env.c.numApiBuffers 0 s with
  | Except.ok s1 => Except.ok s1
  | Except.error e => Except.error (e.1, e.2.freeImageBuffers env)

/-- `Pco::adjustTransferParamsAndLut`. -/
def Pco.adjustTransferParamsAndLut (env : Env) (s : Pco) : Throwing Pco :=
  if s.camType = env.c.cameraTypeEdge ∨ s.camType = env.c.cameraTypeEdgeGl then
    let chosen : Nat × Nat :=
      if s.arm.cameraSetup = env.c.edgeSetupGlobalShutter then
        (env.c.camlinkDataFormat5x12 ||| env.c.sccmosFormatTopCenterBottomCenter,
          env.c.camlinkLutNone)
      else if s.xCamSize ≥ edgeXSizeNeedsReducedCamlink ∧
          s.arm.pixRate ≥ edgePixRateNeedsReducedCamlink then
        (env.c.camlinkDataFormat5x12L ||| env.c.sccmosFormatTopCenterBottomCenter,
          env.c.camLinkLutSqrt)
      else
        (env.c.camlinkDataFormat5x16 ||| env.c.sccmosFormatTopCenterBottomCenter,
          env.c.camlinkLutNone)
    let transmit : Nat :=
      if s.arm.camlinkLongGap ≠ 0 then
        env.c.transferTransmitEnable ||| env.c.transferTransmitLongGap
      else env.c.transferTransmitEnable
    let s1 : Pco :=
      { s with
        arm := { s.arm with dataFormat := chosen.1, baudRate := edgeBaudRate, transmit := transmit } }
    (s1.call env.api
      (ApiCall.setTransferParameters s1.arm.dataFormat s1.arm.baudRate s1.arm.transmit)).bind
    fun s2 =>
    (s2.call env.api ApiCall.getTransferParameters).bind fun s3 =>
    let back := env.api.readback s2.log ApiCall.getTransferParameters
    let s4 : Pco :=
      { s3 with
        arm :=
          { s3.arm with
            dataFormat := back.getD 0 0, baudRate := back.getD 1 0, transmit := back.getD 2 0 } }
    s4.call env.api (ApiCall.setActiveLookupTable chosen.2)
  else Except.ok s

/-- `Pco::setCameraClock`: its SDK call.  The time and `cameraYear` are
not modelled. -/
def Pco.setCameraClock (env : Env) (s : Pco) : Throwing Pco :=
  s.call env.api ApiCall.setDateTime

/-- `Pco::addAvailableBuffer`. -/
def Pco.addAvailableBuffer (env : Env) (s : Pco) (index : Nat) : Throwing Pco :=
  if s.arm.bufferReady index then
    (s.call env.api
      (ApiCall.addBufferEx 0 0 (s.arm.bufferNumber index) s.xCamSize s.yCamSize
        s.dynResolution)).bind fun s1 =>
    Except.ok
      { s1 with arm := { s1.arm with bufferReady := Function.update s1.arm.bufferReady index false } }
  else Except.ok s

/-- The loop of `addAvailableBufferAll`: `n` turns are left and `i` is
the index of the buffer passed on next. -/
def Pco.addAvailableLoop (env : Env) : Nat → Nat → Pco → Throwing Pco
  | 0, _, s => Except.ok s
  | n + 1, i, s =>
    match s.addAvailableBuffer env i with
    | Except.error e => Except.error e
    | Except.ok s1 => Pco.addAvailableLoop env n (i + 1) s1

/-- `Pco::addAvailableBufferAll`. -/
def Pco.addAvailableBufferAll (env : Env) (s : Pco) : Throwing Pco :=
  Pco.addAvailableLoop env env.c.numApiBuffers 0 s

/-- Pco.cpp 1513-1523 of `doArm`: the camera is configured. -/
def Pco.configure (env : Env) (s : Pco) : Throwing Pco :=
  (s.cfgBinningAndRoi env).bind fun s1 =>
  (s1.cfgTriggerMode env).bind fun s2 =>
  (s2.cfgTimestampMode env).bind fun s3 =>
  (s3.cfgAcquireMode env).bind fun s4 =>
  (s4.cfgAdcMode env).bind fun s5 =>
  (s5.cfgBitAlignmentMode env).bind fun s6 =>
  (s6.cfgPixelRate env).bind fun s7 =>
  (s7.cfgAcquisitionTimes env).bind fun s8 =>
  (s8.allocateImageBuffers env).bind fun s9 =>
  s9.adjustTransferParamsAndLut env

/-- Pco.cpp 1525-1550 of `doArm`: the parameters are updated with what
has been set.  The call `gangConnection->sendMemberConfig`, which leaves
Pco.cpp, is not modelled. -/
def Pco.reportSettings (s : Pco) : Pco :=
  let a := s.arm
  { s with
    paramBitAlignment := a.bitAlignmentMode
    arm :=
      { a with
        paramADMinX := a.reqRoiStartX
        paramADMinY := a.reqRoiStartY
        paramADSizeX := a.reqRoiSizeX
        paramADSizeY := a.reqRoiSizeY
        paramADTriggerMode := s.triggerMode
        paramTimestampMode := s.timestampMode
        paramAcquireMode := a.acquireMode
        paramAdcMode := a.adcMode
        paramPixRate := a.pixRateValue
        paramHwBinX := a.hwBinX
        paramHwBinY := a.hwBinY
        paramHwRoiX1 := a.hwRoiX1
        paramHwRoiY1 := a.hwRoiY1
        paramHwRoiX2 := a.hwRoiX2
        paramHwRoiY2 := a.hwRoiY2
        paramXCamSize := s.xCamSize
        paramYCamSize := s.yCamSize } }

/-- Pco.cpp 1478-1569 of `doArm`: everything it does inside the scope of
its `TakeLock` before the lines for the PCO4000. -/
def Pco.armLocked (env : Env) (s : Pco) : Throwing Pco :=
  ((s.readSettings env.c).configure env).bind fun s1 =>
  let s2 := s1.reportSettings
  (s2.call env.api (ApiCall.camlinkSetImageParameters s2.xCamSize s2.yCamSize)).bind fun s3 =>
  (s3.setCameraClock env).bind fun s4 =>
  (s4.addAvailableBufferAll env).bind fun s5 =>
  let s6 : Pco :=
    { s5 with lastImageNumber := 0, arm := { s5.arm with lastImageNumberValid := false } }
  (s6.call env.api ApiCall.arm).bind fun s7 =>
  s7.call env.api (ApiCall.setRecordingState env.c.recorderStateOn)

/-- Pco.cpp 1571-1578 of `doArm`: for the PCO4000 the lock is given up by
a `FreeLock` while the frames that have arrived are discarded.  The sleep
is not modelled. -/
def Pco.dropFirstFrames (c : Constants) (s : Pco) : Pco :=
  if s.camType = c.cameraType4000 then s.unlock.discardImages.lock else s

/-- `Pco::doArm`: the `TakeLock` at its top is in scope to its end, also
when an exception leaves it.  The arm actions take this function through
`Env.doArm`. -/
def Pco.doArm (env : Env) (s : Pco) : Throwing Pco :=
  match s.lock.armLocked env with
  | Except.ok s1 => Except.ok (s1.dropFirstFrames env.c).unlock
  | Except.error e => Except.error (e.1, e.2.unlock)

/-- The log that `doArm` or `smConnectToCamera` adds to that of the
state it starts in. -/
def added (before after : Pco) : List Effect :=
  after.log.drop before.log.length

/-- A camera of 8 by 4 pixels, freshly connected, with the default
parameters for a full frame. -/
def smallCamera (camType : Int) : Pco :=
  { camType := camType,
    arm := { xResActual := 8, yResActual := 4, paramADSizeX := 8, paramADSizeY := 4 } }

/-- A camera of 8 by 4 pixels set up for a full frame with reversal in X
requested. -/
def reversedCamera : Pco :=
  { arm := { xResActual := 8, yResActual := 4, reqRoiSizeX := 8, reqRoiSizeY := 4, reverseX := 1 } }

/-- The state an action that may raise leaves behind, raised or not. -/
def Throwing.final : Throwing (StateSelector × Pco) → Pco
  | Except.ok r => r.2
  | Except.error e => e.2

/-! ## The performance counters (PerformanceMonitor.cpp) -/

/-- The constants of `PerformanceMonitor::Param` that PerformanceMonitor.cpp
names; the type is declared in PerformanceMonitor.h. -/
inductive PerformanceMonitor.Param
  | PERF_REBOOT | PERF_CONNECT | PERF_ARM | PERF_START | PERF_GOODFRAME | PERF_MISSINGFRAME
  | PERF_OUTOFARRAYS | PERF_INVALIDFRAME | PERF_FRAMESTATUSERROR | PERF_WAITFAULT
  | PERF_DRIVERERROR | PERF_CAPTUREERROR | PERF_POLLGETFRAME
  deriving DecidableEq, Repr

/-- The `IntegerParam` members of `PerformanceMonitor` that count. -/
inductive PerformanceMonitor.Counter
  | paramCntGoodFrame | paramCntMissingFrame | paramCntOutOfArrays | paramCntInvalidFrame
  | paramCntFrameStatusError | paramCntWaitFault | paramCntDriverError | paramCntCaptureError
  | paramCntPollGetFrame | paramCntFault
  | paramAccReboot | paramAccConnect | paramAccArm | paramAccStart | paramAccGoodFrame
  | paramAccMissingFrame | paramAccOutOfArrays | paramAccInvalidFrame
  | paramAccFrameStatusError | paramAccWaitFault | paramAccDriverError | paramAccCaptureError
  | paramAccPollGetFrame | paramAccFault
  deriving DecidableEq, Repr

/-- The values of the counters of a `PerformanceMonitor`, taken as
unbounded integers; every counter is zero after construction. -/
structure PerformanceMonitor where
  value : PerformanceMonitor.Counter → Int := fun _ => 0

namespace PerformanceMonitor

open Param Counter

/-- The map `session` as the constructor fills it
(PerformanceMonitor.cpp 50-58). -/
def session : Param → Option Counter
  | PERF_GOODFRAME => some paramCntGoodFrame
  | PERF_MISSINGFRAME => some paramCntMissingFrame
  | PERF_OUTOFARRAYS => some paramCntOutOfArrays
  | PERF_INVALIDFRAME => some paramCntInvalidFrame
  | PERF_FRAMESTATUSERROR => some paramCntFrameStatusError
  | PERF_WAITFAULT => some paramCntWaitFault
  | PERF_DRIVERERROR => some paramCntDriverError
  | PERF_CAPTUREERROR => some paramCntCaptureError
  | PERF_POLLGETFRAME => some paramCntPollGetFrame
  | _ => none

/-- The map `accumulating` as the constructor fills it
(PerformanceMonitor.cpp 59-71). -/
def accumulating : Param → Option Counter
  | PERF_REBOOT => some paramAccReboot
  | PERF_CONNECT => some paramAccConnect
  | PERF_ARM => some paramAccArm
  | PERF_START => some paramAccStart
  | PERF_GOODFRAME => some paramAccGoodFrame
  | PERF_MISSINGFRAME => some paramAccMissingFrame
  | PERF_OUTOFARRAYS => some paramAccOutOfArrays
  | PERF_INVALIDFRAME => some paramAccInvalidFrame
  | PERF_FRAMESTATUSERROR => some paramAccFrameStatusError
  | PERF_WAITFAULT => some paramAccWaitFault
  | PERF_DRIVERERROR => some paramAccDriverError
  | PERF_CAPTUREERROR => some paramAccCaptureError
  | PERF_POLLGETFRAME => some paramAccPollGetFrame

/-- The keys a loop over either map visits. -/
def params : List Param :=
  [PERF_REBOOT, PERF_CONNECT, PERF_ARM, PERF_START, PERF_GOODFRAME, PERF_MISSINGFRAME,
   PERF_OUTOFARRAYS, PERF_INVALIDFRAME, PERF_FRAMESTATUSERROR, PERF_WAITFAULT,
   PERF_DRIVERERROR, PERF_CAPTUREERROR, PERF_POLLGETFRAME]

/-- An assignment `*(pos->second) = v` or `param = v`. -/
def set (m : PerformanceMonitor) (k : Counter) (v : Int) : PerformanceMonitor :=
  { m with value := fun j => if j = k then v else m.value j }

/-- The statements `pos = map.find(param); if(pos != map.end())
*(pos->second) = *(pos->second) + 1;` of `count`. -/
def advance (m : PerformanceMonitor) (map : Param → Option Counter) (param : Param) :
    PerformanceMonitor :=
  match map param with
  | some k => m.set k (m.value k + 1)
  | none => m

/-- `PerformanceMonitor::count`. -/
def count (m : PerformanceMonitor) (param : Param) (fault : Bool) : PerformanceMonitor :=
  let m1 := m.advance session param
  let m2 := m1.advance accumulating param
  if fault then
    let m3 := m2.set paramCntFault (m2.value paramCntFault + 1)
    m3.set paramAccFault (m3.value paramAccFault + 1)
  else m2

/-- The body `*(pos->second) = 0;` of a loop over a map, for the entry
with the given key. -/
def zeroEntry (map : Param → Option Counter) (m : PerformanceMonitor) (param : Param) :
    PerformanceMonitor :=
  match map param with
  | some k => m.set k 0
  | none => m

/-- A loop `for(pos=map.begin(); pos!=map.end(); ++pos) *(pos->second) = 0;`. -/
def zero (m : PerformanceMonitor) (map : Param → Option Counter) : PerformanceMonitor :=
  params.foldl (zeroEntry map) m

/-- `PerformanceMonitor::clear`. -/
def clear (m : PerformanceMonitor) : PerformanceMonitor :=
  (m.zero session).set paramCntFault 0

/-- `PerformanceMonitor::onReset`. -/
def onReset (m : PerformanceMonitor) : PerformanceMonitor :=
  (m.clear.zero accumulating).set paramAccFault 0

/-- One call on a `PerformanceMonitor`. -/
inductive Op
  | count (param : Param) (fault : Bool)
  | clear
  | onReset
  deriving DecidableEq, Repr

/-- The monitor after a call. -/
def step (m : PerformanceMonitor) : Op → PerformanceMonitor
  | Op.count param fault => m.count param fault
  | Op.clear => m.clear
  | Op.onReset => m.onReset

/-- The monitor after a sequence of calls on a freshly constructed one. -/
def after (ops : List Op) : PerformanceMonitor :=
  ops.foldl step {}

end PerformanceMonitor

/-- Three good frames, the second a fault, with a `clear` after the
second. -/
def PerformanceMonitor.threeGoodFrames : List PerformanceMonitor.Op :=
  [PerformanceMonitor.Op.count PerformanceMonitor.Param.PERF_GOODFRAME false,
   PerformanceMonitor.Op.count PerformanceMonitor.Param.PERF_GOODFRAME true,
   PerformanceMonitor.Op.clear,
   PerformanceMonitor.Op.count PerformanceMonitor.Param.PERF_GOODFRAME false]

/-! ## Camera information (Pco.cpp 933-1093) -/

/-- The conversion of an `unsigned long` value to `int`. -/
def intOfULong (v : Int) : Int :=
  toInt v.toNat

/-- The body of the loop of `initialisePixelRate` for the index `i`
(Pco.cpp 962-979).  The enum strings and severities are not modelled. -/
def Pco.pixelRateEntry (s : Pco) (i : Nat) : Pco :=
  let a := s.arm
  let rate := a.pixelRate.getD i 0
  if rate > 0 then
    let a1 : ArmMembers :=
      { a with pixRateEnumValues := a.pixRateEnumValues.set a.pixRateNumEnums.toNat i }
    let a2 : ArmMembers :=
      if intOfULong rate > a1.pixRateMax then
        { a1 with pixRateMax := intOfULong rate, pixRateMaxValue := a1.pixRateNumEnums }
      else a1
    let a3 : ArmMembers := { a2 with pixRateNumEnums := a2.pixRateNumEnums + 1 }
    let a4 : ArmMembers :=
      if intOfULong rate = a3.pixRate then { a3 with pixRateValue := i } else a3
    { s with arm := a4 }
  else s

/-- `Pco::initialisePixelRate`.  The call `doCallbacksEnum`, which leaves
Pco.cpp, is not modelled. -/
def Pco.initialisePixelRate (env : Env) (s : Pco) : Throwing Pco :=
  (s.call env.api ApiCall.getPixelRate).bind fun s1 =>
  let r : Nat := (env.api.readback s.log ApiCall.getPixelRate).getD 0 0 % 2 ^ env.c.ulongBits
  let s2 : Pco :=
    { s1 with
      arm :=
        { s1.arm with
          pixRate := toInt r, pixRateValue := 0, pixRateMax := 0, pixRateMaxValue := 0,
          pixRateNumEnums := 0 } }
  let s3 : Pco := (List.range env.c.descriptionNumPixelRates).foldl Pco.pixelRateEntry s2
  Except.ok { s3 with arm := { s3.arm with paramPixRate := s3.arm.pixRateValue } }

/-- The `while` loop of `setValidBinning` over unbounded integers.  `fuel`
bounds the number of turns; the result is `none` when it runs out before
the loop ends. -/
def setValidBinningLoop (c : Constants) (max step : Int) :
    Nat → Int → List Int → Option (List Int)
  | 0, _, _ => none
  | fuel + 1, bin, valid =>
    if bin ≤ max then
      setValidBinningLoop c max step fuel
        (if step = c.binSteppingLinear then bin + 1 else bin * 2) (valid.insert bin)
    else some valid

/-- `Pco::setValidBinning`: the elements of the set it leaves in `valid`,
whose previous content `valid.clear()` discards, when the loop ends within
`fuel` turns. -/
def setValidBinning (c : Constants) (_valid : List Int) (max step : Int) (fuel : Nat) :
    Option (List Int) :=
  setValidBinningLoop c max step fuel 1 []

/-- `Pco::checkMemoryBuffer`: the percentage it returns and the state it
leaves.  `validImages` and `maxImages` are `unsigned long`, so that their
arithmetic is modulo `2 ^ ulongBits`; the quotient is converted to the
`int` `percent`. -/
def Pco.checkMemoryBuffer (env : Env) (s : Pco) : Int × Pco :=
  if s.camRamSize > 0 then
    match s.call env.api ApiCall.getActiveRamSegment with
    | Except.error e => (0, e.2)
    | Except.ok s1 =>
      let segment := env.api.ushort s.log ApiCall.getActiveRamSegment
      match s1.call env.api (ApiCall.getNumberOfImagesInSegment segment) with
      | Except.error e => (0, e.2)
      | Except.ok s2 =>
        let back := env.api.readback s1.log (ApiCall.getNumberOfImagesInSegment segment)
        let validImages : Nat := back.getD 0 0 % 2 ^ env.c.ulongBits
        let maxImages : Nat := back.getD 1 0 % 2 ^ env.c.ulongBits
        if maxImages > 0 then
          let percent : Int := toInt (validImages * 100 % 2 ^ env.c.ulongBits / maxImages)
          if validImages > 0 ∧ percent = 0 then (1, s2) else (percent, s2)
        else (0, s2)
  else (0, s)

/-- `Pco::pollCameraNoAcquisition`: the result and the state it leaves. -/
def Pco.pollCameraNoAcquisition (env : Env) (s : Pco) : Bool × Pco :=
  match s.call env.api ApiCall.getStorageMode with
  | Except.error e => (false, e.2)
  | Except.ok s1 =>
    match s1.call env.api ApiCall.getRecorderSubmode with
    | Except.error e => (false, e.2)
    | Except.ok s2 =>
      (true,
        { s2 with
          paramStorageMode := env.api.ushort s.log ApiCall.getStorageMode
          paramRecorderSubmode := env.api.ushort s1.log ApiCall.getRecorderSubmode })

/-- `Pco::pollCamera`: the result and the state it leaves.  The
temperatures, which are of type `double`, are not modelled. -/
def Pco.pollCamera (env : Env) (s : Pco) : Bool × Pco :=
  match s.call env.api ApiCall.getTemperature with
  | Except.error e => (false, e.2)
  | Except.ok s1 =>
    let r := s1.checkMemoryBuffer env
    (true, { r.2 with paramCamRamUse := r.1 })

/-! ## The remaining actions (Pco.cpp 306-518, 651-672) -/

/-- `Pco::smInitialiseWait`. -/
def Pco.smInitialiseWait (s : Pco) : StateSelector × Pco :=
  (StateSelector.firstState, s.startTimer TimerPeriod.connectPeriod Event.TimerExpiry)

/-- `Pco::smPollWhileIdle`. -/
def Pco.smPollWhileIdle (env : Env) (s : Pco) : StateSelector × Pco :=
  let s1 := (s.pollCameraNoAcquisition env).2
  let s2 := (s1.pollCamera env).2
  (StateSelector.firstState, s2.startTimer TimerPeriod.statusPollPeriod Event.TimerExpiry)

/-- `Pco::smPollWhileAcquiring`. -/
def Pco.smPollWhileAcquiring (env : Env) (s : Pco) : StateSelector × Pco :=
  let s1 := (s.pollCamera env).2
  (StateSelector.firstState,
    s1.startTimer TimerPeriod.acquisitionStatusPollPeriod Event.TimerExpiry)

/-- `Pco::smAcquire`. -/
def Pco.smAcquire (env : Env) (s : Pco) : StateSelector × Pco :=
  let s1 := s.nowAcquiring env.c
  let s2 := s1.startCamera env
  (StateSelector.firstState,
    s2.startTimer TimerPeriod.acquisitionStatusPollPeriod Event.TimerExpiry)

/-- `Pco::smDiscardImages`. -/
def Pco.smDiscardImages (s : Pco) : StateSelector × Pco :=
  (StateSelector.firstState, s.discardImages)

/-- `Pco::smFirstImageWhileArmed`. -/
def Pco.smFirstImageWhileArmed (env : Env) (s : Pco) : StateSelector × Pco :=
  if s.triggerMode ≠ env.c.triggerSoftware then
    let r := Pco.receiveImages env (s.nowAcquiring env.c)
    if r.1 = false then (StateSelector.firstState, r.2)
    else if r.2.triggerMode = env.c.triggerAuto then
      (StateSelector.secondState, (r.2.acquisitionComplete env.c).doDisarm env)
    else (StateSelector.thirdState, r.2.acquisitionComplete env.c)
  else (StateSelector.fourthState, s.discardImages)

/-- `Pco::smDisarmAndDiscard`. -/
def Pco.smDisarmAndDiscard (env : Env) (s : Pco) : StateSelector × Pco :=
  (StateSelector.firstState, (s.doDisarm env).discardImages)

/-- `Pco::smTrigger`. -/
def Pco.smTrigger (env : Env) (s : Pco) : StateSelector × Pco :=
  (StateSelector.firstState, s.startCamera env)

/-- The action registered under each name: the ordinal it returns with
the state it leaves, or the exception that leaves it. -/
def Pco.act (env : Env) (s : Pco) : Action → Throwing (StateSelector × Pco)
  | Action.smInitialiseWait => Except.ok s.smInitialiseWait
  | Action.smConnectToCamera => s.smConnectToCamera env
  | Action.smPollWhileIdle => Except.ok (s.smPollWhileIdle env)
  | Action.smPollWhileAcquiring => Except.ok (s.smPollWhileAcquiring env)
  | Action.smRequestArm => Except.ok (s.smRequestArm env)
  | Action.smArmAndAcquire => Except.ok (s.smArmAndAcquire env)
  | Action.smAcquire => Except.ok (s.smAcquire env)
  | Action.smDiscardImages => Except.ok s.smDiscardImages
  | Action.smRequestReboot => s.smRequestReboot env
  | Action.smFirstImageWhileArmed => Except.ok (s.smFirstImageWhileArmed env)
  | Action.smAcquireImage => Except.ok (s.smAcquireImage env)
  | Action.smUnarmedAcquireImage => Except.ok (s.smUnarmedAcquireImage env)
  | Action.smExternalAcquireImage => Except.ok (s.smExternalAcquireImage env)
  | Action.smMakeGangedImage => Except.ok (s.smMakeGangedImage env)
  | Action.smUnarmedMakeGangedImage => Except.ok (s.smUnarmedMakeGangedImage env)
  | Action.smDisarmAndDiscard => Except.ok (s.smDisarmAndDiscard env)
  | Action.smTrigger => Except.ok (s.smTrigger env)
  | Action.smStopAcquisition => Except.ok (s.smStopAcquisition env)
  | Action.smExternalStopAcquisition => Except.ok (s.smExternalStopAcquisition env)

/-- The ordinals at the `result =` and `return` statements of each action. -/
def Action.results : Action → List StateSelector
  | Action.smConnectToCamera => [StateSelector.firstState, StateSelector.secondState]
  | Action.smRequestArm => [StateSelector.firstState, StateSelector.secondState]
  | Action.smArmAndAcquire => [StateSelector.firstState, StateSelector.secondState]
  | Action.smFirstImageWhileArmed =>
    [StateSelector.firstState, StateSelector.secondState, StateSelector.thirdState,
     StateSelector.fourthState]
  | Action.smAcquireImage =>
    [StateSelector.firstState, StateSelector.secondState, StateSelector.thirdState]
  | Action.smUnarmedAcquireImage => [StateSelector.firstState, StateSelector.secondState]
  | Action.smExternalAcquireImage =>
    [StateSelector.firstState, StateSelector.secondState, StateSelector.thirdState]
  | Action.smMakeGangedImage =>
    [StateSelector.firstState, StateSelector.secondState, StateSelector.thirdState]
  | Action.smUnarmedMakeGangedImage => [StateSelector.firstState, StateSelector.secondState]
  | Action.smStopAcquisition => [StateSelector.firstState, StateSelector.secondState]
  | _ => [StateSelector.firstState]

/-! ## Further example configurations -/

/-- The first fourteen pixels of a frame numbered 1 and stamped
2024-10-30 12:34:56 with the bit alignment LSB: century in pixel 4, year in
the century in pixel 5, then month, day, hour, minute and second. -/
def datedFrame : List Nat :=
  [0x00, 0x00, 0x00, 0x01, 0x20, 0x24, 0x10, 0x30, 0x12, 0x34, 0x56, 0x00, 0x00, 0x00]

/-- An acquisition of two images, none delivered yet, whose queue holds
three frames. -/
def threeForTwo : Pco :=
  { imageMode := 1, numImages := 2,
    receivedFrameQueue := [frame 1 [5, 6], frame 2 [7, 8], frame 3 [9, 10]] }

/-- An SDK none of whose calls raises and whose `getPixelRate` reports the
given rate. -/
def pixelRateApi (rate : Nat) : DllApi :=
  { raises := fun _ _ => false, triggerState := fun _ => 1, what := fun _ => "",
    readback := fun _ call => if call = ApiCall.getPixelRate then [rate] else [] }

/-- An environment with the SDK `pixelRateApi`. -/
def pixelRateEnv (rate : Nat) : Env :=
  { c := sdkConstants, api := pixelRateApi rate, convert := fun image _ => image,
    doArm := fun s => Except.ok s }

/-- A camera whose description lists two pixel rates with an unused
location between them, with `pixRateEnumValues` as the constructor leaves
it. -/
def gappedRates : Pco :=
  { arm := { pixelRate := [95333333, 0, 286000000, 0], pixRateEnumValues := [0, 0, 0, 0] } }

/-- An SDK none of whose calls raises and which reports segment 1 as the
active one, holding `validImages` images of at most `maxImages`. -/
def memoryApi (validImages maxImages : Nat) : DllApi :=
  { raises := fun _ _ => false, triggerState := fun _ => 1, what := fun _ => "",
    readback := fun _ call =>
      match call with
      | ApiCall.getActiveRamSegment => [1]
      | ApiCall.getNumberOfImagesInSegment _ => [validImages, maxImages]
      | _ => [] }

/-- An environment with the SDK `memoryApi`. -/
def memoryEnv (validImages maxImages : Nat) : Env :=
  { c := sdkConstants, api := memoryApi validImages maxImages, convert := fun image _ => image,
    doArm := fun s => Except.ok s }

/-- A camera with on-board memory. -/
def withMemory : Pco :=
  { camRamSize := 1000 }

/-- A Dimax camera of the given width and 8 lines, with ROI steps of 4
pixels and 2 lines, asked for the 6 columns from column 2 at full height. -/
def dimaxOfWidth (width : Int) : Pco :=
  { camType := 0x1000,
    arm :=
      { xResActual := width, yResActual := 8, roiHorSteps := 4, roiVertSteps := 2,
        reqRoiStartX := 2, reqRoiSizeX := 6, reqRoiSizeY := 8, reqBinX := 1, reqBinY := 1 } }

/-- A camera of 8 by 4 pixels whose description allows no binning value
at all, asked for a full frame with binning 1. -/
def noBinning : Pco :=
  { arm :=
      { xResActual := 8, yResActual := 4, availBinX := [], availBinY := [], reqBinX := 1,
        reqBinY := 1, reqRoiSizeX := 8, reqRoiSizeY := 4 } }

/-! ## The element indices of `sumArray` (Pco.cpp 2067-2099, 2277-2291) -/

/-- The indices `i` of the loop of `Pco::sumArray<T>`: at each it reads
`addData[i]` and reads and writes `inOutData[i]`. -/
def sumArrayIndices (s : Pco) : List Nat :=
  List.range (s.xCamSize * s.yCamSize).toNat

/-- Every index of the loop of `Pco::sumArray<T>` is within the element
count of both images it is given. -/
def sumArrayInBounds (s : Pco) (startingArray addArray : NDArray) : Prop :=
  ∀ i ∈ sumArrayIndices s, i < startingArray.pData.length ∧ i < addArray.pData.length

instance (s : Pco) (startingArray addArray : NDArray) :
    Decidable (sumArrayInBounds s startingArray addArray) := by
  unfold sumArrayInBounds
  infer_instance

/-- The two images the loop body of `receiveImages` passes to `sumArray`
for the image taken from the queue (Pco.cpp 2067-2099): the image after
the software ROI and the accumulator `imageSum`; `none` when it does not
call `sumArray`. -/
def Pco.sumArrayCall (env : Env) (s : Pco) (image : NDArray) : Option (NDArray × NDArray) :=
  let s1 := s.checkImageNumber env.c image
  let r := s1.softwareRoi env image
  if r.2.numExposures > 1 ∧ r.2.numExposuresCounter + 1 > 1 then
    match r.2.imageSum with
    | some acc =>
      match r.1.dataType with
      | NDDataType_t.NDFloat32 => none
      | NDDataType_t.NDFloat64 => none
      | _ => some (r.1, acc)
    | none => none
  else none

/-- An environment whose conversion for the software ROI yields a new
array with the first two samples of the image. -/
def cropEnv : Env :=
  { c := sdkConstants, api := quietApi,
    convert := fun image _ => { image with id := image.id + 100, pData := image.pData.take 2 },
    doArm := fun s => Except.ok s }

/-- An acquisition of one image summed from two exposures, on a camera
delivering frames of 2 by 2 pixels of which the software ROI keeps two,
with the first frame in the queue. -/
def croppedFirst : Pco :=
  { imageMode := 1, numImages := 1, numExposures := 2, roiRequired := true, xCamSize := 2,
    yCamSize := 2, receivedFrameQueue := [frame 1 [1, 2, 3, 4]] }

/-! # Theorems -/

/-! ## The steps of the loop body -/

theorem sameConfig_refl (s : Pco) : Pco.SameConfig s s := by
  constructor <;> rfl

theorem sameConfig_trans {s t u : Pco} (h1 : Pco.SameConfig s t) (h2 : Pco.SameConfig t u) :
    Pco.SameConfig s u := by
  constructor
  · exact h2.timestampMode.trans h1.timestampMode
  · exact h2.paramBitAlignment.trans h1.paramBitAlignment
  · exact h2.dynResolution.trans h1.dynResolution
  · exact h2.imageMode.trans h1.imageMode
  · exact h2.numImages.trans h1.numImages
  · exact h2.numExposures.trans h1.numExposures
  · exact h2.roiRequired.trans h1.roiRequired
  · exact h2.dataType.trans h1.dataType
  · exact h2.xCamSize.trans h1.xCamSize
  · exact h2.yCamSize.trans h1.yCamSize
  · exact h2.gangConnection.trans h1.gangConnection
  · exact h2.gangServer.trans h1.gangServer

theorem checkImageNumber_sameConfig (c : Constants) (s : Pco) (image : NDArray) :
    Pco.SameConfig s (s.checkImageNumber c image) := by
  unfold Pco.checkImageNumber
  by_cases h : s.imageNumber c image ≠ s.lastImageNumber + 1
  · simp only []; rw [if_pos h]; constructor <;> rfl
  · simp only []; rw [if_neg h]; constructor <;> rfl

theorem checkImageNumber_missingFrames (c : Constants) (s : Pco) (image : NDArray) :
    (s.checkImageNumber c image).missingFrames
      = s.missingFrames + (if s.imageNumber c image ≠ s.lastImageNumber + 1 then 1 else 0) := by
  unfold Pco.checkImageNumber
  by_cases h : s.imageNumber c image ≠ s.lastImageNumber + 1
  · simp only []; rw [if_pos h, if_pos h]
  · simp only []; rw [if_neg h, if_neg h]; simp

theorem checkImageNumber_lastImageNumber (c : Constants) (s : Pco) (image : NDArray) :
    (s.checkImageNumber c image).lastImageNumber = s.imageNumber c image := rfl

theorem softwareRoi_sameConfig (env : Env) (s : Pco) (image : NDArray) :
    Pco.SameConfig s (s.softwareRoi env image).2 := by
  unfold Pco.softwareRoi
  cases s.roiRequired
  · exact sameConfig_refl s
  · constructor <;> rfl

theorem sumExposures_sameConfig (s : Pco) (image : NDArray) :
    Pco.SameConfig s (s.sumExposures image).2.2 := by
  unfold Pco.sumExposures
  split
  · simp only []
    split <;> split <;> (try split) <;> constructor <;> rfl
  · exact sameConfig_refl s

theorem imageComplete_sameConfig (s : Pco) (image : NDArray) :
    Pco.SameConfig s (s.imageComplete image) := by
  constructor <;> rfl

theorem finishImage_sameConfig (c : Constants) (s : Pco) (image : NDArray) :
    Pco.SameConfig s (s.finishImage c image) := by
  unfold Pco.finishImage
  simp only []
  split <;> split <;> (try split) <;> constructor <;> rfl

theorem processImage_sameConfig (env : Env) (s : Pco) (image : NDArray) :
    Pco.SameConfig s (s.processImage env image) := by
  have h1 := checkImageNumber_sameConfig env.c s image
  have h2 := softwareRoi_sameConfig env (s.checkImageNumber env.c image) image
  have h3 := sumExposures_sameConfig ((s.checkImageNumber env.c image).softwareRoi env image).2
    ((s.checkImageNumber env.c image).softwareRoi env image).1
  unfold Pco.processImage
  simp only []
  split
  · exact sameConfig_trans (sameConfig_trans h1 (sameConfig_trans h2 h3))
      (finishImage_sameConfig _ _ _)
  · exact sameConfig_trans h1 (sameConfig_trans h2 h3)

/-! ## C1: the missing-frame counter -/

theorem sameNumbering_refl (s : Pco) : Pco.SameNumbering s s := by
  constructor <;> rfl

theorem sameNumbering_trans {s t u : Pco} (h1 : Pco.SameNumbering s t)
    (h2 : Pco.SameNumbering t u) : Pco.SameNumbering s u := by
  constructor
  · exact h2.missingFrames.trans h1.missingFrames
  · exact h2.lastImageNumber.trans h1.lastImageNumber
  · exact h2.receivedFrameQueue.trans h1.receivedFrameQueue

theorem softwareRoi_sameNumbering (env : Env) (s : Pco) (image : NDArray) :
    Pco.SameNumbering s (s.softwareRoi env image).2 := by
  unfold Pco.softwareRoi
  cases s.roiRequired
  · exact sameNumbering_refl s
  · constructor <;> rfl

theorem sumExposures_sameNumbering (s : Pco) (image : NDArray) :
    Pco.SameNumbering s (s.sumExposures image).2.2 := by
  unfold Pco.sumExposures
  split
  · simp only []
    split <;> split <;> (try split) <;> constructor <;> rfl
  · exact sameNumbering_refl s

theorem finishImage_sameNumbering (c : Constants) (s : Pco) (image : NDArray) :
    Pco.SameNumbering s (s.finishImage c image) := by
  unfold Pco.finishImage
  simp only []
  split <;> split <;> (try split) <;> constructor <;> rfl

/-- What the steps after the missing-frame check leave alone, for the
whole loop body. -/
theorem processImage_after_check (env : Env) (s : Pco) (image : NDArray) :
    Pco.SameNumbering (s.checkImageNumber env.c image) (s.processImage env image) := by
  have h2 := softwareRoi_sameNumbering env (s.checkImageNumber env.c image) image
  have h3 := sumExposures_sameNumbering
    ((s.checkImageNumber env.c image).softwareRoi env image).2
    ((s.checkImageNumber env.c image).softwareRoi env image).1
  unfold Pco.processImage
  simp only []
  split
  · exact sameNumbering_trans (sameNumbering_trans h2 h3) (finishImage_sameNumbering _ _ _)
  · exact sameNumbering_trans h2 h3

theorem processImage_missingFrames (env : Env) (s : Pco) (image : NDArray) :
    (s.processImage env image).missingFrames
      = s.missingFrames + (if s.imageNumber env.c image ≠ s.lastImageNumber + 1 then 1 else 0) := by
  rw [(processImage_after_check env s image).missingFrames, checkImageNumber_missingFrames]

theorem processImage_lastImageNumber (env : Env) (s : Pco) (image : NDArray) :
    (s.processImage env image).lastImageNumber = s.imageNumber env.c image := by
  rw [(processImage_after_check env s image).lastImageNumber, checkImageNumber_lastImageNumber]

theorem processImage_queue (env : Env) (s : Pco) (image : NDArray) :
    (s.processImage env image).receivedFrameQueue = s.receivedFrameQueue := by
  rw [(processImage_after_check env s image).receivedFrameQueue]
  unfold Pco.checkImageNumber
  simp only []
  split <;> rfl

theorem withQueue_sameConfig (s : Pco) (q : List NDArray) :
    Pco.SameConfig s (s.withQueue q) := by
  constructor <;> rfl

theorem frameNumbers_append (b : Bool) (dec : NDArray → Int) (last : Int)
    (xs ys : List NDArray) :
    frameNumbers b dec last (xs ++ ys)
      = frameNumbers b dec last xs
          ++ frameNumbers b dec (lastNumber last (frameNumbers b dec last xs)) ys := by
  induction xs generalizing last with
  | nil => rfl
  | cons x xs ih => simp [frameNumbers, lastNumber, ih]

theorem countGaps_append (last : Int) (ns ms : List Int) :
    countGaps last (ns ++ ms) = countGaps last ns + countGaps (lastNumber last ns) ms := by
  induction ns generalizing last with
  | nil => simp [countGaps, lastNumber]
  | cons n ns ih => simp [countGaps, lastNumber, ih, Nat.add_assoc]

theorem lastNumber_append (last : Int) (ns ms : List Int) :
    lastNumber last (ns ++ ms) = lastNumber (lastNumber last ns) ms := by
  induction ns generalizing last with
  | nil => rfl
  | cons n ns ih => simp [lastNumber, ih]

/-- The loop of `receiveImages`: the frames it takes are a front part of
the queue, and the missing-frame counter and the last image number
change as the numbers of those frames say. -/
theorem receiveLoop_numbering (env : Env) (b : Bool) (dec : NDArray → Int)
    (q : List NDArray) (s : Pco)
    (hq : s.receivedFrameQueue = q)
    (hb : s.binaryTimestamp env.c = b)
    (hdec : ∀ image : NDArray,
      extractImageNumber env.c s.paramBitAlignment s.dynResolution image.pData = dec image) :
    ∃ done : List NDArray,
      q = done ++ (Pco.receiveLoop env q s).receivedFrameQueue ∧
      Pco.SameConfig s (Pco.receiveLoop env q s) ∧
      (Pco.receiveLoop env q s).missingFrames
        = s.missingFrames + countGaps s.lastImageNumber
            (frameNumbers b dec s.lastImageNumber done) ∧
      (Pco.receiveLoop env q s).lastImageNumber
        = lastNumber s.lastImageNumber (frameNumbers b dec s.lastImageNumber done) := by
  induction q generalizing s with
  | nil =>
    refine ⟨[], ?_, sameConfig_refl s, ?_, ?_⟩
    · simp [Pco.receiveLoop, hq]
    · simp [Pco.receiveLoop, frameNumbers, countGaps]
    · simp [Pco.receiveLoop, frameNumbers, lastNumber]
  | cons image rest ih =>
    by_cases hw : s.wantsImages env.c = true
    · have hloop : Pco.receiveLoop env (image :: rest) s
          = Pco.receiveLoop env rest
              ((s.withQueue rest).processImage env image) := by
        rw [Pco.receiveLoop, if_pos hw]
      have hcfg := processImage_sameConfig env (s.withQueue rest) image
      have hn : (s.withQueue rest).imageNumber env.c image
          = (if b = true then dec image else s.lastImageNumber + 1) := by
        unfold Pco.imageNumber
        rw [← hb, ← hdec]
        rfl
      obtain ⟨done, h1, h2, h3, h4⟩ := ih
        ((s.withQueue rest).processImage env image)
        (by rw [processImage_queue]; rfl)
        (by
          rw [← hb]
          unfold Pco.binaryTimestamp
          rw [hcfg.timestampMode]
          rfl)
        (by
          intro im
          rw [hcfg.paramBitAlignment, hcfg.dynResolution]
          exact hdec im)
      rw [hloop]
      refine ⟨image :: done, ?_, ?_, ?_, ?_⟩
      · rw [List.cons_append, ← h1]
      · exact sameConfig_trans (sameConfig_trans (withQueue_sameConfig s rest) hcfg) h2
      · rw [h3, processImage_missingFrames, processImage_lastImageNumber, hn]
        simp only [frameNumbers, countGaps]
        have : (s.withQueue rest).missingFrames = s.missingFrames := rfl
        have hl : (s.withQueue rest).lastImageNumber
            = s.lastImageNumber := rfl
        rw [this, hl]
        push_cast
        split
        · simp; ring
        · simp
      · rw [h4, processImage_lastImageNumber, hn]
        simp only [frameNumbers, lastNumber]
    · have hloop : Pco.receiveLoop env (image :: rest) s = s := by
        rw [Pco.receiveLoop, if_neg hw]
      rw [hloop]
      refine ⟨[], ?_, sameConfig_refl s, ?_, ?_⟩
      · simp [hq]
      · simp [frameNumbers, countGaps]
      · simp [frameNumbers, lastNumber]

theorem receiveImages_sameConfig (env : Env) (s : Pco) :
    Pco.SameConfig (Pco.receiveLoop env s.receivedFrameQueue s) (Pco.receiveImages env s).2 := by
  constructor <;> rfl

theorem receiveImages_sameNumbering (env : Env) (s : Pco) :
    Pco.SameNumbering (Pco.receiveLoop env s.receivedFrameQueue s)
      (Pco.receiveImages env s).2 := by
  constructor <;> rfl

/-- The numbering of `receiveLoop_numbering` for a series of calls. -/
theorem receiveImagesSeries_numbering (env : Env) (b : Bool) (dec : NDArray → Int)
    (batches : List (List NDArray)) (s : Pco)
    (hb : s.binaryTimestamp env.c = b)
    (hdec : ∀ image : NDArray,
      extractImageNumber env.c s.paramBitAlignment s.dynResolution image.pData = dec image) :
    ∃ done : List NDArray,
      s.receivedFrameQueue ++ batches.flatten
        = done ++ (Pco.receiveImagesSeries env batches s).receivedFrameQueue ∧
      Pco.SameConfig s (Pco.receiveImagesSeries env batches s) ∧
      (Pco.receiveImagesSeries env batches s).missingFrames
        = s.missingFrames + countGaps s.lastImageNumber
            (frameNumbers b dec s.lastImageNumber done) ∧
      (Pco.receiveImagesSeries env batches s).lastImageNumber
        = lastNumber s.lastImageNumber (frameNumbers b dec s.lastImageNumber done) := by
  induction batches generalizing s with
  | nil =>
    refine ⟨[], ?_, sameConfig_refl s, ?_, ?_⟩
    · simp [Pco.receiveImagesSeries]
    · simp [Pco.receiveImagesSeries, frameNumbers, countGaps]
    · simp [Pco.receiveImagesSeries, frameNumbers, lastNumber]
  | cons batch batches ih =>
    obtain ⟨done1, h1, hc1, hm1, hl1⟩ := receiveLoop_numbering env b dec
      (s.receivedFrameQueue ++ batch)
      (s.withQueue (s.receivedFrameQueue ++ batch)) rfl hb hdec
    have hcfg : Pco.SameConfig s
        (Pco.receiveImages env
          (s.withQueue (s.receivedFrameQueue ++ batch))).2 := by
      exact sameConfig_trans (sameConfig_trans (withQueue_sameConfig _ _) hc1)
        (receiveImages_sameConfig env (s.withQueue (s.receivedFrameQueue ++ batch)))
    obtain ⟨done2, h2, hc2, hm2, hl2⟩ := ih
      (Pco.receiveImages env
        (s.withQueue (s.receivedFrameQueue ++ batch))).2
      (by
        rw [← hb]
        unfold Pco.binaryTimestamp
        rw [hcfg.timestampMode])
      (by
        intro im
        rw [hcfg.paramBitAlignment, hcfg.dynResolution]
        exact hdec im)
    have hn := receiveImages_sameNumbering env (s.withQueue (s.receivedFrameQueue ++ batch))
    rw [hn.receivedFrameQueue] at h2
    rw [hn.missingFrames, hn.lastImageNumber] at hm2
    rw [hn.lastImageNumber] at hl2
    have hs1 : (s.withQueue (s.receivedFrameQueue ++ batch)).receivedFrameQueue
        = s.receivedFrameQueue ++ batch := rfl
    have hs2 : (s.withQueue (s.receivedFrameQueue ++ batch)).missingFrames
        = s.missingFrames := rfl
    have hs3 : (s.withQueue (s.receivedFrameQueue ++ batch)).lastImageNumber
        = s.lastImageNumber := rfl
    simp only [hs1] at h2 hm2 hl2
    simp only [hs2, hs3] at hm1 hl1
    refine ⟨done1 ++ done2, ?_, sameConfig_trans hcfg hc2, ?_, ?_⟩
    · rw [List.flatten_cons, ← List.append_assoc]
      refine (congrArg (fun l => l ++ batches.flatten) h1).trans ?_
      show (done1 ++ _) ++ batches.flatten = _
      rw [List.append_assoc, h2, List.append_assoc]
      rfl
    · show (Pco.receiveImagesSeries env batches _).missingFrames = _
      rw [hm2, hm1, hl1, frameNumbers_append, countGaps_append]
      push_cast
      ring
    · show (Pco.receiveImagesSeries env batches _).lastImageNumber = _
      rw [hl2, hl1, frameNumbers_append, lastNumber_append]

theorem countGaps_dead_reckoning (dec : NDArray → Int) (last : Int) (frames : List NDArray) :
    countGaps last (frameNumbers false dec last frames) = 0 := by
  induction frames generalizing last with
  | nil => rfl
  | cons f frames ih => simp [frameNumbers, countGaps, ih]

theorem drained_append (done rest : List NDArray) : drained (done ++ rest) rest = done := by
  simp [drained]

/-- C1: for every series of calls of `receiveImages`, with frames arriving
between the calls, the frames taken from the queue are a front part of
the frames that were queued, the missing-frame counter grows by the
number of those frames whose image number (decoded from the frame in the
binary and binary+ASCII time stamp modes, otherwise one more than the last
number) is not the last image number plus one when the frame is
processed, and `lastImageNumber` ends as the number of the last frame
processed.  For the numbers 1, 2, 4, 5 after arming the counter grows by
exactly one, and with binary time stamps off it does not grow. -/
theorem receiveImages_missing_frames (env : Env) (s : Pco) (batches : List (List NDArray)) :
    let t := Pco.receiveImagesSeries env batches s
    let frames := drained (s.receivedFrameQueue ++ batches.flatten) t.receivedFrameQueue
    let numbers := frameNumbers (s.binaryTimestamp env.c)
      (fun image => extractImageNumber env.c s.paramBitAlignment s.dynResolution image.pData)
      s.lastImageNumber frames
    s.receivedFrameQueue ++ batches.flatten = frames ++ t.receivedFrameQueue ∧
    t.missingFrames = s.missingFrames + countGaps s.lastImageNumber numbers ∧
    t.lastImageNumber = lastNumber s.lastImageNumber numbers ∧
    (s.lastImageNumber = 0 → numbers = [1, 2, 4, 5] → t.missingFrames = s.missingFrames + 1) ∧
    (s.binaryTimestamp env.c = false → t.missingFrames = s.missingFrames) := by
  intro t frames numbers
  obtain ⟨done, h1, _, h3, h4⟩ := receiveImagesSeries_numbering env (s.binaryTimestamp env.c)
    (fun image => extractImageNumber env.c s.paramBitAlignment s.dynResolution image.pData)
    batches s rfl (fun _ => rfl)
  have hframes : frames = done := by
    show drained (s.receivedFrameQueue ++ batches.flatten) t.receivedFrameQueue = done
    rw [h1]
    exact drained_append done _
  have hm : t.missingFrames = s.missingFrames + countGaps s.lastImageNumber numbers := by
    show _ = s.missingFrames + (countGaps s.lastImageNumber (frameNumbers _ _ _ frames) : Int)
    rw [hframes]
    exact h3
  refine ⟨?_, hm, ?_, ?_, ?_⟩
  · rw [hframes]; exact h1
  · show _ = lastNumber s.lastImageNumber (frameNumbers _ _ _ frames)
    rw [hframes]
    exact h4
  · intro h0 hn
    rw [hm, hn, h0]
    rfl
  · intro hoff
    rw [hm]
    show _ + (countGaps s.lastImageNumber (frameNumbers _ _ _ frames) : Int) = _
    rw [hoff, countGaps_dead_reckoning]
    simp

theorem receiveImages_missing_frames_witness :
    gapStart.lastImageNumber = 0 ∧
    (Pco.receiveImagesSeries quietEnv gapBatches gapStart).receivedFrameQueue = [] ∧
    (Pco.receiveImagesSeries quietEnv gapBatches gapStart).delivered.length = 4 ∧
    (Pco.receiveImagesSeries quietEnv gapBatches gapStart).missingFrames
      = gapStart.missingFrames + 1 :=
  ⟨rfl, by decide, by decide,
    (receiveImages_missing_frames quietEnv gapStart gapBatches).2.2.2.1 rfl (by decide)⟩

/-! ## C2: delivery in queue order with consecutive sequence ids -/

theorem sameOutput_refl (s : Pco) : Pco.SameOutput s s := by
  constructor <;> rfl

theorem sameOutput_trans {s t u : Pco} (h1 : Pco.SameOutput s t)
    (h2 : Pco.SameOutput t u) : Pco.SameOutput s u := by
  constructor
  · exact h2.delivered.trans h1.delivered
  · exact h2.arrayCounter.trans h1.arrayCounter
  · exact h2.numImagesCounter.trans h1.numImagesCounter
  · exact h2.numExposuresCounter.trans h1.numExposuresCounter
  · exact h2.imageSum.trans h1.imageSum
  · exact h2.gangOffered.trans h1.gangOffered

theorem checkImageNumber_sameOutput (c : Constants) (s : Pco) (image : NDArray) :
    Pco.SameOutput s (s.checkImageNumber c image) := by
  unfold Pco.checkImageNumber
  by_cases h : s.imageNumber c image ≠ s.lastImageNumber + 1
  · simp only []; rw [if_pos h]; constructor <;> rfl
  · simp only []; rw [if_neg h]; constructor <;> rfl

theorem softwareRoi_sameOutput (env : Env) (s : Pco) (image : NDArray) :
    Pco.SameOutput s (s.softwareRoi env image).2 := by
  unfold Pco.softwareRoi
  cases s.roiRequired
  · exact sameOutput_refl s
  · constructor <;> rfl

/-- The image the software ROI step yields depends on the configuration
only. -/
theorem softwareRoi_image_congr (env : Env) (s t : Pco) (image : NDArray)
    (h : Pco.SameConfig s t) :
    (t.softwareRoi env image).1 = (s.softwareRoi env image).1 := by
  unfold Pco.softwareRoi
  rw [h.roiRequired, h.dataType]
  cases s.roiRequired <;> rfl

/-- The information attached to a finished image depends on the
configuration and on `arrayCounter` only. -/
theorem attachInfo_congr (c : Constants) (s t : Pco) (image : NDArray)
    (h1 : t.timestampMode = s.timestampMode) (h2 : t.paramBitAlignment = s.paramBitAlignment)
    (h3 : t.dynResolution = s.dynResolution) (ha : t.arrayCounter = s.arrayCounter) :
    t.attachInfo c image = s.attachInfo c image := by
  unfold Pco.attachInfo Pco.binaryTimestamp
  rw [h1, h2, h3, ha]

theorem outputImage_congr (env : Env) (s t : Pco) (a : Int) (image : NDArray)
    (h : Pco.SameConfig s t) :
    t.outputImage env a image = s.outputImage env a image := by
  unfold Pco.outputImage
  rw [softwareRoi_image_congr env s t image h]
  exact attachInfo_congr env.c _ _ _ h.timestampMode h.paramBitAlignment h.dynResolution rfl

theorem expectedOutput_congr (env : Env) (s t : Pco) (a : Int) (q : List NDArray)
    (h : Pco.SameConfig s t) :
    t.expectedOutput env a q = s.expectedOutput env a q := by
  induction q generalizing a with
  | nil => rfl
  | cons image rest ih =>
    simp only [Pco.expectedOutput, ih, outputImage_congr env s t a image h]

theorem finishImage_delivers (c : Constants) (s : Pco) (image : NDArray)
    (hgang : s.gangServer = none) :
    (s.finishImage c image).delivered = s.delivered ++ [s.attachInfo c image] ∧
    (s.finishImage c image).arrayCounter = s.arrayCounter + 1 ∧
    (s.finishImage c image).numImagesCounter = s.numImagesCounter + 1 := by
  unfold Pco.finishImage
  simp only []
  cases hc : s.gangConnection
  · rw [if_neg (by simp)]
    simp only [hgang]
    exact ⟨rfl, rfl, rfl⟩
  · rw [if_pos rfl]
    simp only [hgang]
    exact ⟨rfl, rfl, rfl⟩

theorem range_map_getD (xs : List Nat) :
    (List.range xs.length).map (fun i => xs.getD i 0) = xs := by
  apply List.ext_getElem
  · simp
  · intro i h1 h2
    simp only [List.getElem_map, List.getElem_range]
    rw [List.getD_eq_getElem _ _ h2]

theorem zipWith_map_range (F : Nat → Nat → Nat) (g h : Nat → Nat) (r : List Nat) :
    List.zipWith F (r.map g) (r.map h) = r.map (fun i => F (g i) (h i)) := by
  induction r with
  | nil => rfl
  | cons a r ih => simp [ih]

theorem sumData_eq_zipWith (bits n : Nat) (xs ys : List Nat)
    (hx : xs.length = n) (hy : ys.length = n) :
    sumData bits n xs ys = List.zipWith (fun x y => (x + y) % 2 ^ bits) xs ys := by
  induction n generalizing xs ys with
  | zero =>
    have : xs = [] := List.length_eq_zero.mp hx
    subst this
    simp [sumData]
  | succ n ih =>
    cases xs with
    | nil => simp at hx
    | cons x xs =>
      cases ys with
      | nil => simp at hy
      | cons y ys =>
        simp only [List.length_cons, Nat.add_right_cancel_iff] at hx hy
        simp [sumData, ih xs ys hx hy]

theorem sumFrames_length (bits n : Nat) (frames : List NDArray) :
    (sumFrames bits n frames).length = n := by
  simp [sumFrames]

/-- The samples of one frame, reduced, are the sum of that frame alone. -/
theorem sumFrames_single (bits : Nat) (f : NDArray) :
    f.pData.map (fun x => x % 2 ^ bits) = sumFrames bits f.pData.length [f] := by
  unfold sumFrames
  conv_lhs => rw [← range_map_getD f.pData]
  simp [List.map_map]

/-- Adding a frame to an accumulator that holds, modulo the sample width,
the sum of the frames before it gives the sum with that frame. -/
theorem sumData_accumulates (bits n : Nat) (part : List NDArray) (f : NDArray)
    (acc : List Nat) (hf : f.pData.length = n) (ha : acc.length = n)
    (hacc : acc.map (fun x => x % 2 ^ bits) = sumFrames bits n part) :
    sumData bits n f.pData acc = sumFrames bits n (part ++ [f]) := by
  rw [sumData_eq_zipWith bits n _ _ hf ha]
  have hx := range_map_getD f.pData
  have hy := range_map_getD acc
  rw [hf] at hx
  rw [ha] at hy
  have hpt : ∀ i ∈ List.range n,
      acc.getD i 0 % 2 ^ bits
        = (part.map (fun g => g.pData.getD i 0)).sum % 2 ^ bits := by
    have h := hacc
    rw [← hy] at h
    unfold sumFrames at h
    rw [List.map_map] at h
    intro i hi
    have := (List.map_inj_left.mp h) i hi
    simpa using this
  conv_lhs => rw [← hx, ← hy]
  rw [zipWith_map_range]
  unfold sumFrames
  apply List.map_congr_left
  intro i hi
  simp only [List.map_append, List.map_cons, List.map_nil, List.sum_append, List.sum_cons,
    List.sum_nil, add_zero]
  rw [Nat.add_mod, hpt i hi, ← Nat.add_mod, Nat.add_comm]

theorem sumFrames_reduced (bits n : Nat) (frames : List NDArray) :
    (sumFrames bits n frames).map (fun x => x % 2 ^ bits) = sumFrames bits n frames := by
  unfold sumFrames
  rw [List.map_map]
  apply List.map_congr_left
  intro i _
  simp

/-- The summing step when more than one exposure is configured, as one
update of the state. -/
theorem sumExposures_multi (s : Pco) (image : NDArray) (hE : 1 < s.numExposures) :
    s.sumExposures image
      = ((if s.numExposuresCounter + 1 > 1 then
            (match s.imageSum with
              | some acc => sumByType s image acc
              | none => image)
          else image),
         (if s.numExposuresCounter + 1 ≥ s.numExposures then true else false),
         { s with
           numExposuresCounter :=
             if s.numExposuresCounter + 1 ≥ s.numExposures then 0 else s.numExposuresCounter + 1
           imageSum := some (if s.numExposuresCounter + 1 > 1 then
              (match s.imageSum with
                | some acc => sumByType s image acc
                | none => image)
              else image)
           released := if s.numExposuresCounter + 1 > 1 then
              (match s.imageSum with
                | some acc => s.released ++ [acc.id]
                | none => s.released)
              else s.released }) := by
  unfold Pco.sumExposures
  rw [if_pos hE]
  by_cases h1 : s.numExposuresCounter + 1 > 1 <;>
    by_cases h2 : s.numExposuresCounter + 1 ≥ s.numExposures <;>
    cases hs : s.imageSum <;>
    simp only [Pco.release, h1, h2, hs, if_true, if_false] <;> rfl

theorem sumByType_16 (s : Pco) (image acc : NDArray)
    (h : image.dataType = NDDataType_t.NDUInt16 ∨ image.dataType = NDDataType_t.NDInt16) :
    (sumByType s image acc).pData
      = sumData 16 (s.xCamSize * s.yCamSize).toNat image.pData acc.pData := by
  unfold sumByType
  rcases h with h | h <;> rw [h] <;> rfl

theorem attachInfo_pData (c : Constants) (s : Pco) (image : NDArray) :
    (s.attachInfo c image).pData = image.pData := rfl

/-- A finished image joins the finished images, whatever the gang server
does with it, and counts as at most one more image. -/
theorem finishImage_finished (c : Constants) (s : Pco) (image : NDArray) :
    (s.finishImage c image).finished = s.finished ++ [s.attachInfo c image] ∧
    (s.finishImage c image).numExposuresCounter = s.numExposuresCounter ∧
    (s.finishImage c image).numImagesCounter ≤ s.numImagesCounter + 1 := by
  unfold Pco.finishImage Pco.finished
  cases hc : s.gangConnection <;> cases hg : s.gangServer with
  | none => simp [Pco.imageComplete, Pco.release, hg]
  | some g =>
    cases hr : g.imageReceived s.numImagesCounter (s.attachInfo c image) <;>
      simp [Pco.imageComplete, Pco.release, hg, hr]

theorem finished_congr (s t : Pco) (h1 : t.gangServer = s.gangServer)
    (h2 : t.delivered = s.delivered) (h3 : t.gangOffered = s.gangOffered) :
    t.finished = s.finished := by
  unfold Pco.finished
  rw [h1, h2, h3]

theorem softwareRoi_off (env : Env) (s : Pco) (image : NDArray) (h : s.roiRequired = false) :
    s.softwareRoi env image = (image, s) := by
  unfold Pco.softwareRoi
  rw [h]
  rfl

/-- One turn of the loop keeps the summing state, moving to the next
grouping of the frames. -/
theorem processImage_accumulates (env : Env) (s0 : Pco) (runs : List (List NDArray))
    (part : List NDArray) (s : Pco) (f : NDArray)
    (hinv : Pco.Accumulated s0 runs part s)
    (hE : 1 < s0.numExposures) (hroi : s0.roiRequired = false)
    (hpart : (part.length : Int) < s0.numExposures)
    (hf : (f.dataType = NDDataType_t.NDUInt16 ∨ f.dataType = NDDataType_t.NDInt16) ∧
      f.pData.length = (s0.xCamSize * s0.yCamSize).toNat) :
    Pco.Accumulated s0 (nextRun s0.numExposures (runs, part) f).1
      (nextRun s0.numExposures (runs, part) f).2 (s.processImage env f) := by
  have hc1 := checkImageNumber_sameConfig env.c s f
  have ho1 := checkImageNumber_sameOutput env.c s f
  have hcs : Pco.SameConfig s0 (s.checkImageNumber env.c f) :=
    sameConfig_trans hinv.config hc1
  unfold Pco.processImage
  simp only []
  rw [softwareRoi_off env _ f (by rw [hcs.roiRequired]; exact hroi)]
  simp only []
  rw [sumExposures_multi _ _ (by rw [hcs.numExposures]; exact hE)]
  simp only []
  have hcnt : (s.checkImageNumber env.c f).numExposuresCounter = part.length := by
    rw [ho1.numExposuresCounter]; exact hinv.counter
  have hfin : (s.checkImageNumber env.c f).finished = s.finished :=
    finished_congr _ _ hc1.gangServer ho1.delivered ho1.gangOffered
  have hsize : ((s.checkImageNumber env.c f).xCamSize * (s.checkImageNumber env.c f).yCamSize).toNat
      = (s0.xCamSize * s0.yCamSize).toNat := by
    rw [hcs.xCamSize, hcs.yCamSize]
  -- the samples of the image after the summing step
  have himage : ∀ image' : NDArray,
      image' = (if (s.checkImageNumber env.c f).numExposuresCounter + 1 > 1 then
          (match (s.checkImageNumber env.c f).imageSum with
            | some acc => sumByType (s.checkImageNumber env.c f) f acc
            | none => f)
        else f) →
      image'.pData.length = (s0.xCamSize * s0.yCamSize).toNat ∧
      image'.pData.map (fun x => x % 2 ^ 16)
        = sumFrames 16 (s0.xCamSize * s0.yCamSize).toNat (part ++ [f]) ∧
      (part ≠ [] →
        image'.pData = sumFrames 16 (s0.xCamSize * s0.yCamSize).toNat (part ++ [f])) := by
    intro image' himg
    by_cases hp : part = []
    · have h0 : ¬ ((s.checkImageNumber env.c f).numExposuresCounter + 1 > 1) := by
        rw [hcnt, hp]; simp
      rw [if_neg h0] at himg
      subst himg
      refine ⟨hf.2, ?_, fun h => absurd hp h⟩
      rw [hp, List.nil_append, ← hf.2]
      exact sumFrames_single 16 image'
    · have h1 : (s.checkImageNumber env.c f).numExposuresCounter + 1 > 1 := by
        rw [hcnt]
        have : 0 < part.length := List.length_pos.mpr hp
        omega
      obtain ⟨acc, ha1, ha2, ha3⟩ := hinv.accumulator hp
      rw [if_pos h1, ho1.imageSum, ha1] at himg
      simp only [] at himg
      have hd : image'.pData
          = sumFrames 16 (s0.xCamSize * s0.yCamSize).toNat (part ++ [f]) := by
        rw [himg, sumByType_16 _ _ _ hf.1, hsize]
        exact sumData_accumulates 16 _ part f acc.pData hf.2 ha2 ha3
      refine ⟨?_, ?_, fun _ => hd⟩
      · rw [hd, sumFrames_length]
      · rw [hd, sumFrames_reduced]
  obtain ⟨hlen, hmod, hsum⟩ := himage _ rfl
  have hfin2 : ∀ (a : Int) (b : Option NDArray) (c : List Nat),
      ({ s.checkImageNumber env.c f with
          numExposuresCounter := a, imageSum := b, released := c } : Pco).finished
        = s.finished :=
    fun _ _ _ => (finished_congr (s.checkImageNumber env.c f) _ rfl rfl rfl).trans hfin
  by_cases hlast : (part.length : Int) + 1 < s0.numExposures
  · -- the run is not complete
    have hn : nextRun s0.numExposures (runs, part) f = (runs, part ++ [f]) := by
      unfold nextRun
      rw [if_pos hlast]
    have hge : ¬ ((s.checkImageNumber env.c f).numExposuresCounter + 1
        ≥ (s.checkImageNumber env.c f).numExposures) := by
      rw [hcnt, hcs.numExposures]; omega
    rw [hn]
    simp only [hge, if_false, Bool.false_eq_true]
    constructor
    · exact sameConfig_trans hcs (by constructor <;> rfl)
    · show (s.checkImageNumber env.c f).numExposuresCounter + 1 = _
      rw [hcnt]
      simp
    · rw [hfin2]
      exact hinv.finished
    · show (s.checkImageNumber env.c f).numImagesCounter ≤ _
      rw [ho1.numImagesCounter]
      exact hinv.images
    · intro _
      exact ⟨_, rfl, hlen, hmod⟩
  · -- the run is complete
    have hn : nextRun s0.numExposures (runs, part) f = (runs ++ [part ++ [f]], []) := by
      unfold nextRun
      rw [if_neg hlast]
    have hge : (s.checkImageNumber env.c f).numExposuresCounter + 1
        ≥ (s.checkImageNumber env.c f).numExposures := by
      rw [hcnt, hcs.numExposures]; omega
    have hp : part ≠ [] := by
      intro h
      rw [h] at hlast
      simp at hlast
      omega
    rw [hn]
    simp only [hge, if_true]
    obtain ⟨g1, g2, g3⟩ := finishImage_finished env.c
      ({ s.checkImageNumber env.c f with
          numExposuresCounter := 0
          imageSum := some (if (s.checkImageNumber env.c f).numExposuresCounter + 1 > 1 then
            (match (s.checkImageNumber env.c f).imageSum with
              | some acc => sumByType (s.checkImageNumber env.c f) f acc
              | none => f)
            else f)
          released := if (s.checkImageNumber env.c f).numExposuresCounter + 1 > 1 then
            (match (s.checkImageNumber env.c f).imageSum with
              | some acc => (s.checkImageNumber env.c f).released ++ [acc.id]
              | none => (s.checkImageNumber env.c f).released)
            else (s.checkImageNumber env.c f).released } : Pco)
      (if (s.checkImageNumber env.c f).numExposuresCounter + 1 > 1 then
          (match (s.checkImageNumber env.c f).imageSum with
            | some acc => sumByType (s.checkImageNumber env.c f) f acc
            | none => f)
        else f)
    constructor
    · exact sameConfig_trans (sameConfig_trans hcs (by constructor <;> rfl))
        (finishImage_sameConfig _ _ _)
    · rw [g2]; rfl
    · rw [g1, List.map_append]
      rw [hfin2, hinv.finished]
      simp only [List.map_append, List.map_cons, List.map_nil, attachInfo_pData,
        List.append_assoc]
      rw [hsum hp]
    · refine le_trans g3 ?_
      show (s.checkImageNumber env.c f).numImagesCounter + 1 ≤ _
      rw [ho1.numImagesCounter]
      have := hinv.images
      simp only [List.length_append, List.length_cons, List.length_nil]
      push_cast
      omega
    · intro h
      exact absurd rfl h

/-! ### The grouping of frames into runs -/

theorem nextRun_lt (E : Int) (R : List (List NDArray)) (p : List NDArray) (x : NDArray)
    (h : (p.length : Int) + 1 < E) : nextRun E (R, p) x = (R, p ++ [x]) := by
  show (if (p.length : Int) + 1 < E then _ else _) = _
  rw [if_pos h]

theorem nextRun_ge (E : Int) (R : List (List NDArray)) (p : List NDArray) (x : NDArray)
    (h : ¬ (p.length : Int) + 1 < E) : nextRun E (R, p) x = (R ++ [p ++ [x]], []) := by
  show (if (p.length : Int) + 1 < E then _ else _) = _
  rw [if_neg h]

theorem nextRun_count (E : Int) (r : List (List NDArray)) (p : List NDArray) (f : NDArray)
    (hp : (p.length : Int) < E) :
    ((nextRun E (r, p) f).1.length : Int) * E + (nextRun E (r, p) f).2.length
      = (r.length : Int) * E + p.length + 1 ∧
    ((nextRun E (r, p) f).2.length : Int) < E := by
  by_cases h : (p.length : Int) + 1 < E
  · rw [nextRun_lt E r p f h]
    simp only [List.length_append, List.length_cons, List.length_nil]
    push_cast
    constructor <;> omega
  · rw [nextRun_ge E r p f h]
    simp only [List.length_append, List.length_cons, List.length_nil]
    push_cast
    have : (p.length : Int) + 1 = E := by omega
    constructor
    · rw [add_mul]; omega
    · omega

theorem foldl_nextRun_part (E : Int) (R : List (List NDArray)) (xs p : List NDArray)
    (h : (p.length : Int) + xs.length < E) :
    xs.foldl (nextRun E) (R, p) = (R, p ++ xs) := by
  induction xs generalizing p with
  | nil => simp
  | cons x xs ih =>
    simp only [List.length_cons] at h
    push_cast at h
    have hx : nextRun E (R, p) x = (R, p ++ [x]) := nextRun_lt E R p x (by omega)
    rw [List.foldl_cons, hx, ih]
    · simp
    · simp only [List.length_append, List.length_cons, List.length_nil]
      push_cast
      omega

theorem foldl_nextRun_run (E : Int) (R : List (List NDArray)) (xs p : List NDArray)
    (hne : xs ≠ []) (h : (p.length : Int) + xs.length = E) :
    xs.foldl (nextRun E) (R, p) = (R ++ [p ++ xs], []) := by
  induction xs generalizing p with
  | nil => exact absurd rfl hne
  | cons x xs ih =>
    simp only [List.length_cons] at h
    push_cast at h
    cases xs with
    | nil =>
      simp only [List.length_nil] at h
      simp only [List.foldl_cons, List.foldl_nil]
      exact nextRun_ge E R p x (by simp at h; omega)
    | cons y ys =>
      have hx : nextRun E (R, p) x = (R, p ++ [x]) := by
        simp only [List.length_cons] at h
        push_cast at h
        exact nextRun_lt E R p x (by omega)
      rw [List.foldl_cons, hx, ih (p ++ [x]) (by simp)]
      · simp
      · simp only [List.length_append, List.length_cons, List.length_nil] at h ⊢
        push_cast at h ⊢
        omega

theorem foldl_nextRun_runs (E : Int) (hE : 1 < E) (runs : List (List NDArray))
    (part : List NDArray) (R : List (List NDArray))
    (hruns : ∀ run ∈ runs, (run.length : Int) = E) (hpart : (part.length : Int) < E) :
    (runs.flatten ++ part).foldl (nextRun E) (R, []) = (R ++ runs, part) := by
  induction runs generalizing R with
  | nil =>
    simp only [List.flatten_nil, List.nil_append, List.append_nil]
    rw [foldl_nextRun_part E R part [] (by simpa using hpart)]
    simp
  | cons run runs ih =>
    have hrun := hruns run (List.mem_cons_self _ _)
    have hne : run ≠ [] := by
      intro h
      rw [h] at hrun
      simp at hrun
      omega
    rw [List.flatten_cons, List.append_assoc, List.foldl_append,
      foldl_nextRun_run E R run [] hne (by simpa using hrun)]
    rw [List.nil_append, ih (R ++ [run]) (fun r hr => hruns r (List.mem_cons_of_mem _ hr))]
    simp

theorem foldl_nextRun_count (E : Int) (fs : List NDArray) (r : List (List NDArray))
    (p : List NDArray) (hp : (p.length : Int) < E) :
    ((fs.foldl (nextRun E) (r, p)).1.length : Int) * E + (fs.foldl (nextRun E) (r, p)).2.length
      = (r.length : Int) * E + p.length + fs.length ∧
    ((fs.foldl (nextRun E) (r, p)).2.length : Int) < E := by
  induction fs generalizing r p with
  | nil => simpa using hp
  | cons f fs ih =>
    obtain ⟨h1, h2⟩ := nextRun_count E r p f hp
    obtain ⟨i1, i2⟩ := ih (nextRun E (r, p) f).1 (nextRun E (r, p) f).2 h2
    rw [List.foldl_cons]
    refine ⟨?_, i2⟩
    rw [i1, h1]
    simp only [List.length_cons]
    push_cast
    ring

theorem accumulated_of_same {s0 : Pco} {runs : List (List NDArray)} {part : List NDArray}
    {s t : Pco} (h : Pco.Accumulated s0 runs part s) (hc : Pco.SameConfig s t)
    (ho : Pco.SameOutput s t) : Pco.Accumulated s0 runs part t := by
  constructor
  · exact sameConfig_trans h.config hc
  · rw [ho.numExposuresCounter]; exact h.counter
  · rw [finished_congr s t hc.gangServer ho.delivered ho.gangOffered]; exact h.finished
  · rw [ho.numImagesCounter]; exact h.images
  · intro hp
    obtain ⟨acc, h1, h2, h3⟩ := h.accumulator hp
    exact ⟨acc, by rw [ho.imageSum]; exact h1, h2, h3⟩

theorem withQueue_sameOutput (s : Pco) (q : List NDArray) :
    Pco.SameOutput s (s.withQueue q) := by
  constructor <;> rfl

theorem receiveImages_sameOutput (env : Env) (s : Pco) :
    Pco.SameOutput (Pco.receiveLoop env s.receivedFrameQueue s) (Pco.receiveImages env s).2 := by
  constructor <;> rfl

/-- The loop of `receiveImages` while the frames are needed for the images
still wanted: it takes every queued frame and keeps the summing state. -/
theorem receiveLoop_accumulates (env : Env) (s0 : Pco)
    (hE : 1 < s0.numExposures) (hroi : s0.roiRequired = false)
    (fs : List NDArray) (runs : List (List NDArray)) (part : List NDArray) (s : Pco)
    (hq : s.receivedFrameQueue = fs)
    (hinv : Pco.Accumulated s0 runs part s)
    (hpart : (part.length : Int) < s0.numExposures)
    (hfs : ∀ f ∈ fs,
      (f.dataType = NDDataType_t.NDUInt16 ∨ f.dataType = NDDataType_t.NDInt16) ∧
      f.pData.length = (s0.xCamSize * s0.yCamSize).toNat)
    (hwant : s0.imageMode = env.c.ADImageContinuous ∨
      (runs.length : Int) * s0.numExposures + part.length + fs.length
        ≤ s0.numExposures * (s0.numImages - s0.numImagesCounter)) :
    Pco.Accumulated s0 (fs.foldl (nextRun s0.numExposures) (runs, part)).1
      (fs.foldl (nextRun s0.numExposures) (runs, part)).2 (Pco.receiveLoop env fs s) ∧
    (Pco.receiveLoop env fs s).receivedFrameQueue = [] := by
  induction fs generalizing runs part s with
  | nil => exact ⟨by simpa [Pco.receiveLoop] using hinv, by simpa [Pco.receiveLoop] using hq⟩
  | cons f rest ih =>
    have hw : s.wantsImages env.c = true := by
      unfold Pco.wantsImages
      rw [decide_eq_true_iff, hinv.config.imageMode, hinv.config.numImages]
      rcases hwant with h | h
      · exact Or.inl h
      · right
        have himg := hinv.images
        simp only [List.length_cons] at h
        push_cast at h
        have h1 : s0.numExposures * (runs.length : Int)
            < s0.numExposures * (s0.numImages - s0.numImagesCounter) := by
          have hp0 : (0 : Int) ≤ part.length := Int.natCast_nonneg _
          have hr0 : (0 : Int) ≤ rest.length := Int.natCast_nonneg _
          rw [mul_comm s0.numExposures (runs.length : Int)]
          omega
        have h2 := lt_of_mul_lt_mul_left h1 (by omega)
        omega
    have hloop : Pco.receiveLoop env (f :: rest) s
        = Pco.receiveLoop env rest ((s.withQueue rest).processImage env f) := by
      rw [Pco.receiveLoop, if_pos hw]
    have hstep := processImage_accumulates env s0 runs part (s.withQueue rest) f
      (accumulated_of_same hinv (withQueue_sameConfig s rest) (withQueue_sameOutput s rest))
      hE hroi hpart (hfs f (List.mem_cons_self _ _))
    obtain ⟨hc1, hc2⟩ := nextRun_count s0.numExposures runs part f hpart
    rw [hloop, List.foldl_cons]
    exact ih (nextRun s0.numExposures (runs, part) f).1 (nextRun s0.numExposures (runs, part) f).2
      ((s.withQueue rest).processImage env f)
      (by rw [processImage_queue]; rfl) hstep hc2
      (fun g hg => hfs g (List.mem_cons_of_mem _ hg))
      (by
        rcases hwant with h | h
        · exact Or.inl h
        · right
          rw [hc1]
          simp only [List.length_cons] at h
          push_cast at h
          omega)

/-- The summing state over a series of calls of `receiveImages`. -/
theorem receiveImagesSeries_accumulates (env : Env) (s0 : Pco)
    (hE : 1 < s0.numExposures) (hroi : s0.roiRequired = false)
    (batches : List (List NDArray)) (runs : List (List NDArray)) (part : List NDArray) (s : Pco)
    (hq : s.receivedFrameQueue = [])
    (hinv : Pco.Accumulated s0 runs part s)
    (hpart : (part.length : Int) < s0.numExposures)
    (hfs : ∀ f ∈ batches.flatten,
      (f.dataType = NDDataType_t.NDUInt16 ∨ f.dataType = NDDataType_t.NDInt16) ∧
      f.pData.length = (s0.xCamSize * s0.yCamSize).toNat)
    (hwant : s0.imageMode = env.c.ADImageContinuous ∨
      (runs.length : Int) * s0.numExposures + part.length + batches.flatten.length
        ≤ s0.numExposures * (s0.numImages - s0.numImagesCounter)) :
    Pco.Accumulated s0 (batches.flatten.foldl (nextRun s0.numExposures) (runs, part)).1
      (batches.flatten.foldl (nextRun s0.numExposures) (runs, part)).2
      (Pco.receiveImagesSeries env batches s) ∧
    (Pco.receiveImagesSeries env batches s).receivedFrameQueue = [] := by
  induction batches generalizing runs part s with
  | nil => exact ⟨by simpa [Pco.receiveImagesSeries] using hinv,
      by simpa [Pco.receiveImagesSeries] using hq⟩
  | cons batch batches ih =>
    have hq1 : s.receivedFrameQueue ++ batch = batch := by rw [hq]; rfl
    have hstart : Pco.receiveImagesSeries env (batch :: batches) s
        = Pco.receiveImagesSeries env batches (Pco.receiveImages env (s.withQueue batch)).2 := by
      rw [Pco.receiveImagesSeries, hq1]
    obtain ⟨l1, l2⟩ := receiveLoop_accumulates env s0 hE hroi batch runs part
      (s.withQueue batch) rfl
      (accumulated_of_same hinv (withQueue_sameConfig s batch) (withQueue_sameOutput s batch))
      hpart (fun f hf => hfs f (by simp [hf]))
      (by
        rcases hwant with h | h
        · exact Or.inl h
        · right
          simp only [List.flatten_cons, List.length_append] at h
          push_cast at h
          have : (0 : Int) ≤ batches.flatten.length := Int.natCast_nonneg _
          omega)
    obtain ⟨c1, c2⟩ := foldl_nextRun_count s0.numExposures batch runs part hpart
    rw [hstart, List.flatten_cons, List.foldl_append]
    exact ih _ _ (Pco.receiveImages env (s.withQueue batch)).2
      (by
        rw [(receiveImages_sameNumbering env (s.withQueue batch)).receivedFrameQueue]
        exact l2)
      (accumulated_of_same l1 (receiveImages_sameConfig env (s.withQueue batch))
        (receiveImages_sameOutput env (s.withQueue batch)))
      c2 (fun f hf => hfs f (by simp [hf]))
      (by
        rcases hwant with h | h
        · exact Or.inl h
        · right
          rw [c1]
          simp only [List.flatten_cons, List.length_append] at h
          push_cast at h
          omega)

/-- C3: with more than one exposure per image configured, 16-bit frames
of the camera frame size and no software ROI conversion, the frames
processed by a series of calls of `receiveImages` yield exactly one
finished image for every complete run of `numExposures` consecutive
frames and none for the frames of a run that is not yet complete, and the
samples of each finished image are, sample by sample, the sum modulo 2^16
of the samples of the frames of its run.  The frames processed are those
needed for the images still wanted, or the image mode is continuous. -/
theorem receiveImages_sums_exposures (env : Env) (s : Pco) (runs : List (List NDArray))
    (part : List NDArray) (batches : List (List NDArray))
    (hE : 1 < s.numExposures) (hcnt : s.numExposuresCounter = 0)
    (hroi : s.roiRequired = false) (hq : s.receivedFrameQueue = [])
    (hbatches : batches.flatten = runs.flatten ++ part)
    (hruns : ∀ run ∈ runs, (run.length : Int) = s.numExposures)
    (hpart : (part.length : Int) < s.numExposures)
    (hframes : ∀ f ∈ runs.flatten ++ part,
      (f.dataType = NDDataType_t.NDUInt16 ∨ f.dataType = NDDataType_t.NDInt16) ∧
      f.pData.length = (s.xCamSize * s.yCamSize).toNat)
    (hwant : s.imageMode = env.c.ADImageContinuous ∨
      ((runs.flatten ++ part).length : Int)
        ≤ s.numExposures * (s.numImages - s.numImagesCounter)) :
    (Pco.receiveImagesSeries env batches s).finished.map NDArray.pData
      = s.finished.map NDArray.pData
          ++ runs.map (sumFrames 16 (s.xCamSize * s.yCamSize).toNat) ∧
    (Pco.receiveImagesSeries env batches s).finished.length = s.finished.length + runs.length ∧
    (Pco.receiveImagesSeries env batches s).receivedFrameQueue = [] ∧
    (Pco.receiveImagesSeries env batches s).numExposuresCounter = part.length := by
  have hinit : Pco.Accumulated s [] [] s := by
    constructor
    · exact sameConfig_refl s
    · simpa using hcnt
    · simp
    · simp
    · intro h; exact absurd rfl h
  obtain ⟨h1, h2⟩ := receiveImagesSeries_accumulates env s hE hroi batches [] [] s hq hinit
    (by simp; omega) (by rw [hbatches]; exact hframes)
    (by
      rcases hwant with h | h
      · exact Or.inl h
      · right
        rw [hbatches]
        simpa using h)
  rw [hbatches, foldl_nextRun_runs s.numExposures hE runs part [] hruns hpart] at h1
  simp only [List.nil_append] at h1
  refine ⟨h1.finished, ?_, h2, h1.counter⟩
  have := congrArg List.length h1.finished
  simpa using this

theorem receiveImages_sums_exposures_witness :
    (Pco.receiveImagesSeries quietEnv tenBatches threeExposures).finished.map NDArray.pData
      = [[30, 30]] ∧
    (Pco.receiveImagesSeries quietEnv (tenBatches.take 2) threeExposures).finished.length
      = 0 := by
  have h := receiveImages_sums_exposures quietEnv threeExposures
    [[frame 1 [10, 10], frame 2 [10, 10], frame 3 [10, 10]]] [] tenBatches
    (by decide) rfl rfl rfl rfl (by decide) (by decide) (by decide) (Or.inr (by decide))
  have h' := receiveImages_sums_exposures quietEnv threeExposures
    [] [frame 1 [10, 10], frame 2 [10, 10]] (tenBatches.take 2)
    (by decide) rfl rfl rfl rfl (by decide) (by decide) (by decide) (Or.inr (by decide))
  refine ⟨?_, ?_⟩
  · rw [h.1]; decide
  · rw [h'.2.1]; decide

/-! ## C4: the accumulator across a stopped acquisition -/

/-- C4, the code at the failing input: an acquisition of three exposures
per image is stopped after its first frame, which `imageSum` holds with
its reference; `nowAcquiring` resets the exposure counter but not the
accumulator, so the first frame of the next acquisition replaces it in
`imageSum` without a release.  Frame 1 is never released, while the
frames 2, 3 and 4 of the second acquisition are released once each and
give one image of samples 30. -/
theorem accumulator_leaked_after_stop :
    leakFirst.imageSum = some (frame 1 [10, 10]) ∧
    leakFirst.numExposuresCounter = 1 ∧
    leakFirst.refCount 1 = 1 ∧
    leakRestarted.imageSum = some (frame 1 [10, 10]) ∧
    leakRestarted.numExposuresCounter = 0 ∧
    leakRestarted.refCount 1 = 1 ∧
    (leakRestarted.processImage quietEnv (frame 2 [10, 10])).imageSum
      = some (frame 2 [10, 10]) ∧
    (leakRestarted.processImage quietEnv (frame 2 [10, 10])).refCount 1 = 1 ∧
    leakSecond.released = [2, 3, 4] ∧
    leakSecond.refCount 1 = 1 ∧
    leakSecond.refCount 2 = 0 ∧ leakSecond.refCount 3 = 0 ∧ leakSecond.refCount 4 = 0 ∧
    leakSecond.delivered.map NDArray.pData = [[30, 30]] := by
  decide

/-! ## C5: decoding the BCD image number -/

theorem packBcd_eq (hi lo s : Nat) (hlo : lo < 16) :
    packBcd hi lo s = (hi * 16 + lo) * 2 ^ s := by
  unfold packBcd
  have h := Nat.mul_add_lt_is_or (i := 4) (b := lo) (by simpa using hlo) hi
  rw [Nat.shiftLeft_eq, Nat.shiftLeft_eq]
  have e : hi * 2 ^ 4 ||| lo = hi * 16 + lo := by
    rw [Nat.mul_comm hi (2 ^ 4), ← h]; norm_num; ring
  rw [e]

theorem low_nybble (hi lo s : Nat) (hlo : lo < 16) :
    ((packBcd hi lo s) >>> s) &&& nybbleMask = lo := by
  rw [packBcd_eq hi lo s hlo, Nat.shiftRight_eq_div_pow,
    Nat.mul_div_cancel _ (by positivity)]
  have : nybbleMask = 2 ^ 4 - 1 := by decide
  rw [this, Nat.and_pow_two_sub_one_eq_mod]
  omega

theorem high_nybble (hi lo s : Nat) (hhi : hi < 16) (hlo : lo < 16) :
    ((packBcd hi lo s) >>> (s + 4)) &&& nybbleMask = hi := by
  rw [packBcd_eq hi lo s hlo, Nat.shiftRight_add, Nat.shiftRight_eq_div_pow _ s,
    Nat.mul_div_cancel _ (by positivity), Nat.shiftRight_eq_div_pow]
  have : nybbleMask = 2 ^ 4 - 1 := by decide
  rw [this, Nat.and_pow_two_sub_one_eq_mod]
  omega

theorem bcdToInt_packBcd (c : Constants) (align : Int) (dyn hi lo : Nat)
    (hdyn : dyn ≤ 16) (hhi : hi < 16) (hlo : lo < 16)
    (hfit : packBcd hi lo (shiftLowBcd c align dyn).toNat < 65536) :
    bcdToInt c align dyn (packBcd hi lo (shiftLowBcd c align dyn).toNat : Nat)
      = 10 * (hi : Int) + lo := by
  have hs : 0 ≤ shiftLowBcd c align dyn := by
    unfold shiftLowBcd bitsPerShortWord; split <;> omega
  unfold bcdToInt
  simp only []
  have e1 : (((packBcd hi lo (shiftLowBcd c align dyn).toNat : Nat) : Int) % 65536).toNat
      = packBcd hi lo (shiftLowBcd c align dyn).toNat := by
    omega
  have e2 : (shiftLowBcd c align dyn + bitsPerNybble).toNat
      = (shiftLowBcd c align dyn).toNat + 4 := by
    unfold bitsPerNybble; omega
  rw [e1, e2, low_nybble _ _ _ hlo, high_nybble _ _ _ hhi hlo]
  unfold bcdDigitValue; ring

/-- C5: eight decimal digits packed two per pixel into the first four
pixels of a frame, each pixel being `((d(2i) << 4) | d(2i+1)) << s` with
`s` zero unless the bit alignment is MSB, where it is
`16 - dynResolution`, are decoded by `extractImageNumber` to the decimal
number `d0 d1 ... d7`, and `bcdToInt` of each pixel gives
`10 * d(2i) + d(2i+1)`.  The packed values are pixels, that is, they fit in
16 bits, and the shift is not negative. -/
theorem extractImageNumber_decodes (c : Constants) (paramBitAlignment : Int)
    (dynResolution : Nat) (d0 d1 d2 d3 d4 d5 d6 d7 : Nat) (rest : List Nat)
    (h0 : d0 ≤ 9) (h1 : d1 ≤ 9) (h2 : d2 ≤ 9) (h3 : d3 ≤ 9)
    (h4 : d4 ≤ 9) (h5 : d5 ≤ 9) (h6 : d6 ≤ 9) (h7 : d7 ≤ 9)
    (hdyn : dynResolution ≤ 16)
    (hfit01 : packBcd d0 d1 (shiftLowBcd c paramBitAlignment dynResolution).toNat < 65536)
    (hfit23 : packBcd d2 d3 (shiftLowBcd c paramBitAlignment dynResolution).toNat < 65536)
    (hfit45 : packBcd d4 d5 (shiftLowBcd c paramBitAlignment dynResolution).toNat < 65536)
    (hfit67 : packBcd d6 d7 (shiftLowBcd c paramBitAlignment dynResolution).toNat < 65536) :
    let s := (shiftLowBcd c paramBitAlignment dynResolution).toNat
    (s = if paramBitAlignment = c.bitAlignmentMsb then 16 - dynResolution else 0) ∧
    extractImageNumber c paramBitAlignment dynResolution
        (packBcd d0 d1 s :: packBcd d2 d3 s :: packBcd d4 d5 s :: packBcd d6 d7 s :: rest)
      = d0 * 10 ^ 7 + d1 * 10 ^ 6 + d2 * 10 ^ 5 + d3 * 10 ^ 4 + d4 * 10 ^ 3 + d5 * 10 ^ 2
          + d6 * 10 + d7 ∧
    bcdToInt c paramBitAlignment dynResolution (packBcd d0 d1 s : Nat) = 10 * d0 + d1 ∧
    bcdToInt c paramBitAlignment dynResolution (packBcd d2 d3 s : Nat) = 10 * d2 + d3 ∧
    bcdToInt c paramBitAlignment dynResolution (packBcd d4 d5 s : Nat) = 10 * d4 + d5 ∧
    bcdToInt c paramBitAlignment dynResolution (packBcd d6 d7 s : Nat) = 10 * d6 + d7 := by
  intro s
  have b01 := bcdToInt_packBcd c paramBitAlignment dynResolution d0 d1 hdyn (by omega) (by omega)
    hfit01
  have b23 := bcdToInt_packBcd c paramBitAlignment dynResolution d2 d3 hdyn (by omega) (by omega)
    hfit23
  have b45 := bcdToInt_packBcd c paramBitAlignment dynResolution d4 d5 hdyn (by omega) (by omega)
    hfit45
  have b67 := bcdToInt_packBcd c paramBitAlignment dynResolution d6 d7 hdyn (by omega) (by omega)
    hfit67
  refine ⟨?_, ?_, b01, b23, b45, b67⟩
  · show (shiftLowBcd c paramBitAlignment dynResolution).toNat = _
    unfold shiftLowBcd bitsPerShortWord
    split <;> omega
  · show extractImageNumber c paramBitAlignment dynResolution _ = _
    unfold extractImageNumber bcdPixelLength
    simp only [List.range_succ, List.range_zero, List.nil_append, List.cons_append,
      List.foldl_cons, List.foldl_nil, pixelAt, List.getD_cons_zero, List.getD_cons_succ]
    rw [b01, b23, b45, b67]
    unfold bcdDigitValue
    push_cast
    ring

theorem extractImageNumber_decodes_witness :
    extractImageNumber sdkConstants 0 12 [0x120, 0x340, 0x560, 0x780, 0xfff]
      = 12345678 ∧
    bcdToInt sdkConstants 0 12 0x780 = 78 := by
  have h := extractImageNumber_decodes sdkConstants 0 12 1 2 3 4 5 6 7 8 [0xfff]
    (by decide) (by decide) (by decide) (by decide) (by decide) (by decide) (by decide)
    (by decide) (by decide) (by decide) (by decide) (by decide) (by decide)
  exact ⟨h.2.1, h.2.2.2.2.2⟩

/-! ## C6 and C7: the frame producer -/

theorem call_state (api : DllApi) (s : Pco) (call : ApiCall) :
    (s.call api call).state = { s with log := s.log ++ [Effect.api call] } := by
  unfold Pco.call
  by_cases h : api.raises s.log call = true
  · simp only [h, if_true]; rfl
  · simp only [h]; rfl

/-- C7: on every path through `frameReceived` (no image from the pool, a
failed send to the queue, a frame queued) the hardware buffer is handed
back to the SDK by exactly one `addBufferEx`, the only SDK call made,
with the current camera frame size. -/
theorem frameReceived_returns_buffer (env : Env) (s : Pco) (pool : Option Nat)
    (bufferNumber : Int) :
    (s.frameReceived env pool bufferNumber).state.log
      = s.log ++ [Effect.api
          (ApiCall.addBufferEx 0 0 bufferNumber s.xCamSize s.yCamSize s.dynResolution)] := by
  unfold Pco.frameReceived
  simp only [call_state]
  cases pool with
  | none => rfl
  | some i =>
    simp only [Pco.allocArray, Pco.send]
    by_cases h : s.receivedFrameQueue.length < s.queueCapacity
    · simp only [h, if_true]; rfl
    · simp only [h, if_false]; rfl

theorem call_ok (api : DllApi) (s : Pco) (call : ApiCall) (h : api.raises s.log call = false) :
    s.call api call = Except.ok { s with log := s.log ++ [Effect.api call] } := by
  unfold Pco.call
  simp [h]

/-- The log after the loop of `freeImageBuffers` when no `freeBuffer` raises. -/
theorem freeBufferLoop_log (api : DllApi) (hf : ∀ l i, api.raises l (ApiCall.freeBuffer i) = false)
    (n : Nat) (i : Int) (s : Pco) :
    (Pco.freeBufferLoop api n i s).state.log
      = s.log ++ (List.range n).map (fun k : Nat => Effect.api (ApiCall.freeBuffer (i + (k : Int)))) := by
  induction n generalizing i s with
  | zero => simp [Pco.freeBufferLoop, Throwing.state]
  | succ n ih =>
    rw [Pco.freeBufferLoop, call_ok api s _ (hf _ _)]
    simp only []
    rw [ih]
    simp only [List.range_succ_eq_map, List.map_cons, List.map_map, List.append_assoc,
      List.singleton_append, Nat.cast_zero, add_zero]
    congr 2
    apply List.map_congr_left
    intro k _
    simp only [Function.comp_apply, Nat.cast_succ]
    congr 2
    ring

theorem freeImageBuffers_log (env : Env)
    (hc : ∀ l, env.api.raises l ApiCall.cancelImages = false)
    (hf : ∀ l i, env.api.raises l (ApiCall.freeBuffer i) = false) (s : Pco) :
    (s.freeImageBuffers env).log
      = s.log ++ Effect.api ApiCall.cancelImages
          :: (List.range env.c.numApiBuffers).map (fun k : Nat => Effect.api (ApiCall.freeBuffer (k : Int))) := by
  unfold Pco.freeImageBuffers
  rw [call_ok env.api s _ (hc _)]
  simp only []
  rw [freeBufferLoop_log env.api hf]
  simp

theorem doDisarm_log (env : Env)
    (hc : ∀ l, env.api.raises l ApiCall.cancelImages = false)
    (hf : ∀ l i, env.api.raises l (ApiCall.freeBuffer i) = false) (s : Pco) :
    (s.doDisarm env).log
      = s.log ++ Effect.api (ApiCall.setRecordingState env.c.recorderStateOff)
          :: Effect.api ApiCall.cancelImages
          :: (List.range env.c.numApiBuffers).map (fun k : Nat => Effect.api (ApiCall.freeBuffer (k : Int))) := by
  unfold Pco.doDisarm
  simp only [call_state]
  rw [freeImageBuffers_log env hc hf]
  simp

theorem armFailed_spec (env : Env)
    (hc : ∀ l, env.api.raises l ApiCall.cancelImages = false)
    (hf : ∀ l i, env.api.raises l (ApiCall.freeBuffer i) = false) (s : Pco) (e : Exn) :
    (s.armFailed env e).1 = StateSelector.secondState ∧
    (s.armFailed env e).2.log
      = s.log ++ Effect.api (ApiCall.setRecordingState env.c.recorderStateOff)
          :: Effect.api ApiCall.cancelImages
          :: (List.range env.c.numApiBuffers).map (fun k : Nat => Effect.api (ApiCall.freeBuffer (k : Int))) := by
  refine ⟨rfl, ?_⟩
  unfold Pco.armFailed
  simp only [Pco.outputStatusMessage]
  rw [doDisarm_log env hc hf]
  rfl

theorem smRequestArm_failed (env : Env) (s s1 : Pco) (e : Exn)
    (h : env.doArm s = Except.error (e, s1)) :
    s.smRequestArm env = s1.armFailed env e := by
  unfold Pco.smRequestArm
  rw [h]
  cases e <;> rfl

theorem smArmAndAcquire_failed (env : Env) (s s1 : Pco) (e : Exn)
    (h : env.doArm s = Except.error (e, s1)) :
    s.smArmAndAcquire env = s1.armFailed env e := by
  unfold Pco.smArmAndAcquire
  rw [h]
  cases e <;> rfl

/-- C8, amended: when `doArm` raises `PcoException` or `std::bad_alloc`,
`smRequestArm` and `smArmAndAcquire` return the second ordinal, which the
table maps to Idle, and, provided `cancelImages` and the `freeBuffer` calls
of the clean-up do not raise (`setRecordingState` may), the clean-up
issues `freeBuffer` for every hardware buffer slot, in slot order. -/
theorem arm_failure_frees_buffers (env : Env) (s s1 : Pco) (e : Exn)
    (harm : env.doArm s = Except.error (e, s1))
    (hc : ∀ l, env.api.raises l ApiCall.cancelImages = false)
    (hf : ∀ l i, env.api.raises l (ApiCall.freeBuffer i) = false) :
    (s.smRequestArm env).1 = StateSelector.secondState ∧
    (s.smArmAndAcquire env).1 = StateSelector.secondState ∧
    (findTransition State.Idle Event.Arm).bind
        (fun t => t.destination StateSelector.secondState) = some State.Idle ∧
    (findTransition State.Idle Event.Acquire).bind
        (fun t => t.destination StateSelector.secondState) = some State.Idle ∧
    (s.smRequestArm env).2.log
      = s1.log ++ Effect.api (ApiCall.setRecordingState env.c.recorderStateOff)
          :: Effect.api ApiCall.cancelImages
          :: (List.range env.c.numApiBuffers).map (fun k : Nat => Effect.api (ApiCall.freeBuffer (k : Int))) ∧
    (s.smArmAndAcquire env).2.log = (s.smRequestArm env).2.log ∧
    ∀ k : Nat, k < env.c.numApiBuffers →
      Effect.api (ApiCall.freeBuffer (k : Int)) ∈ ((s.smRequestArm env).2.log.drop s1.log.length) := by
  rw [smRequestArm_failed env s s1 e harm, smArmAndAcquire_failed env s s1 e harm]
  have h := armFailed_spec env hc hf s1 e
  refine ⟨h.1, h.1, by decide, by decide, h.2, rfl, ?_⟩
  intro k hk
  rw [h.2, List.drop_left]
  simp only [List.mem_cons, List.mem_map, List.mem_range]
  right; right
  exact ⟨k, hk, rfl⟩

/-- C8, counterexample: with an SDK whose `cancelImages` raises during the
clean-up, a failed arm returns the second ordinal but issues no
`freeBuffer` at all. -/
theorem arm_failure_buffers_not_freed :
    (({} : Pco).smRequestArm (failingArmEnv cancelFailsApi)).1 = StateSelector.secondState ∧
    (({} : Pco).smRequestArm (failingArmEnv cancelFailsApi)).2.log
      = [Effect.api (ApiCall.setRecordingState 0), Effect.api ApiCall.cancelImages] ∧
    (({} : Pco).smArmAndAcquire (failingArmEnv cancelFailsApi)).2.log
      = [Effect.api (ApiCall.setRecordingState 0), Effect.api ApiCall.cancelImages] ∧
    ¬ (∀ k : Nat, k < (failingArmEnv cancelFailsApi).c.numApiBuffers →
        Effect.api (ApiCall.freeBuffer (k : Int))
          ∈ (({} : Pco).smRequestArm (failingArmEnv cancelFailsApi)).2.log) := by
  refine ⟨by decide, by decide, by decide, ?_⟩
  intro h
  have h0 := h 0 (by decide)
  revert h0
  decide

theorem arm_failure_witness :
    (({} : Pco).smRequestArm (failingArmEnv quietApi)).2.log
      = [Effect.api (ApiCall.setRecordingState 0), Effect.api ApiCall.cancelImages,
         Effect.api (ApiCall.freeBuffer 0), Effect.api (ApiCall.freeBuffer 1),
         Effect.api (ApiCall.freeBuffer 2), Effect.api (ApiCall.freeBuffer 3),
         Effect.api (ApiCall.freeBuffer 4), Effect.api (ApiCall.freeBuffer 5),
         Effect.api (ApiCall.freeBuffer 6), Effect.api (ApiCall.freeBuffer 7)] :=
  (arm_failure_frees_buffers (failingArmEnv quietApi) {} {} (Exn.pcoException "arm failed")
    rfl (fun _ => rfl) (fun _ _ => rfl)).2.2.2.2.1

/-! ## C9 and C10: reboot and the Disarm event -/

/-- C9, amended: when no SDK call raises, `smRequestReboot` (registered for
Idle and the Reboot event only) stops the state machine timer, discards
the queued events, only then makes the SDK calls of `doReboot` (the
time-outs, the hardware reboot for the Edge and Edge GL camera types
only, and closing the camera), then starts the timer with `rebootPeriod`
to post TimerExpiry, and returns the first ordinal, whose destination is
Unconnected. -/
theorem smRequestReboot_order (env : Env) (s : Pco)
    (hquiet : ∀ l call, env.api.raises l call = false) :
    ∃ t : Pco, s.smRequestReboot env = Except.ok (StateSelector.firstState, t) ∧
      t.log = s.log ++ [Effect.stopTimer, Effect.clear] ++ rebootCalls env.c s.camType
          ++ [Effect.startTimer TimerPeriod.rebootPeriod Event.TimerExpiry] ∧
      t.stateMachine.eventQueue = [] ∧
      t.stateMachine.timer = some (TimerPeriod.rebootPeriod, Event.TimerExpiry) ∧
      t.cameraOpen = false ∧
      (∀ tr ∈ transitions, tr.action = Action.smRequestReboot ∨ tr.event = Event.Reboot →
        tr.fromState = State.Idle ∧ tr.event = Event.Reboot ∧
        tr.action = Action.smRequestReboot ∧
        tr.destination StateSelector.firstState = some State.Unconnected) := by
  unfold Pco.smRequestReboot Pco.doReboot
  simp only [call_ok env.api _ _ (hquiet _ _)]
  by_cases h : s.camType = env.c.cameraTypeEdge ∨ s.camType = env.c.cameraTypeEdgeGl
  · have h1 : (s.stopTimer.clear.camType = env.c.cameraTypeEdge ∨
        s.stopTimer.clear.camType = env.c.cameraTypeEdgeGl) := h
    simp only [h1, if_true, call_ok env.api _ _ (hquiet _ _)]
    refine ⟨_, rfl, ?_, rfl, rfl, rfl, by decide⟩
    simp [Pco.startTimer, Pco.stopTimer, Pco.clear, rebootCalls, h]
  · have h1 : ¬ (s.stopTimer.clear.camType = env.c.cameraTypeEdge ∨
        s.stopTimer.clear.camType = env.c.cameraTypeEdgeGl) := h
    simp only [h1, if_false, call_ok env.api _ _ (hquiet _ _)]
    refine ⟨_, rfl, ?_, rfl, rfl, rfl, by decide⟩
    simp [Pco.startTimer, Pco.stopTimer, Pco.clear, rebootCalls, h]

/-- C9, counterexample: for a camera that is not an Edge the action issues
no hardware reboot, and when `closeCamera` raises the action returns no
ordinal. -/
theorem smRequestReboot_no_hardware_reboot :
    (((rebootStart 0).smRequestReboot quietEnv).toOption.map (fun r => r.2.log))
      = some [Effect.stopTimer, Effect.clear, Effect.api (ApiCall.setTimeouts 2000 3000 250),
          Effect.api ApiCall.closeCamera,
          Effect.startTimer TimerPeriod.rebootPeriod Event.TimerExpiry] ∧
    (((rebootStart 0x1300).smRequestReboot { quietEnv with api := closeFailsApi }).toOption.map
        (fun r => r.1)) = none := by
  constructor <;> decide

theorem smRequestReboot_order_witness :
    ∃ t : Pco, (rebootStart 0x1300).smRequestReboot quietEnv
        = Except.ok (StateSelector.firstState, t) ∧
      t.log = [Effect.stopTimer, Effect.clear, Effect.api (ApiCall.setTimeouts 2000 3000 250),
          Effect.api ApiCall.rebootCamera, Effect.api ApiCall.closeCamera,
          Effect.startTimer TimerPeriod.rebootPeriod Event.TimerExpiry] ∧
      t.stateMachine.eventQueue = [] := by
  obtain ⟨t, h1, h2, h3, _⟩ := smRequestReboot_order quietEnv (rebootStart 0x1300) (fun _ _ => rfl)
  exact ⟨t, h1, by rw [h2]; decide, h3⟩

/-- C10: the table registers the Disarm event for the Armed state only,
with Idle as destination, and nothing for Idle and Disarm; so from Idle
any number of queued Disarm events are taken from the queue one by one
and leave everything else as it was: the state stays Idle and no action
runs, whatever the actions do. -/
theorem disarm_from_idle_is_ignored
    (run : Action → Pco → Throwing (StateSelector × Pco)) (n : Nat) (s : Pco)
    (rest : List Event)
    (hidle : s.stateMachine.currentState = State.Idle)
    (hqueue : s.stateMachine.eventQueue = List.replicate n Event.Disarm ++ rest) :
    (∀ t ∈ transitions, t.event = Event.Disarm →
        t.fromState = State.Armed ∧ t.states = [State.Idle]) ∧
    (findTransition State.Armed Event.Disarm).map (fun t => t.states) = some [State.Idle] ∧
    registered State.Idle Event.Disarm = [] ∧
    Pco.processN run n s
      = Except.ok { s with stateMachine := { s.stateMachine with eventQueue := rest } } := by
  refine ⟨by decide, by decide, by decide, ?_⟩
  induction n generalizing s with
  | zero =>
    simp only [List.replicate_zero, List.nil_append] at hqueue
    simp only [Pco.processN, ← hqueue]
  | succ n ih =>
    have hq : s.stateMachine.eventQueue
        = Event.Disarm :: (List.replicate n Event.Disarm ++ rest) := by
      rw [hqueue]; rfl
    have hstep : s.process run = Except.ok
        { s with stateMachine :=
            { s.stateMachine with eventQueue := List.replicate n Event.Disarm ++ rest } } := by
      unfold Pco.process
      rw [hq, hidle]
      rfl
    rw [Pco.processN, hstep]
    exact ih _ hidle rfl

theorem disarm_from_idle_witness :
    (Pco.processN closingRun 2 idleWithDisarms).toOption.map
        (fun s => (s.stateMachine, s.cameraOpen))
      = some ({ currentState := State.Idle, eventQueue := [Event.Arm] }, true) := by
  rw [(disarm_from_idle_is_ignored closingRun 2 idleWithDisarms [Event.Arm] rfl rfl).2.2.2]
  decide

/-! ## The transition table as a relation -/

theorem registered_at_most_one (st : State) (ev : Event) : (registered st ev).length ≤ 1 := by
  cases st <;> cases ev <;> decide

theorem mem_registered (t : Transition) (st : State) (ev : Event) :
    t ∈ registered st ev ↔ t ∈ transitions ∧ t.fromState = st ∧ t.event = ev := by
  simp [registered, List.mem_filter]

theorem moves_iff (st : State) (ev : Event) (sel : StateSelector) (st2 : State) :
    Moves st ev sel st2 ↔ st2 = nextState st ev sel := by
  have hlen := registered_at_most_one st ev
  have hmem := fun t => mem_registered t st ev
  unfold Moves nextState findTransition
  cases hr : registered st ev with
  | nil =>
    rw [hr] at hmem
    have hnone : ∀ t ∈ transitions, ¬ (t.fromState = st ∧ t.event = ev) := by
      intro t ht hm
      have := (hmem t).mpr ⟨ht, hm⟩
      simp at this
    constructor
    · rintro (⟨t, ht, h1, h2, _⟩ | ⟨_, h⟩)
      · exact absurd ⟨h1, h2⟩ (hnone t ht)
      · simpa using h
    · intro h
      exact Or.inr ⟨hnone, by simpa using h⟩
  | cons t rest =>
    rw [hr] at hmem hlen
    have hrest : rest = [] := by
      cases rest with
      | nil => rfl
      | cons _ _ => simp at hlen
    subst hrest
    have ht := (hmem t).mp (by simp)
    constructor
    · rintro (⟨u, hu, h1, h2, h3⟩ | ⟨hn, _⟩)
      · have hut : u = t := by simpa using (hmem u).mpr ⟨hu, h1, h2⟩
        subst hut
        simpa using h3
      · exact absurd ht.2 (hn t ht.1)
    · intro h
      exact Or.inl ⟨t, ht.1, ht.2.1, ht.2.2, by simpa using h⟩

theorem runs_iff (steps : List (Event × StateSelector)) (st st2 : State) :
    Runs st steps st2 ↔ st2 = tableRun st steps := by
  induction steps generalizing st with
  | nil => simp [Runs, tableRun]
  | cons step rest ih =>
    simp only [Runs, tableRun]
    constructor
    · rintro ⟨mid, hm, hr⟩
      rw [(moves_iff _ _ _ _).mp hm] at hr
      exact (ih _).mp hr
    · intro h
      exact ⟨_, (moves_iff _ _ _ _).mpr rfl, (ih _).mpr h⟩

/-- C11: for every state and event at most one transition is registered
in the table, and so the state reached from Uninitialised over any
sequence of events, each with the ordinal its action returns, exists and
is unique: any two runs the table allows over the same sequence end in
the same state. -/
theorem transition_table_deterministic :
    (∀ st ev, (registered st ev).length ≤ 1) ∧
    (∀ steps a, Runs State.Uninitialised steps a ↔ a = tableRun State.Uninitialised steps) ∧
    (∀ steps a b, Runs State.Uninitialised steps a → Runs State.Uninitialised steps b →
      a = b) := by
  refine ⟨registered_at_most_one, fun steps a => runs_iff steps _ a, ?_⟩
  intro steps a b ha hb
  rw [(runs_iff steps _ a).mp ha, (runs_iff steps _ b).mp hb]

/-- The run Initialise, TimerExpiry (connected), Arm (armed) ends in Armed
and nowhere else. -/
theorem transition_table_deterministic_witness :
    Runs State.Uninitialised
      [(Event.Initialise, StateSelector.firstState), (Event.TimerExpiry, StateSelector.firstState),
       (Event.Arm, StateSelector.firstState)] State.Armed ∧
    ¬ Runs State.Uninitialised
      [(Event.Initialise, StateSelector.firstState), (Event.TimerExpiry, StateSelector.firstState),
       (Event.Arm, StateSelector.firstState)] State.Idle :=
  ⟨(transition_table_deterministic.2.1 _ _).mpr (by decide),
   fun h => absurd ((transition_table_deterministic.2.1 _ _).mp h) (by decide)⟩

/-! ## What `receiveImages` leaves alone -/

theorem sameControl_refl (s : Pco) : Pco.SameControl s s := by
  constructor <;> rfl

theorem sameControl_trans {s t u : Pco} (h1 : Pco.SameControl s t) (h2 : Pco.SameControl t u) :
    Pco.SameControl s u := by
  constructor
  · exact h2.triggerMode.trans h1.triggerMode
  · exact h2.log.trans h1.log
  · exact h2.triggerTimer.trans h1.triggerTimer
  · exact h2.stateMachine.trans h1.stateMachine
  · exact h2.paramADAcquire.trans h1.paramADAcquire
  · exact h2.paramADStatus.trans h1.paramADStatus
  · exact h2.driverLibraryErrors.trans h1.driverLibraryErrors
  · exact h2.cameraOpen.trans h1.cameraOpen

theorem checkImageNumber_sameControl (c : Constants) (s : Pco) (image : NDArray) :
    Pco.SameControl s (s.checkImageNumber c image) := by
  unfold Pco.checkImageNumber
  by_cases h : s.imageNumber c image ≠ s.lastImageNumber + 1
  · simp only []; rw [if_pos h]; constructor <;> rfl
  · simp only []; rw [if_neg h]; constructor <;> rfl

theorem softwareRoi_sameControl (env : Env) (s : Pco) (image : NDArray) :
    Pco.SameControl s (s.softwareRoi env image).2 := by
  unfold Pco.softwareRoi
  cases s.roiRequired
  · exact sameControl_refl s
  · constructor <;> rfl

theorem sumExposures_sameControl (s : Pco) (image : NDArray) :
    Pco.SameControl s (s.sumExposures image).2.2 := by
  unfold Pco.sumExposures
  split
  · simp only []
    split <;> split <;> (try split) <;> constructor <;> rfl
  · exact sameControl_refl s

theorem finishImage_sameControl (c : Constants) (s : Pco) (image : NDArray) :
    Pco.SameControl s (s.finishImage c image) := by
  unfold Pco.finishImage
  simp only []
  split <;> split <;> (try split) <;> constructor <;> rfl

theorem processImage_sameControl (env : Env) (s : Pco) (image : NDArray) :
    Pco.SameControl s (s.processImage env image) := by
  have h1 := checkImageNumber_sameControl env.c s image
  have h2 := softwareRoi_sameControl env (s.checkImageNumber env.c image) image
  have h3 := sumExposures_sameControl ((s.checkImageNumber env.c image).softwareRoi env image).2
    ((s.checkImageNumber env.c image).softwareRoi env image).1
  unfold Pco.processImage
  simp only []
  split
  · exact sameControl_trans (sameControl_trans h1 (sameControl_trans h2 h3))
      (finishImage_sameControl _ _ _)
  · exact sameControl_trans h1 (sameControl_trans h2 h3)

theorem receiveLoop_sameControl (env : Env) (q : List NDArray) (s : Pco) :
    Pco.SameControl s (Pco.receiveLoop env q s) := by
  induction q generalizing s with
  | nil => exact sameControl_refl s
  | cons image rest ih =>
    by_cases hw : s.wantsImages env.c = true
    · rw [Pco.receiveLoop, if_pos hw]
      have h1 : Pco.SameControl s (s.withQueue rest) := by constructor <;> rfl
      exact sameControl_trans (sameControl_trans h1 (processImage_sameControl env _ image))
        (ih _)
    · rw [Pco.receiveLoop, if_neg hw]
      exact sameControl_refl s

theorem receiveImages_sameControl (env : Env) (s : Pco) :
    Pco.SameControl s (Pco.receiveImages env s).2 := by
  have h1 := receiveLoop_sameControl env s.receivedFrameQueue s
  have h2 : Pco.SameControl (Pco.receiveLoop env s.receivedFrameQueue s)
      (Pco.receiveImages env s).2 := by constructor <;> rfl
  exact sameControl_trans h1 h2

theorem receiveImages_config (env : Env) (s : Pco) :
    Pco.SameConfig s (Pco.receiveImages env s).2 := by
  obtain ⟨_, _, h, _, _⟩ := receiveLoop_numbering env (s.binaryTimestamp env.c)
    (fun image => extractImageNumber env.c s.paramBitAlignment s.dynResolution image.pData)
    s.receivedFrameQueue s rfl rfl (fun _ => rfl)
  exact sameConfig_trans h (receiveImages_sameConfig env s)

/-! ## The image counter counts the delivered images -/

theorem counted_refl (s : Pco) : Pco.Counted s s := rfl

theorem counted_of_eq {s t : Pco} (h1 : t.delivered = s.delivered)
    (h2 : t.numImagesCounter = s.numImagesCounter) : Pco.Counted s t := by
  unfold Pco.Counted
  rw [h1, h2]

theorem counted_trans {s t u : Pco} (h1 : Pco.Counted s t) (h2 : Pco.Counted t u) :
    Pco.Counted s u := by
  unfold Pco.Counted at *
  rw [h2, h1]

theorem checkImageNumber_counted (c : Constants) (s : Pco) (image : NDArray) :
    Pco.Counted s (s.checkImageNumber c image) := by
  unfold Pco.checkImageNumber
  by_cases h : s.imageNumber c image ≠ s.lastImageNumber + 1
  · simp only []; rw [if_pos h]; exact counted_of_eq rfl rfl
  · simp only []; rw [if_neg h]; exact counted_of_eq rfl rfl

theorem softwareRoi_counted (env : Env) (s : Pco) (image : NDArray) :
    Pco.Counted s (s.softwareRoi env image).2 := by
  unfold Pco.softwareRoi
  cases s.roiRequired
  · exact counted_refl s
  · exact counted_of_eq rfl rfl

theorem sumExposures_counted (s : Pco) (image : NDArray) :
    Pco.Counted s (s.sumExposures image).2.2 := by
  unfold Pco.sumExposures
  split
  · simp only []
    split <;> split <;> (try split) <;> exact counted_of_eq rfl rfl
  · exact counted_refl s

theorem imageComplete_counted (s : Pco) (image : NDArray) :
    Pco.Counted s (s.imageComplete image) := by
  unfold Pco.Counted Pco.imageComplete Pco.release
  simp only [List.length_append, List.length_singleton]
  push_cast
  ring

theorem finishImage_counted (c : Constants) (s : Pco) (image : NDArray) :
    Pco.Counted s (s.finishImage c image) := by
  unfold Pco.Counted Pco.finishImage Pco.imageComplete Pco.release
  simp only []
  split <;> split <;> (try split) <;>
    (try simp only [List.length_append, List.length_singleton]) <;> (try push_cast) <;> ring

theorem processImage_counted (env : Env) (s : Pco) (image : NDArray) :
    Pco.Counted s (s.processImage env image) := by
  have h1 := checkImageNumber_counted env.c s image
  have h2 := softwareRoi_counted env (s.checkImageNumber env.c image) image
  have h3 := sumExposures_counted ((s.checkImageNumber env.c image).softwareRoi env image).2
    ((s.checkImageNumber env.c image).softwareRoi env image).1
  unfold Pco.processImage
  simp only []
  split
  · exact counted_trans (counted_trans h1 (counted_trans h2 h3)) (finishImage_counted _ _ _)
  · exact counted_trans h1 (counted_trans h2 h3)

theorem receiveLoop_counted (env : Env) (q : List NDArray) (s : Pco) :
    Pco.Counted s (Pco.receiveLoop env q s) := by
  induction q generalizing s with
  | nil => exact counted_refl s
  | cons image rest ih =>
    by_cases hw : s.wantsImages env.c = true
    · rw [Pco.receiveLoop, if_pos hw]
      have h1 : Pco.Counted s (s.withQueue rest) := counted_of_eq rfl rfl
      exact counted_trans (counted_trans h1 (processImage_counted env _ image)) (ih _)
    · rw [Pco.receiveLoop, if_neg hw]
      exact counted_refl s

theorem receiveImages_counted (env : Env) (s : Pco) :
    Pco.Counted s (Pco.receiveImages env s).2 :=
  counted_trans (receiveLoop_counted env s.receivedFrameQueue s) (counted_of_eq rfl rfl)

/-! ## What the disarm changes -/

theorem call_cases (api : DllApi) (s : Pco) (call : ApiCall) :
    s.call api call = Except.ok { s with log := s.log ++ [Effect.api call] } ∨
    s.call api call
      = Except.error (Exn.pcoException (api.what call),
          { s with log := s.log ++ [Effect.api call] }) := by
  unfold Pco.call
  by_cases h : api.raises s.log call = true
  · right; simp only [h, if_true]
  · left; simp only [h]; rfl

theorem call_frame (api : DllApi) (s : Pco) (call : ApiCall) :
    (s.call api call).state = { s with log := (s.call api call).state.log } := by
  rw [call_state]

theorem freeBufferLoop_frame (api : DllApi) (n : Nat) (i : Int) (s : Pco) :
    (Pco.freeBufferLoop api n i s).state
      = { s with log := (Pco.freeBufferLoop api n i s).state.log } := by
  induction n generalizing i s with
  | zero => rfl
  | succ n ih =>
    rw [Pco.freeBufferLoop]
    rcases call_cases api s (ApiCall.freeBuffer i) with h | h
    · rw [h]
      exact (ih _ _).trans rfl
    · rw [h]
      rfl

theorem freeBufferLoop_extends (api : DllApi) (n : Nat) (i : Int) (s : Pco) :
    ∃ rest, (Pco.freeBufferLoop api n i s).state.log = s.log ++ rest := by
  induction n generalizing i s with
  | zero => exact ⟨[], by simp [Pco.freeBufferLoop, Throwing.state]⟩
  | succ n ih =>
    rw [Pco.freeBufferLoop]
    rcases call_cases api s (ApiCall.freeBuffer i) with h | h
    · rw [h]
      obtain ⟨rest, hr⟩ := ih (i + 1) { s with log := s.log ++ [Effect.api (ApiCall.freeBuffer i)] }
      exact ⟨Effect.api (ApiCall.freeBuffer i) :: rest, by simp only []; rw [hr]; simp⟩
    · rw [h]
      exact ⟨[Effect.api (ApiCall.freeBuffer i)], rfl⟩

theorem freeImageBuffers_frame (env : Env) (s : Pco) :
    s.freeImageBuffers env = { s with log := (s.freeImageBuffers env).log } := by
  unfold Pco.freeImageBuffers
  rcases call_cases env.api s ApiCall.cancelImages with h | h
  · rw [h]
    exact (freeBufferLoop_frame _ _ _ _).trans rfl
  · rw [h]

theorem freeImageBuffers_extends (env : Env) (s : Pco) :
    ∃ rest, (s.freeImageBuffers env).log = s.log ++ Effect.api ApiCall.cancelImages :: rest := by
  unfold Pco.freeImageBuffers
  rcases call_cases env.api s ApiCall.cancelImages with h | h
  · rw [h]
    obtain ⟨rest, hr⟩ := freeBufferLoop_extends env.api env.c.numApiBuffers 0
      { s with log := s.log ++ [Effect.api ApiCall.cancelImages] }
    exact ⟨rest, by simp only []; rw [hr]; simp⟩
  · rw [h]
    exact ⟨[], rfl⟩

theorem doDisarm_frame (env : Env) (s : Pco) :
    s.doDisarm env
      = { s with paramArmMode := 0, paramDisarm := 0, log := (s.doDisarm env).log } := by
  unfold Pco.doDisarm
  simp only [call_state]
  exact (freeImageBuffers_frame env _).trans rfl

theorem doDisarm_extends (env : Env) (s : Pco) :
    ∃ rest, (s.doDisarm env).log
      = s.log ++ Effect.api (ApiCall.setRecordingState env.c.recorderStateOff)
          :: Effect.api ApiCall.cancelImages :: rest := by
  unfold Pco.doDisarm
  simp only [call_state]
  obtain ⟨rest, hr⟩ := freeImageBuffers_extends env
    { s with paramArmMode := 0, paramDisarm := 0,
             log := s.log ++ [Effect.api (ApiCall.setRecordingState env.c.recorderStateOff)] }
  exact ⟨rest, by rw [hr]; simp⟩

/-! ## C13: an image while acquiring -/

/-- C13: `smAcquireImage` returns the first ordinal (Acquiring, with
`startCamera` run on the state `receiveImages` left, which re-triggers
the camera) exactly when `receiveImages` reports the target not reached;
otherwise the second ordinal (Idle) when the trigger mode is not
software, having requested recording off and cancelled the images (the
disarm); otherwise the third ordinal (Armed), having made no SDK call;
in both target-reached branches ADAcquire is 0. -/
theorem smAcquireImage_branches (env : Env) (s : Pco) :
    ((s.smAcquireImage env).1 = StateSelector.firstState ↔
      (Pco.receiveImages env s).1 = false) ∧
    ((s.smAcquireImage env).1 = StateSelector.secondState ↔
      (Pco.receiveImages env s).1 = true ∧ s.triggerMode ≠ env.c.triggerSoftware) ∧
    ((s.smAcquireImage env).1 = StateSelector.thirdState ↔
      (Pco.receiveImages env s).1 = true ∧ s.triggerMode = env.c.triggerSoftware) ∧
    ((s.smAcquireImage env).1 = StateSelector.firstState →
      (s.smAcquireImage env).2 = (Pco.receiveImages env s).2.startCamera env) ∧
    ((s.smAcquireImage env).1 = StateSelector.secondState →
      (s.smAcquireImage env).2.paramADAcquire = 0 ∧
      ∃ rest, (s.smAcquireImage env).2.log
        = s.log ++ Effect.api (ApiCall.setRecordingState env.c.recorderStateOff)
            :: Effect.api ApiCall.cancelImages :: rest) ∧
    ((s.smAcquireImage env).1 = StateSelector.thirdState →
      (s.smAcquireImage env).2.paramADAcquire = 0 ∧ (s.smAcquireImage env).2.log = s.log) ∧
    nextState State.Acquiring Event.ImageReceived StateSelector.firstState = State.Acquiring ∧
    nextState State.Acquiring Event.ImageReceived StateSelector.secondState = State.Idle ∧
    nextState State.Acquiring Event.ImageReceived StateSelector.thirdState = State.Armed := by
  have hctl := receiveImages_sameControl env s
  have hdis := doDisarm_extends env ((Pco.receiveImages env s).2.acquisitionComplete env.c)
  have hfr := doDisarm_frame env ((Pco.receiveImages env s).2.acquisitionComplete env.c)
  have hlog : ((Pco.receiveImages env s).2.acquisitionComplete env.c).log = s.log := hctl.log
  unfold Pco.smAcquireImage
  simp only []
  rw [hctl.triggerMode]
  cases hr : (Pco.receiveImages env s).1
  · simp only [if_true]
    refine ⟨by simp, by simp, by simp, by simp, by simp, by simp, by decide, by decide,
      by decide⟩
  · by_cases ht : s.triggerMode ≠ env.c.triggerSoftware
    · simp only [Bool.true_eq_false, if_false, if_pos ht]
      refine ⟨by simp, by simp [ht], by simp [ht], by simp, fun _ => ⟨?_, ?_⟩, by simp, by decide,
        by decide, by decide⟩
      · rw [hfr]; rfl
      · obtain ⟨rest, h⟩ := hdis
        exact ⟨rest, by rw [h, hlog]⟩
    · simp only [Bool.true_eq_false, if_false, if_neg ht]
      have ht2 : s.triggerMode = env.c.triggerSoftware := not_not.mp ht
      refine ⟨by simp, by simp [ht2], by simp [ht2], by simp, by simp, fun _ => ⟨rfl, hlog⟩,
        by decide, by decide, by decide⟩

/-- An externally triggered single-image acquisition whose image has
been delivered: the second ordinal, with ADAcquire cleared. -/
theorem smAcquireImage_branches_witness :
    ((targetReached 2).smAcquireImage quietEnv).1 = StateSelector.secondState ∧
    ((targetReached 2).smAcquireImage quietEnv).2.paramADAcquire = 0 :=
  ⟨by decide, ((smAcquireImage_branches quietEnv (targetReached 2)).2.2.2.2.1 (by decide)).1⟩

/-! ## C14, C15: the stop actions -/

theorem handle_stop_acquiring (env : Env) (s : Pco) :
    s.handle env State.Acquiring Event.Stop
      = some (nextState State.Acquiring Event.Stop (s.smStopAcquisition env).1,
          (s.smStopAcquisition env).2) := rfl

theorem handle_stop_unarmed (env : Env) (s : Pco) :
    s.handle env State.UnarmedAcquiring Event.Stop
      = some (State.Idle, (s.smExternalStopAcquisition env).2) := rfl

theorem handle_stop_external (env : Env) (s : Pco) :
    s.handle env State.ExternalAcquiring Event.Stop
      = some (State.Idle, (s.smExternalStopAcquisition env).2) := rfl

theorem handle_image_acquiring (env : Env) (s : Pco) :
    s.handle env State.Acquiring Event.ImageReceived
      = some (nextState State.Acquiring Event.ImageReceived (s.smAcquireImage env).1,
          (s.smAcquireImage env).2) := rfl

theorem handle_image_unarmed (env : Env) (s : Pco) :
    s.handle env State.UnarmedAcquiring Event.ImageReceived
      = some (nextState State.UnarmedAcquiring Event.ImageReceived
          (s.smUnarmedAcquireImage env).1, (s.smUnarmedAcquireImage env).2) := rfl

theorem handle_image_external (env : Env) (s : Pco) :
    s.handle env State.ExternalAcquiring Event.ImageReceived
      = some (nextState State.ExternalAcquiring Event.ImageReceived
          (s.smExternalAcquireImage env).1, (s.smExternalAcquireImage env).2) := rfl

theorem smStopAcquisition_idle (env : Env) (s : Pco)
    (h : nextState State.Acquiring Event.Stop (s.smStopAcquisition env).1 = State.Idle) :
    (s.smStopAcquisition env).2 = (s.acquisitionComplete env.c).doDisarm env := by
  unfold Pco.smStopAcquisition at h ⊢
  by_cases ht : s.triggerMode ≠ env.c.triggerSoftware
  · rw [if_pos ht]
  · rw [if_neg ht] at h
    have h2 : nextState State.Acquiring Event.Stop StateSelector.secondState ≠ State.Idle := by
      decide
    exact absurd h h2

/-- C14, as the code has it: when Stop ends in Idle from an acquiring
state, recording off has been requested and the images cancelled, every
buffer has been freed provided neither `cancelImages` nor `freeBuffer`
raises, and the pending frame queue is empty on return from
UnarmedAcquiring and ExternalAcquiring, while from Acquiring it is left
as it was. -/
theorem stop_ending_in_idle (env : Env) (s t : Pco) (st : State)
    (hst : st = State.Acquiring ∨ st = State.UnarmedAcquiring ∨ st = State.ExternalAcquiring)
    (h : s.handle env st Event.Stop = some (State.Idle, t)) :
    (∃ rest, t.log = s.log ++ Effect.api (ApiCall.setRecordingState env.c.recorderStateOff)
      :: Effect.api ApiCall.cancelImages :: rest) ∧
    ((∀ l, env.api.raises l ApiCall.cancelImages = false) →
      (∀ l i, env.api.raises l (ApiCall.freeBuffer i) = false) →
      t.log = s.log ++ Effect.api (ApiCall.setRecordingState env.c.recorderStateOff)
        :: Effect.api ApiCall.cancelImages
        :: (List.range env.c.numApiBuffers).map
            (fun k : Nat => Effect.api (ApiCall.freeBuffer (k : Int)))) ∧
    t.receivedFrameQueue = (if st = State.Acquiring then s.receivedFrameQueue else []) := by
  have hext := doDisarm_extends env (s.acquisitionComplete env.c)
  have hlog := fun hc hf => doDisarm_log env hc hf (s.acquisitionComplete env.c)
  have hfr := doDisarm_frame env (s.acquisitionComplete env.c)
  rcases hst with rfl | rfl | rfl
  · rw [handle_stop_acquiring] at h
    simp only [Option.some.injEq, Prod.mk.injEq] at h
    rw [smStopAcquisition_idle env s h.1] at h
    rw [← h.2]
    refine ⟨hext, hlog, ?_⟩
    rw [hfr]
    rfl
  · rw [handle_stop_unarmed] at h
    simp only [Option.some.injEq, Prod.mk.injEq, true_and] at h
    rw [← h]
    refine ⟨hext, hlog, ?_⟩
    simp [Pco.smExternalStopAcquisition, Pco.discardImages]
  · rw [handle_stop_external] at h
    simp only [Option.some.injEq, Prod.mk.injEq, true_and] at h
    rw [← h]
    refine ⟨hext, hlog, ?_⟩
    simp [Pco.smExternalStopAcquisition, Pco.discardImages]

/-- Stop in UnarmedAcquiring with a frame waiting: Idle, all eight
buffers freed, the queue empty. -/
theorem stop_ending_in_idle_witness :
    (stoppedWithFrame.smExternalStopAcquisition quietEnv).2.log
      = [Effect.api (ApiCall.setRecordingState 0), Effect.api ApiCall.cancelImages,
         Effect.api (ApiCall.freeBuffer 0), Effect.api (ApiCall.freeBuffer 1),
         Effect.api (ApiCall.freeBuffer 2), Effect.api (ApiCall.freeBuffer 3),
         Effect.api (ApiCall.freeBuffer 4), Effect.api (ApiCall.freeBuffer 5),
         Effect.api (ApiCall.freeBuffer 6), Effect.api (ApiCall.freeBuffer 7)] ∧
    (stoppedWithFrame.smExternalStopAcquisition quietEnv).2.receivedFrameQueue = [] :=
  ⟨(stop_ending_in_idle quietEnv stoppedWithFrame
      (stoppedWithFrame.smExternalStopAcquisition quietEnv).2 State.UnarmedAcquiring
      (Or.inr (Or.inl rfl)) rfl).2.1 (fun _ => rfl) (fun _ _ => rfl),
   (stop_ending_in_idle quietEnv stoppedWithFrame
      (stoppedWithFrame.smExternalStopAcquisition quietEnv).2 State.UnarmedAcquiring
      (Or.inr (Or.inl rfl)) rfl).2.2⟩

/-- C14 as stated fails: Stop in Acquiring with a trigger mode other than
software ends in Idle with the waiting frame still in the queue; and when
`cancelImages` raises, Stop in UnarmedAcquiring ends in Idle without a
single `freeBuffer` call. -/
theorem stop_in_acquiring_keeps_queue :
    (stoppedWithFrame.handle quietEnv State.Acquiring Event.Stop).map
        (fun r => (r.1, r.2.receivedFrameQueue))
      = some (State.Idle, [frame 1 [5, 6]]) ∧
    (stoppedWithFrame.handle cancelFailsEnv State.UnarmedAcquiring Event.Stop).map
        (fun r => (r.1, r.2.log))
      = some (State.Idle,
          [Effect.api (ApiCall.setRecordingState 0), Effect.api ApiCall.cancelImages]) := by
  constructor <;> decide

/-- C15, as the code has it: with the target reached, Stop and
ImageReceived choose the same destination in Acquiring (Idle unless the
trigger mode is software, then Armed) and in UnarmedAcquiring (Idle); in
ExternalAcquiring Stop always chooses Idle, while ImageReceived chooses
Idle in the auto trigger mode and Armed in every other. -/
theorem stop_destination_policy (env : Env) (s : Pco)
    (h : (Pco.receiveImages env s).1 = true) :
    (s.handle env State.Acquiring Event.Stop).map Prod.fst
      = some (if s.triggerMode ≠ env.c.triggerSoftware then State.Idle else State.Armed) ∧
    (s.handle env State.Acquiring Event.ImageReceived).map Prod.fst
      = some (if s.triggerMode ≠ env.c.triggerSoftware then State.Idle else State.Armed) ∧
    (s.handle env State.UnarmedAcquiring Event.Stop).map Prod.fst = some State.Idle ∧
    (s.handle env State.UnarmedAcquiring Event.ImageReceived).map Prod.fst = some State.Idle ∧
    (s.handle env State.ExternalAcquiring Event.Stop).map Prod.fst = some State.Idle ∧
    (s.handle env State.ExternalAcquiring Event.ImageReceived).map Prod.fst
      = some (if s.triggerMode = env.c.triggerAuto then State.Idle else State.Armed) := by
  have hctl := receiveImages_sameControl env s
  rw [handle_stop_acquiring, handle_image_acquiring, handle_stop_unarmed, handle_image_unarmed,
    handle_stop_external, handle_image_external]
  simp only [Option.map_some']
  unfold Pco.smStopAcquisition Pco.smAcquireImage Pco.smUnarmedAcquireImage
    Pco.smExternalAcquireImage
  simp only [h, Bool.true_eq_false, if_false, hctl.triggerMode]
  refine ⟨?_, ?_, trivial, ?_, trivial, ?_⟩
  · by_cases ht : s.triggerMode ≠ env.c.triggerSoftware
    · rw [if_pos ht, if_pos ht]; rfl
    · rw [if_neg ht, if_neg ht]; rfl
  · by_cases ht : s.triggerMode ≠ env.c.triggerSoftware
    · rw [if_pos ht, if_pos ht]; rfl
    · rw [if_neg ht, if_neg ht]; rfl
  · rfl
  · by_cases ht : s.triggerMode = env.c.triggerAuto
    · rw [if_pos ht, if_pos ht]; rfl
    · rw [if_neg ht, if_neg ht]; rfl

/-- In the auto trigger mode the two destinations agree in
ExternalAcquiring as well. -/
theorem stop_destination_policy_witness :
    ((targetReached 0).handle quietEnv State.ExternalAcquiring Event.Stop).map Prod.fst
      = some State.Idle ∧
    ((targetReached 0).handle quietEnv State.ExternalAcquiring Event.ImageReceived).map Prod.fst
      = some State.Idle :=
  ⟨(stop_destination_policy quietEnv (targetReached 0) (by decide)).2.2.2.2.1,
   (stop_destination_policy quietEnv (targetReached 0) (by decide)).2.2.2.2.2⟩

/-- C15 as stated fails: in ExternalAcquiring with the external trigger
mode and the target reached, Stop chooses Idle and ImageReceived chooses
Armed. -/
theorem stop_and_image_destinations_differ :
    (Pco.receiveImages quietEnv (targetReached 2)).1 = true ∧
    ((targetReached 2).handle quietEnv State.ExternalAcquiring Event.Stop).map Prod.fst
      = some State.Idle ∧
    ((targetReached 2).handle quietEnv State.ExternalAcquiring Event.ImageReceived).map Prod.fst
      = some State.Armed := by
  refine ⟨by decide, by decide, by decide⟩

/-! ## C12: connecting to the camera -/

theorem openAndInitialise_open_raises (env : Env) (s : Pco)
    (h : env.api.raises (s.lock.closeStale env).log (ApiCall.openCamera 0) = true) :
    ∃ t, (s.lock.closeStale env).openAndInitialise env
      = Except.error (Exn.pcoException (env.api.what (ApiCall.openCamera 0)), t) := by
  unfold Pco.openAndInitialise Pco.call
  simp only []
  rw [if_pos h]
  exact ⟨_, rfl⟩

theorem openAndInitialise_opened (env : Env) (s : Pco)
    (h : env.api.raises (s.lock.closeStale env).log (ApiCall.openCamera 0) = false) :
    (s.lock.closeStale env).openAndInitialise env
      = (env.initialiseCamera (s.opened env)).bind fun s3 =>
          Except.ok (s3.discardImages.startTimer TimerPeriod.statusPollPeriod
            Event.TimerExpiry) := by
  unfold Pco.openAndInitialise Pco.call
  simp only []
  rw [if_neg (by simpa using h)]
  rfl

/-- C12: `smConnectToCamera` never raises `PcoException`.  When
`openCamera` raises, or `initialiseCamera` raises `PcoException`, it
returns the second ordinal (Unconnected) having started the timer to
post TimerExpiry after `reconnectPeriod`, the event `smConnectToCamera`
is registered for in Unconnected.  When both return, it returns the first
ordinal (Idle) with every queued frame released, the queue empty and the
timer set to post TimerExpiry after `statusPollPeriod`. -/
theorem smConnectToCamera_retries (env : Env) (s : Pco) :
    (∀ w t, s.smConnectToCamera env ≠ Except.error (Exn.pcoException w, t)) ∧
    (env.api.raises (s.lock.closeStale env).log (ApiCall.openCamera 0) = true →
      ∃ u, s.smConnectToCamera env = Except.ok (StateSelector.secondState, u) ∧
        (∃ l, u.log
          = l ++ [Effect.startTimer TimerPeriod.reconnectPeriod Event.TimerExpiry,
              Effect.unlock]) ∧
        u.stateMachine.timer = some (TimerPeriod.reconnectPeriod, Event.TimerExpiry)) ∧
    (env.api.raises (s.lock.closeStale env).log (ApiCall.openCamera 0) = false →
      ∀ w t, env.initialiseCamera (s.opened env) = Except.error (Exn.pcoException w, t) →
      ∃ u, s.smConnectToCamera env = Except.ok (StateSelector.secondState, u) ∧
        (∃ l, u.log
          = l ++ [Effect.startTimer TimerPeriod.reconnectPeriod Event.TimerExpiry,
              Effect.unlock]) ∧
        u.stateMachine.timer = some (TimerPeriod.reconnectPeriod, Event.TimerExpiry)) ∧
    (env.api.raises (s.lock.closeStale env).log (ApiCall.openCamera 0) = false →
      ∀ t, env.initialiseCamera (s.opened env) = Except.ok t →
      ∃ u, s.smConnectToCamera env = Except.ok (StateSelector.firstState, u) ∧
        u.receivedFrameQueue = [] ∧
        u.released = t.released ++ t.receivedFrameQueue.map NDArray.id ∧
        (∃ l, u.log
          = l ++ [Effect.startTimer TimerPeriod.statusPollPeriod Event.TimerExpiry,
              Effect.unlock]) ∧
        u.stateMachine.timer = some (TimerPeriod.statusPollPeriod, Event.TimerExpiry)) ∧
    nextState State.Unconnected Event.TimerExpiry StateSelector.firstState = State.Idle ∧
    nextState State.Unconnected Event.TimerExpiry StateSelector.secondState
      = State.Unconnected ∧
    (findTransition State.Unconnected Event.TimerExpiry).map Transition.action
      = some Action.smConnectToCamera := by
  refine ⟨?_, ?_, ?_, ?_, by decide, by decide, by decide⟩
  · intro w t
    unfold Pco.smConnectToCamera
    split <;> simp
  · intro h
    obtain ⟨t, ht⟩ := openAndInitialise_open_raises env s h
    unfold Pco.smConnectToCamera
    rw [ht]
    exact ⟨_, rfl, ⟨t.log, by simp [Pco.unlock, Pco.startTimer]⟩, rfl⟩
  · intro h w t hinit
    unfold Pco.smConnectToCamera
    rw [openAndInitialise_opened env s h, hinit]
    exact ⟨_, rfl, ⟨t.log, by simp [Pco.unlock, Pco.startTimer]⟩, rfl⟩
  · intro h t hinit
    unfold Pco.smConnectToCamera
    rw [openAndInitialise_opened env s h, hinit]
    exact ⟨_, rfl, rfl, rfl, ⟨t.log, by simp [Pco.unlock, Pco.startTimer, Pco.discardImages]⟩,
      rfl⟩

/-- With an SDK whose `openCamera` raises, the action returns the second
ordinal with the reconnection timer set. -/
theorem smConnectToCamera_retries_witness :
    ∃ u, ({} : Pco).smConnectToCamera openFailsEnv
        = Except.ok (StateSelector.secondState, u) ∧
      (∃ l, u.log
        = l ++ [Effect.startTimer TimerPeriod.reconnectPeriod Event.TimerExpiry,
            Effect.unlock]) ∧
      u.stateMachine.timer = some (TimerPeriod.reconnectPeriod, Event.TimerExpiry) :=
  (smConnectToCamera_retries openFailsEnv {}).2.1 (by decide)

/-! ## C16: the result of `receiveImages` -/

theorem receiveImagesSeries_config (env : Env) (batches : List (List NDArray)) (s : Pco) :
    Pco.SameConfig s (Pco.receiveImagesSeries env batches s) := by
  induction batches generalizing s with
  | nil => exact sameConfig_refl s
  | cons batch batches ih =>
    rw [Pco.receiveImagesSeries]
    exact sameConfig_trans
      (sameConfig_trans (withQueue_sameConfig s _) (receiveImages_config env _)) (ih _)

theorem receiveImagesSeries_counted (env : Env) (batches : List (List NDArray)) (s : Pco) :
    Pco.Counted s (Pco.receiveImagesSeries env batches s) := by
  induction batches generalizing s with
  | nil => exact counted_refl s
  | cons batch batches ih =>
    rw [Pco.receiveImagesSeries]
    have h1 : Pco.Counted s (s.withQueue (s.receivedFrameQueue ++ batch)) :=
      counted_of_eq rfl rfl
    exact counted_trans (counted_trans h1 (receiveImages_counted env _)) (ih _)

theorem nowAcquiring_single (c : Constants) (s : Pco) (h : s.imageMode = c.ADImageSingle) :
    (s.nowAcquiring c).numImages = 1 ∧ (s.nowAcquiring c).numImagesCounter = 0 ∧
    (s.nowAcquiring c).imageMode = s.imageMode ∧
    (s.nowAcquiring c).delivered = s.delivered := by
  unfold Pco.nowAcquiring
  simp only []
  have h2 : ({ s with arrayCounter := s.paramNDArrayCounter, numImages := s.paramADNumImages,
                      numExposures := s.paramADNumExposures } : Pco).imageMode
      = c.ADImageSingle := h
  rw [if_pos h2]
  exact ⟨rfl, rfl, rfl, rfl⟩

/-- C16: `receiveImages` returns true exactly when, on return, the image
mode is not continuous and `numImagesCounter >= numImages`; in the
continuous mode it returns false whatever the queue holds; and in the
single-image mode, after `nowAcquiring` (which makes `numImages` 1) and
any series of calls, it returns true exactly when at least one image has
been delivered since. -/
theorem receiveImages_result (env : Env) (s : Pco) :
    ((Pco.receiveImages env s).1 = true ↔
      (Pco.receiveImages env s).2.imageMode ≠ env.c.ADImageContinuous ∧
      (Pco.receiveImages env s).2.numImagesCounter ≥ (Pco.receiveImages env s).2.numImages) ∧
    (s.imageMode = env.c.ADImageContinuous → (Pco.receiveImages env s).1 = false) ∧
    (s.imageMode = env.c.ADImageSingle → env.c.ADImageSingle ≠ env.c.ADImageContinuous →
      ∀ batches : List (List NDArray),
        (Pco.receiveImagesSeries env batches (s.nowAcquiring env.c)).numImages = 1 ∧
        ((Pco.receiveImages env
            (Pco.receiveImagesSeries env batches (s.nowAcquiring env.c))).1 = true ↔
          s.delivered.length + 1 ≤
            (Pco.receiveImages env
              (Pco.receiveImagesSeries env batches (s.nowAcquiring env.c))).2.delivered.length)) := by
  have hres : ∀ u : Pco, ((Pco.receiveImages env u).1 = true ↔
      (Pco.receiveImages env u).2.imageMode ≠ env.c.ADImageContinuous ∧
      (Pco.receiveImages env u).2.numImagesCounter ≥ (Pco.receiveImages env u).2.numImages) := by
    intro u
    unfold Pco.receiveImages
    simp only [decide_eq_true_eq]
  refine ⟨hres s, ?_, ?_⟩
  · intro hc
    have hcfg := receiveImages_config env s
    cases hr : (Pco.receiveImages env s).1
    · rfl
    · exact absurd (hcfg.imageMode.trans hc) ((hres s).mp hr).1
  · intro hsingle hne batches
    obtain ⟨h1, h2, h3, h4⟩ := nowAcquiring_single env.c s hsingle
    have hcfg1 := receiveImagesSeries_config env batches (s.nowAcquiring env.c)
    have hcnt1 := receiveImagesSeries_counted env batches (s.nowAcquiring env.c)
    have hcfg2 := receiveImages_config env
      (Pco.receiveImagesSeries env batches (s.nowAcquiring env.c))
    have hcnt2 := receiveImages_counted env
      (Pco.receiveImagesSeries env batches (s.nowAcquiring env.c))
    refine ⟨hcfg1.numImages.trans h1, ?_⟩
    rw [hres]
    rw [hcfg2.imageMode, hcfg1.imageMode, h3, hcfg2.numImages, hcfg1.numImages, h1, hsingle]
    unfold Pco.Counted at hcnt1 hcnt2
    rw [hcnt1, h2, h4] at hcnt2
    constructor
    · rintro ⟨_, hge⟩
      omega
    · intro hle
      exact ⟨hne, by omega⟩

/-- A single-image acquisition with one frame queued: the first call
delivers the frame and returns true. -/
theorem receiveImages_result_witness :
    (Pco.receiveImages quietEnv (singleStart.nowAcquiring quietEnv.c)).1 = true ∧
    (Pco.receiveImages quietEnv (singleStart.nowAcquiring quietEnv.c)).2.delivered.length = 1 :=
  ⟨((receiveImages_result quietEnv singleStart).2.2 (by decide) (by decide) []).2.mpr
      (by decide),
   by decide⟩

/-! ## C17: no gang peer -/

/-- C17: with no gang server and no gang connection registered,
`makeImages` returns false and leaves the driver state as it was, so
that `smMakeGangedImage` and `smUnarmedMakeGangedImage` return the first
ordinal with the state unchanged; and in every state `receiveImages`
passes through, a finished image goes to `imageComplete` with nothing
sent or offered to a gang peer. -/
theorem gang_calls_are_no_ops (env : Env) (s : Pco)
    (hs : s.gangServer = none) (hc : s.gangConnection = false) :
    s.makeImages env = (false, s) ∧
    s.smMakeGangedImage env = (StateSelector.firstState, s) ∧
    s.smUnarmedMakeGangedImage env = (StateSelector.firstState, s) ∧
    (∀ (t : Pco) (image : NDArray), Pco.SameConfig s t →
      t.finishImage env.c image = t.imageComplete (t.attachInfo env.c image)) ∧
    Pco.SameConfig s (Pco.receiveImages env s).2 := by
  have hm : s.makeImages env = (false, s) := by
    unfold Pco.makeImages
    rw [hs]
  refine ⟨hm, ?_, ?_, ?_, receiveImages_config env s⟩
  · unfold Pco.smMakeGangedImage
    rw [hm]
    rfl
  · unfold Pco.smUnarmedMakeGangedImage
    rw [hm]
    rfl
  · intro t image hcfg
    have h1 : t.gangConnection = false := hcfg.gangConnection.trans hc
    have h2 : t.gangServer = none := hcfg.gangServer.trans hs
    unfold Pco.finishImage
    simp only [h1, Bool.false_eq_true, if_false, h2]

/-- The freshly constructed driver has no gang peer: its `makeImages`
returns false. -/
theorem gang_calls_are_no_ops_witness :
    (({} : Pco).makeImages quietEnv).1 = false ∧
    (({} : Pco).smMakeGangedImage quietEnv).1 = StateSelector.firstState :=
  ⟨congrArg Prod.fst (gang_calls_are_no_ops quietEnv {} rfl rfl).1,
   congrArg Prod.fst (gang_calls_are_no_ops quietEnv {} rfl rfl).2.1⟩

/-! ## C18: the forced trigger -/

/-- C18: `startCamera` makes no SDK call and changes nothing unless the
trigger mode is software or external; in those modes it calls
`forceTrigger` once, the trigger timer is set to post Trigger after
`triggerRetryPeriod` (10 ms) exactly when the call raised or reported the
trigger state 0 and is otherwise left as it was, and a raising call adds
one to the driver-library error counter; the function always returns. -/
theorem startCamera_trigger (env : Env) (s : Pco) :
    (¬ (s.triggerMode = env.c.triggerSoftware ∨ s.triggerMode = env.c.triggerExternal) →
      s.startCamera env = s) ∧
    (s.triggerMode = env.c.triggerSoftware ∨ s.triggerMode = env.c.triggerExternal →
      (s.startCamera env).log = s.log ++ [Effect.api ApiCall.forceTrigger] ∧
      (s.startCamera env).triggerTimer
        = (if env.api.raises s.log ApiCall.forceTrigger = true ∨ env.api.triggerState s.log = 0
            then some (TimerPeriod.triggerRetryPeriod, Event.Trigger) else s.triggerTimer) ∧
      (s.startCamera env).driverLibraryErrors
        = s.driverLibraryErrors
            + (if env.api.raises s.log ApiCall.forceTrigger = true then 1 else 0)) ∧
    TimerPeriod.triggerRetryPeriod.milliseconds = 10 := by
  refine ⟨?_, ?_, rfl⟩
  · intro h
    unfold Pco.startCamera
    rw [if_neg h]
  · intro h
    unfold Pco.startCamera
    rw [if_pos h]
    by_cases hr : env.api.raises s.log ApiCall.forceTrigger = true
    · have hcall : s.call env.api ApiCall.forceTrigger
          = Except.error (Exn.pcoException (env.api.what ApiCall.forceTrigger),
              { s with log := s.log ++ [Effect.api ApiCall.forceTrigger] }) := by
        unfold Pco.call
        simp only [hr, if_true]
      rw [hcall, if_pos (Or.inl hr), if_pos hr]
      exact ⟨rfl, rfl, rfl⟩
    · have hcall := call_ok env.api s ApiCall.forceTrigger (by simpa using hr)
      rw [hcall, if_neg hr]
      by_cases ht : env.api.triggerState s.log = 0
      · rw [if_pos (Or.inr ht)]
        simp only [ht, if_true]
        refine ⟨?_, ?_, ?_⟩ <;> first | trivial | rfl | simp
      · rw [if_neg (not_or.mpr ⟨hr, ht⟩)]
        simp only [ht, if_false]
        refine ⟨?_, ?_, ?_⟩ <;> first | trivial | rfl | simp

/-- A software-triggered driver whose forced trigger raises: the retry
timer is set and one library error is counted. -/
theorem startCamera_trigger_witness :
    (({ triggerMode := 1 } : Pco).startCamera triggerFailsEnv).triggerTimer
      = some (TimerPeriod.triggerRetryPeriod, Event.Trigger) ∧
    (({ triggerMode := 1 } : Pco).startCamera triggerFailsEnv).driverLibraryErrors = 1 :=
  ⟨((startCamera_trigger triggerFailsEnv { triggerMode := 1 }).2.1 (Or.inl rfl)).2.1,
   ((startCamera_trigger triggerFailsEnv { triggerMode := 1 }).2.1 (Or.inl rfl)).2.2⟩

/-! ## The SDK calls of `doArm` -/

theorem onlyCalls_refl (l : List Effect) : OnlyCalls l l := ⟨[], by simp⟩

theorem onlyCalls_trans {a b c : List Effect} (h1 : OnlyCalls a b) (h2 : OnlyCalls b c) :
    OnlyCalls a c := by
  obtain ⟨x, rfl⟩ := h1
  obtain ⟨y, rfl⟩ := h2
  exact ⟨x ++ y, by simp⟩

theorem call_log (api : DllApi) (s : Pco) (call : ApiCall) :
    (s.call api call).state.log = s.log ++ [Effect.api call] := by
  rw [call_state]

theorem call_onlyCalls (api : DllApi) (s : Pco) (call : ApiCall) :
    OnlyCalls s.log (s.call api call).state.log :=
  ⟨[call], by rw [call_log]; rfl⟩

theorem bind_onlyCalls {l : List Effect} (r : Throwing Pco) (f : Pco → Throwing Pco)
    (h1 : OnlyCalls l r.state.log) (h2 : ∀ u, OnlyCalls u.log (f u).state.log) :
    OnlyCalls l (Throwing.state (r.bind f)).log := by
  cases r with
  | error e => exact h1
  | ok u => exact onlyCalls_trans h1 (h2 u)

theorem freeBufferLoop_onlyCalls (api : DllApi) (n : Nat) (i : Int) (s : Pco) :
    OnlyCalls s.log (Pco.freeBufferLoop api n i s).state.log := by
  induction n generalizing i s with
  | zero => exact onlyCalls_refl _
  | succ n ih =>
    rw [Pco.freeBufferLoop]
    rcases call_cases api s (ApiCall.freeBuffer i) with h | h
    · rw [h]
      exact onlyCalls_trans ⟨[ApiCall.freeBuffer i], rfl⟩ (ih _ _)
    · rw [h]
      exact ⟨[ApiCall.freeBuffer i], rfl⟩

theorem freeImageBuffers_onlyCalls (env : Env) (s : Pco) :
    OnlyCalls s.log (s.freeImageBuffers env).log := by
  unfold Pco.freeImageBuffers
  rcases call_cases env.api s ApiCall.cancelImages with h | h
  · rw [h]
    exact onlyCalls_trans ⟨[ApiCall.cancelImages], rfl⟩ (freeBufferLoop_onlyCalls _ _ _ _)
  · rw [h]
    exact ⟨[ApiCall.cancelImages], rfl⟩

theorem cfgBinningAndRoi_onlyCalls (env : Env) (s : Pco) :
    OnlyCalls
      (s.log ++ [Effect.api (ApiCall.setBinning s.chooseBinning.arm.hwBinX
        s.chooseBinning.arm.hwBinY)])
      (s.cfgBinningAndRoi env).state.log := by
  unfold Pco.cfgBinningAndRoi
  refine bind_onlyCalls _ _ ?_ fun s2 => ?_
  · rw [call_log]
    exact onlyCalls_refl _
  · refine bind_onlyCalls _ _ (call_onlyCalls _ _ _) fun s4 => ?_
    exact onlyCalls_refl _

theorem cfgTriggerMode_onlyCalls (env : Env) (s : Pco) :
    OnlyCalls s.log (s.cfgTriggerMode env).state.log := by
  unfold Pco.cfgTriggerMode
  split
  · refine bind_onlyCalls _ _ (call_onlyCalls _ _ _) fun s1 => ?_
    refine bind_onlyCalls _ _ (call_onlyCalls _ _ _) fun s2 => ?_
    simp only []
    split <;> exact onlyCalls_refl _
  · refine bind_onlyCalls _ _ (call_onlyCalls _ _ _) fun s1 => ?_
    refine bind_onlyCalls _ _ (call_onlyCalls _ _ _) fun s2 => ?_
    exact onlyCalls_refl _

theorem writeTimestampMode_onlyCalls (env : Env) (s : Pco) :
    OnlyCalls s.log (s.writeTimestampMode env).state.log := by
  unfold Pco.writeTimestampMode
  refine bind_onlyCalls _ _ (call_onlyCalls _ _ _) fun s1 => ?_
  refine bind_onlyCalls _ _ (call_onlyCalls _ _ _) fun s2 => ?_
  exact onlyCalls_refl _

theorem cfgTimestampMode_onlyCalls (env : Env) (s : Pco) :
    OnlyCalls s.log (s.cfgTimestampMode env).state.log := by
  unfold Pco.cfgTimestampMode
  split
  · exact onlyCalls_refl _
  · split
    · exact writeTimestampMode_onlyCalls env s
    · simp only []
      split
      · exact writeTimestampMode_onlyCalls env _
      · exact writeTimestampMode_onlyCalls env s

theorem cfgAcquireMode_onlyCalls (env : Env) (s : Pco) :
    OnlyCalls s.log (s.cfgAcquireMode env).state.log := by
  unfold Pco.cfgAcquireMode
  refine bind_onlyCalls _ _ (call_onlyCalls _ _ _) fun s1 => ?_
  refine bind_onlyCalls _ _ (call_onlyCalls _ _ _) fun s2 => ?_
  exact onlyCalls_refl _

theorem cfgAdcMode_onlyCalls (env : Env) (s : Pco) :
    OnlyCalls s.log (s.cfgAdcMode env).state.log := by
  unfold Pco.cfgAdcMode
  split
  · refine bind_onlyCalls _ _ (call_onlyCalls _ _ _) fun s1 => ?_
    refine bind_onlyCalls _ _ (call_onlyCalls _ _ _) fun s2 => ?_
    exact onlyCalls_refl _
  · exact onlyCalls_refl _

theorem cfgBitAlignmentMode_onlyCalls (env : Env) (s : Pco) :
    OnlyCalls s.log (s.cfgBitAlignmentMode env).state.log := by
  unfold Pco.cfgBitAlignmentMode
  refine bind_onlyCalls _ _ (call_onlyCalls _ _ _) fun s1 => ?_
  refine bind_onlyCalls _ _ (call_onlyCalls _ _ _) fun s2 => ?_
  exact onlyCalls_refl _

theorem cfgPixelRate_onlyCalls (env : Env) (s : Pco) :
    OnlyCalls s.log (s.cfgPixelRate env).state.log := by
  unfold Pco.cfgPixelRate
  refine bind_onlyCalls _ _ (call_onlyCalls _ _ _) fun s1 => ?_
  refine bind_onlyCalls _ _ (call_onlyCalls _ _ _) fun s2 => ?_
  exact onlyCalls_refl _

theorem cfgAcquisitionTimes_onlyCalls (env : Env) (s : Pco) :
    OnlyCalls s.log (s.cfgAcquisitionTimes env).state.log := by
  unfold Pco.cfgAcquisitionTimes
  refine bind_onlyCalls _ _ (call_onlyCalls _ _ _) fun s1 => ?_
  exact call_onlyCalls _ _ _

theorem allocateLoop_onlyCalls (env : Env) (bufferSize : Int) (n i : Nat) (s : Pco) :
    OnlyCalls s.log (Pco.allocateLoop env bufferSize n i s).state.log := by
  induction n generalizing i s with
  | zero => exact onlyCalls_refl _
  | succ n ih =>
    rw [Pco.allocateLoop]
    split
    · exact onlyCalls_refl _
    · simp only []
      split
      · next e he =>
        have h := call_log env.api
          { s with arm := { s.arm with
              bufferNumber := Function.update s.arm.bufferNumber i env.c.bufferUnallocated } }
          (ApiCall.allocateBuffer (bufferSize * 2))
        rw [he] at h
        exact ⟨[ApiCall.allocateBuffer (bufferSize * 2)], h⟩
      · next s2 he =>
        have h := call_log env.api
          { s with arm := { s.arm with
              bufferNumber := Function.update s.arm.bufferNumber i env.c.bufferUnallocated } }
          (ApiCall.allocateBuffer (bufferSize * 2))
        rw [he] at h
        exact onlyCalls_trans ⟨[ApiCall.allocateBuffer (bufferSize * 2)], h⟩ (ih _ _)

theorem allocateImageBuffers_onlyCalls (env : Env) (s : Pco) :
    OnlyCalls s.log (s.allocateImageBuffers env).state.log := by
  have h := allocateLoop_onlyCalls env (s.arm.xResActual * s.arm.yResActual)
    env.c.numApiBuffers 0 s
  unfold Pco.allocateImageBuffers
  split
  · next s1 he => rw [he] at h; exact h
  · next e he =>
    rw [he] at h
    exact onlyCalls_trans h (freeImageBuffers_onlyCalls env e.2)

theorem adjustTransferParamsAndLut_onlyCalls (env : Env) (s : Pco) :
    OnlyCalls s.log (s.adjustTransferParamsAndLut env).state.log := by
  unfold Pco.adjustTransferParamsAndLut
  split
  · simp only []
    refine bind_onlyCalls _ _ (call_onlyCalls _ _ _) fun s2 => ?_
    refine bind_onlyCalls _ _ (call_onlyCalls _ _ _) fun s3 => ?_
    exact call_onlyCalls _ _ _
  · exact onlyCalls_refl _

theorem addAvailableBuffer_onlyCalls (env : Env) (s : Pco) (index : Nat) :
    OnlyCalls s.log (s.addAvailableBuffer env index).state.log := by
  unfold Pco.addAvailableBuffer
  split
  · refine bind_onlyCalls _ _ (call_onlyCalls _ _ _) fun s1 => ?_
    exact onlyCalls_refl _
  · exact onlyCalls_refl _

theorem addAvailableLoop_onlyCalls (env : Env) (n i : Nat) (s : Pco) :
    OnlyCalls s.log (Pco.addAvailableLoop env n i s).state.log := by
  induction n generalizing i s with
  | zero => exact onlyCalls_refl _
  | succ n ih =>
    have h := addAvailableBuffer_onlyCalls env s i
    rw [Pco.addAvailableLoop]
    split
    · next e he => rw [he] at h; exact h
    · next s1 he => rw [he] at h; exact onlyCalls_trans h (ih _ _)

theorem configure_onlyCalls (env : Env) (s : Pco) :
    OnlyCalls
      (s.log ++ [Effect.api (ApiCall.setBinning s.chooseBinning.arm.hwBinX
        s.chooseBinning.arm.hwBinY)])
      (s.configure env).state.log := by
  unfold Pco.configure
  refine bind_onlyCalls _ _ (cfgBinningAndRoi_onlyCalls env s) fun s1 => ?_
  refine bind_onlyCalls _ _ (cfgTriggerMode_onlyCalls env s1) fun s2 => ?_
  refine bind_onlyCalls _ _ (cfgTimestampMode_onlyCalls env s2) fun s3 => ?_
  refine bind_onlyCalls _ _ (cfgAcquireMode_onlyCalls env s3) fun s4 => ?_
  refine bind_onlyCalls _ _ (cfgAdcMode_onlyCalls env s4) fun s5 => ?_
  refine bind_onlyCalls _ _ (cfgBitAlignmentMode_onlyCalls env s5) fun s6 => ?_
  refine bind_onlyCalls _ _ (cfgPixelRate_onlyCalls env s6) fun s7 => ?_
  refine bind_onlyCalls _ _ (cfgAcquisitionTimes_onlyCalls env s7) fun s8 => ?_
  refine bind_onlyCalls _ _ (allocateImageBuffers_onlyCalls env s8) fun s9 => ?_
  exact adjustTransferParamsAndLut_onlyCalls env s9

theorem armLocked_onlyCalls (env : Env) (s : Pco) :
    OnlyCalls
      (s.log ++ [Effect.api (ApiCall.setBinning (s.readSettings env.c).chooseBinning.arm.hwBinX
        (s.readSettings env.c).chooseBinning.arm.hwBinY)])
      (s.armLocked env).state.log := by
  unfold Pco.armLocked
  refine bind_onlyCalls _ _ (configure_onlyCalls env (s.readSettings env.c)) fun s1 => ?_
  simp only []
  refine bind_onlyCalls _ _ (call_onlyCalls _ _ _) fun s3 => ?_
  refine bind_onlyCalls _ _ (call_onlyCalls _ _ _) fun s4 => ?_
  refine bind_onlyCalls _ _ (addAvailableLoop_onlyCalls env _ _ s4) fun s5 => ?_
  refine bind_onlyCalls _ _ (call_onlyCalls _ _ _) fun s7 => ?_
  exact call_onlyCalls _ _ _

/-! ## C19: the driver mutex and the SDK calls -/

theorem heldCalls_calls (d : Nat) (calls : List ApiCall) (rest : List Effect) :
    heldCalls (d + 1) (calls.map Effect.api ++ rest) = calls ++ heldCalls (d + 1) rest := by
  induction calls with
  | nil => rfl
  | cons c cs ih => simp [heldCalls, ih]

theorem sdkCalls_calls (calls : List ApiCall) (rest : List Effect) :
    sdkCalls (calls.map Effect.api ++ rest) = calls ++ sdkCalls rest := by
  induction calls with
  | nil => rfl
  | cons c cs ih => simp [sdkCalls, ih]

theorem added_eq (s t : Pco) (x : List Effect) (h : t.log = s.log ++ x) : added s t = x := by
  unfold added
  rw [h]
  exact List.drop_left _ _

/-- A stretch of the log that takes the mutex, makes SDK calls and ends
with entries that make none: every SDK call of it is made with the mutex
held. -/
theorem held_of_shape (calls : List ApiCall) (tail : List Effect)
    (h1 : heldCalls 1 tail = []) (h2 : sdkCalls tail = []) :
    heldCalls 0 (Effect.lock :: (calls.map Effect.api ++ tail)) = calls ∧
    sdkCalls (Effect.lock :: (calls.map Effect.api ++ tail)) = calls := by
  constructor
  · rw [heldCalls, heldCalls_calls, h1, List.append_nil]
  · show sdkCalls (calls.map Effect.api ++ tail) = calls
    rw [sdkCalls_calls, h2, List.append_nil]

theorem doArm_added (env : Env) (s : Pco) :
    ∃ (calls : List ApiCall) (tail : List Effect),
      added s (s.doArm env).state
        = Effect.lock ::
            ((ApiCall.setBinning (s.readSettings env.c).chooseBinning.arm.hwBinX
                (s.readSettings env.c).chooseBinning.arm.hwBinY :: calls).map Effect.api
              ++ tail) ∧
      heldCalls 1 tail = [] ∧ sdkCalls tail = [] := by
  obtain ⟨calls, hc⟩ := armLocked_onlyCalls env s.lock
  have hb : (s.lock.readSettings env.c).chooseBinning.arm
      = (s.readSettings env.c).chooseBinning.arm := rfl
  rw [hb] at hc
  have hl : s.lock.log = s.log ++ [Effect.lock] := rfl
  rw [hl] at hc
  unfold Pco.doArm
  cases h : s.lock.armLocked env with
  | error e =>
    rw [h] at hc
    refine ⟨calls, [Effect.unlock], added_eq _ _ _ ?_, rfl, rfl⟩
    show e.2.log ++ [Effect.unlock] = _
    have hc2 : e.2.log = _ := hc
    rw [hc2]
    simp
  | ok s1 =>
    rw [h] at hc
    have hc2 : s1.log = _ := hc
    by_cases h4 : s1.camType = env.c.cameraType4000
    · refine ⟨calls, [Effect.unlock, Effect.lock, Effect.unlock], added_eq _ _ _ ?_, rfl, rfl⟩
      show (s1.dropFirstFrames env.c).log ++ [Effect.unlock] = _
      unfold Pco.dropFirstFrames
      rw [if_pos h4]
      show (s1.log ++ [Effect.unlock] ++ [Effect.lock]) ++ [Effect.unlock] = _
      rw [hc2]
      simp
    · refine ⟨calls, [Effect.unlock], added_eq _ _ _ ?_, rfl, rfl⟩
      show (s1.dropFirstFrames env.c).log ++ [Effect.unlock] = _
      unfold Pco.dropFirstFrames
      rw [if_neg h4, hc2]
      simp

theorem opened_log (env : Env) (s : Pco) :
    (s.opened env).log
      = s.log ++ Effect.lock ::
          (((if s.cameraOpen = true then [ApiCall.closeCamera] else [])
              ++ [ApiCall.openCamera 0]).map Effect.api ++ []) := by
  have h1 : (s.opened env).log
      = (s.lock.closeStale env).log ++ [Effect.api (ApiCall.openCamera 0)] := rfl
  have h2 : (s.lock.closeStale env).log
      = s.log ++ Effect.lock ::
          (if s.cameraOpen = true then [Effect.api ApiCall.closeCamera] else []) := by
    unfold Pco.closeStale
    have h3 : s.lock.cameraOpen = s.cameraOpen := rfl
    rw [h3]
    cases s.cameraOpen
    · simp only [Bool.false_eq_true, if_false]
      rfl
    · simp only [if_true]
      rw [call_log]
      show (s.log ++ [Effect.lock]) ++ _ = _
      simp
  rw [h1, h2]
  cases s.cameraOpen <;> simp

theorem opened_added (env : Env) (s : Pco) :
    added s (s.opened env)
      = Effect.lock ::
          (((if s.cameraOpen = true then [ApiCall.closeCamera] else [])
              ++ [ApiCall.openCamera 0]).map Effect.api ++ []) :=
  added_eq _ _ _ (opened_log env s)

theorem openAndInitialise_log (env : Env) (s : Pco)
    (hinit : ∀ u, OnlyCalls u.log (env.initialiseCamera u).state.log) :
    (∃ calls : List ApiCall, ∃ t, (s.lock.closeStale env).openAndInitialise env = Except.error t ∧
        t.2.log = (s.opened env).log ++ calls.map Effect.api) ∨
    (∃ calls : List ApiCall, ∃ t, (s.lock.closeStale env).openAndInitialise env = Except.ok t ∧
        t.log = (s.opened env).log ++ calls.map Effect.api
          ++ [Effect.startTimer TimerPeriod.statusPollPeriod Event.TimerExpiry]) := by
  by_cases hr : env.api.raises (s.lock.closeStale env).log (ApiCall.openCamera 0) = true
  · left
    refine ⟨[], ?_⟩
    unfold Pco.openAndInitialise Pco.call
    simp only []
    rw [if_pos hr]
    exact ⟨_, rfl, by simp [Pco.opened]⟩
  · rw [openAndInitialise_opened env s (by simpa using hr)]
    obtain ⟨calls, hc⟩ := hinit (s.opened env)
    cases h : env.initialiseCamera (s.opened env) with
    | error e =>
      left
      rw [h] at hc
      exact ⟨calls, e, rfl, hc⟩
    | ok t =>
      right
      rw [h] at hc
      have hc2 : t.log = _ := hc
      refine ⟨calls, _, rfl, ?_⟩
      show t.log ++ [Effect.startTimer TimerPeriod.statusPollPeriod Event.TimerExpiry] = _
      rw [hc2]

theorem smConnectToCamera_added (env : Env) (s : Pco)
    (hinit : ∀ u, OnlyCalls u.log (env.initialiseCamera u).state.log) :
    ∃ (calls : List ApiCall) (tail : List Effect),
      added s (s.smConnectToCamera env).final
        = Effect.lock ::
            ((((if s.cameraOpen = true then [ApiCall.closeCamera] else [])
                ++ [ApiCall.openCamera 0]) ++ calls).map Effect.api ++ tail) ∧
      heldCalls 1 tail = [] ∧ sdkCalls tail = [] := by
  have ho := opened_log env s
  unfold Pco.smConnectToCamera
  rcases openAndInitialise_log env s hinit with ⟨calls, t, h, hl⟩ | ⟨calls, t, h, hl⟩
  · rw [h]
    obtain ⟨e, t2⟩ := t
    have hl2 : t2.log = _ := hl
    cases e with
    | badAlloc w =>
      refine ⟨calls, [Effect.unlock], added_eq _ _ _ ?_, rfl, rfl⟩
      show t2.log ++ [Effect.unlock] = _
      rw [hl2, ho]
      simp
    | pcoException w =>
      refine ⟨calls, [Effect.startTimer TimerPeriod.reconnectPeriod Event.TimerExpiry,
        Effect.unlock], added_eq _ _ _ ?_, rfl, rfl⟩
      show (t2.log ++ [Effect.startTimer TimerPeriod.reconnectPeriod Event.TimerExpiry])
        ++ [Effect.unlock] = _
      rw [hl2, ho]
      simp
  · rw [h]
    refine ⟨calls, [Effect.startTimer TimerPeriod.statusPollPeriod Event.TimerExpiry,
      Effect.unlock], added_eq _ _ _ ?_, rfl, rfl⟩
    show t.log ++ [Effect.unlock] = _
    rw [hl, ho]
    simp

/-- C19, as the code has it: the driver mutex is held across the SDK
calls.  `doArm` takes it on entry and every SDK call it makes, the first
of which is `setBinning`, is made with it held; `smConnectToCamera`
takes it on entry and calls `closeCamera` and `openCamera` with it held,
and, when `initialiseCamera` adds nothing but SDK calls to the log,
every SDK call made up to the return is made with it held. -/
theorem sdk_calls_made_under_lock (env : Env) (s : Pco) :
    heldCalls 0 (added s (s.doArm env).state) = sdkCalls (added s (s.doArm env).state) ∧
    ApiCall.setBinning (s.readSettings env.c).chooseBinning.arm.hwBinX
        (s.readSettings env.c).chooseBinning.arm.hwBinY
      ∈ heldCalls 0 (added s (s.doArm env).state) ∧
    heldCalls 0 (added s (s.opened env)) = sdkCalls (added s (s.opened env)) ∧
    ApiCall.openCamera 0 ∈ heldCalls 0 (added s (s.opened env)) ∧
    ((∀ u, OnlyCalls u.log (env.initialiseCamera u).state.log) →
      heldCalls 0 (added s (s.smConnectToCamera env).final)
        = sdkCalls (added s (s.smConnectToCamera env).final) ∧
      ApiCall.openCamera 0 ∈ heldCalls 0 (added s (s.smConnectToCamera env).final)) := by
  refine ⟨?_, ?_, ?_, ?_, ?_⟩
  · obtain ⟨calls, tail, h, h1, h2⟩ := doArm_added env s
    rw [h, (held_of_shape _ tail h1 h2).1, (held_of_shape _ tail h1 h2).2]
  · obtain ⟨calls, tail, h, h1, h2⟩ := doArm_added env s
    rw [h, (held_of_shape _ tail h1 h2).1]
    exact List.mem_cons_self _ _
  · rw [opened_added, (held_of_shape _ [] rfl rfl).1, (held_of_shape _ [] rfl rfl).2]
  · rw [opened_added, (held_of_shape _ [] rfl rfl).1]
    simp
  · intro hinit
    obtain ⟨calls, tail, h, h1, h2⟩ := smConnectToCamera_added env s hinit
    rw [h, (held_of_shape _ tail h1 h2).1, (held_of_shape _ tail h1 h2).2]
    exact ⟨rfl, by simp⟩

/-- Connecting a freshly constructed driver with an SDK that never
raises: `openCamera` is called with the mutex held. -/
theorem sdk_calls_made_under_lock_witness :
    ApiCall.openCamera 0
      ∈ heldCalls 0 (added {} (({} : Pco).smConnectToCamera quietEnv).final) :=
  ((sdk_calls_made_under_lock quietEnv {}).2.2.2.2 (fun u => onlyCalls_refl u.log)).2

/-- C19 as stated fails: arming an 8 by 4 pixel pco.edge with an SDK that
never raises makes 37 SDK calls with the mutex held, `setBinning`,
`setRoi`, `allocateBuffer`, `addBufferEx`, `arm` and `setRecordingState`
among them, and connecting makes `closeCamera` and `openCamera` with it
held. -/
theorem sdk_calls_with_lock_held :
    (heldCalls 0 (added (smallCamera 0x1300) ((smallCamera 0x1300).doArm quietEnv).state)).length
      = 37 ∧
    ApiCall.setBinning 1 1
      ∈ heldCalls 0 (added (smallCamera 0x1300) ((smallCamera 0x1300).doArm quietEnv).state) ∧
    ApiCall.setRoi 1 1 8 4
      ∈ heldCalls 0 (added (smallCamera 0x1300) ((smallCamera 0x1300).doArm quietEnv).state) ∧
    ApiCall.allocateBuffer 64
      ∈ heldCalls 0 (added (smallCamera 0x1300) ((smallCamera 0x1300).doArm quietEnv).state) ∧
    ApiCall.addBufferEx 0 0 0 8 4 16
      ∈ heldCalls 0 (added (smallCamera 0x1300) ((smallCamera 0x1300).doArm quietEnv).state) ∧
    ApiCall.arm
      ∈ heldCalls 0 (added (smallCamera 0x1300) ((smallCamera 0x1300).doArm quietEnv).state) ∧
    ApiCall.setRecordingState 1
      ∈ heldCalls 0 (added (smallCamera 0x1300) ((smallCamera 0x1300).doArm quietEnv).state) ∧
    heldCalls 0 (added {} (({} : Pco).smConnectToCamera quietEnv).final)
      = [ApiCall.closeCamera, ApiCall.openCamera 0] := by
  refine ⟨by decide, by decide, by decide, by decide, by decide, by decide, by decide, by decide⟩

/-! ## C20: when the software ROI is required -/

theorem toSizeT_cast (c : Constants) (hw : 32 ≤ c.sizeBits) (v : Int) (hv : IsInt v) :
    ((toSizeT c v : Nat) : Int) = if 0 ≤ v then v else v + 2 ^ c.sizeBits := by
  have hP : (2 : Int) ^ 32 ≤ 2 ^ c.sizeBits := pow_le_pow_right₀ (by norm_num) hw
  have hpos : (0 : Int) < 2 ^ c.sizeBits := by positivity
  unfold IsInt at hv
  unfold toSizeT
  rw [Int.toNat_of_nonneg (Int.emod_nonneg _ (ne_of_gt hpos))]
  norm_num at hv hP
  generalize (2 : Int) ^ c.sizeBits = P at *
  split
  · exact Int.emod_eq_of_lt (by omega) (by omega)
  · rw [← Int.add_emod_self, Int.emod_eq_of_lt (by omega) (by omega)]

theorem toSizeT_ne_zero (c : Constants) (hw : 32 ≤ c.sizeBits) (v : Int) (hv : IsInt v) :
    toSizeT c v ≠ 0 ↔ v ≠ 0 := by
  have hP : (2 : Int) ^ 32 ≤ 2 ^ c.sizeBits := pow_le_pow_right₀ (by norm_num) hw
  have h := toSizeT_cast c hw v hv
  unfold IsInt at hv
  norm_num at hv hP
  generalize (2 : Int) ^ c.sizeBits = P at *
  split at h <;> omega

theorem toInt_toSizeT (c : Constants) (hw : 32 ≤ c.sizeBits) (v : Int) (hv : IsInt v) :
    toInt (toSizeT c v) = v := by
  have h := toSizeT_cast c hw v hv
  have hdvd : ∃ k : Int, (2 : Int) ^ c.sizeBits = 2 ^ 32 * k :=
    ⟨2 ^ (c.sizeBits - 32), by rw [← pow_add]; congr 1; omega⟩
  obtain ⟨k, hk⟩ := hdvd
  unfold IsInt at hv
  unfold toInt
  rw [h, hk]
  norm_num at hv ⊢
  split <;> omega

theorem setUpSoftwareRoi_roiRequired (c : Constants) (hw : 32 ≤ c.sizeBits) (s : Pco)
    (hx : IsInt s.arm.swRoiStartX) (hy : IsInt s.arm.swRoiStartY)
    (hsx : IsInt s.arm.swRoiSizeX) (hsy : IsInt s.arm.swRoiSizeY) :
    (s.setUpSoftwareRoi c).roiRequired = true ↔
      s.arm.swRoiStartX ≠ 0 ∨ s.arm.swRoiStartY ≠ 0 ∨ s.arm.swRoiSizeX ≠ s.xCamSize ∨
      s.arm.swRoiSizeY ≠ s.yCamSize ∨ s.arm.swBinX ≠ 1 ∨ s.arm.swBinY ≠ 1 ∨
      s.arm.reverseX ≠ 0 ∨ s.arm.reverseY ≠ 0 ∨ s.dataType ≠ NDDataType_t.NDUInt16 := by
  unfold Pco.setUpSoftwareRoi
  simp only [decide_eq_true_eq]
  rw [toSizeT_ne_zero c hw _ hx, toSizeT_ne_zero c hw _ hy, toInt_toSizeT c hw _ hsx,
    toInt_toSizeT c hw _ hsy]

theorem cfgBinningAndRoi_ok (env : Env) (s t : Pco) (h : s.cfgBinningAndRoi env = Except.ok t) :
    ∃ u : Pco, t = u.setUpSoftwareRoi env.c := by
  unfold Pco.cfgBinningAndRoi at h
  simp only [] at h
  rcases call_cases env.api s.chooseBinning
    (ApiCall.setBinning s.chooseBinning.arm.hwBinX s.chooseBinning.arm.hwBinY) with h1 | h1
  · rw [h1] at h
    simp only [Except.bind] at h
    generalize hs3 : Pco.fitRoi env.c _ = s3 at h
    rcases call_cases env.api s3
      (ApiCall.setRoi (toUShort s3.arm.hwRoiX1) (toUShort s3.arm.hwRoiY1)
        (toUShort s3.arm.hwRoiX2) (toUShort s3.arm.hwRoiY2)) with h2 | h2
    · rw [h2] at h
      simp only [Except.ok.injEq] at h
      exact ⟨_, h.symm⟩
    · rw [h2] at h
      simp at h
  · rw [h1] at h
    simp [Except.bind] at h

/-- C20: after `cfgBinningAndRoi` has returned, `roiRequired` is true
exactly when the software ROI offset is not zero in X or Y, or the
software ROI size differs from the size of the frame the camera delivers
in X or Y, or the software binning is not 1 in X or Y, or reversal is
requested in X or Y, or the data type is not unsigned 16-bit (the ROI
members being `int` values); and with `roiRequired` true the loop body
of `receiveImages` releases the raw image right after its conversion and
goes on with the converted image. -/
theorem cfgBinningAndRoi_roiRequired (env : Env) (s t : Pco) (hw : 32 ≤ env.c.sizeBits)
    (h : s.cfgBinningAndRoi env = Except.ok t)
    (hx : IsInt t.arm.swRoiStartX) (hy : IsInt t.arm.swRoiStartY)
    (hsx : IsInt t.arm.swRoiSizeX) (hsy : IsInt t.arm.swRoiSizeY) :
    (t.roiRequired = true ↔
      t.arm.swRoiStartX ≠ 0 ∨ t.arm.swRoiStartY ≠ 0 ∨ t.arm.swRoiSizeX ≠ t.xCamSize ∨
      t.arm.swRoiSizeY ≠ t.yCamSize ∨ t.arm.swBinX ≠ 1 ∨ t.arm.swBinY ≠ 1 ∨
      t.arm.reverseX ≠ 0 ∨ t.arm.reverseY ≠ 0 ∨ t.dataType ≠ NDDataType_t.NDUInt16) ∧
    (∀ (u : Pco) (image : NDArray), u.roiRequired = true →
      u.softwareRoi env image = (env.convert image u.dataType, u.release image) ∧
      u.processImage env image
        = (let u1 := (u.checkImageNumber env.c image).release image
           let e := u1.sumExposures (env.convert image u.dataType)
           if e.2.1 then e.2.2.finishImage env.c e.1 else e.2.2)) := by
  constructor
  · obtain ⟨u, rfl⟩ := cfgBinningAndRoi_ok env s t h
    exact setUpSoftwareRoi_roiRequired env.c hw u hx hy hsx hsy
  · intro u image hu
    have hcfg := checkImageNumber_sameConfig env.c u image
    have h1 : u.softwareRoi env image = (env.convert image u.dataType, u.release image) := by
      unfold Pco.softwareRoi
      rw [hu]
      rfl
    have h2 : (u.checkImageNumber env.c image).softwareRoi env image
        = (env.convert image u.dataType, (u.checkImageNumber env.c image).release image) := by
      unfold Pco.softwareRoi
      rw [hcfg.roiRequired, hu, hcfg.dataType]
      rfl
    refine ⟨h1, ?_⟩
    unfold Pco.processImage
    simp only [h2]

/-- A full frame with reversal in X requested: `cfgBinningAndRoi` makes
`roiRequired` true. -/
theorem cfgBinningAndRoi_roiRequired_witness :
    (reversedCamera.cfgBinningAndRoi quietEnv).state.roiRequired = true :=
  (cfgBinningAndRoi_roiRequired quietEnv reversedCamera
    (reversedCamera.cfgBinningAndRoi quietEnv).state (by decide) rfl
    (by unfold IsInt; decide) (by unfold IsInt; decide) (by unfold IsInt; decide)
    (by unfold IsInt; decide)).1.mpr
    (Or.inr (Or.inr (Or.inr (Or.inr (Or.inr (Or.inr (Or.inl (by decide))))))))

/-! ## C21: the memory use reported by `checkMemoryBuffer` -/

theorem toInt_small (n : Nat) (h : n < 2 ^ 31) : toInt n = n := by
  unfold toInt
  have h1 : (n : Int) < 2 ^ 31 := by exact_mod_cast h
  norm_num at h1 ⊢
  omega

/-- The percentage `checkMemoryBuffer` returns, in one expression. -/
theorem checkMemoryBuffer_value (env : Env) (s : Pco) :
    (s.checkMemoryBuffer env).1 =
      if s.camRamSize > 0 then
        if env.api.raises s.log ApiCall.getActiveRamSegment = true then 0
        else if env.api.raises (s.log ++ [Effect.api ApiCall.getActiveRamSegment])
            (ApiCall.getNumberOfImagesInSegment
              (env.api.ushort s.log ApiCall.getActiveRamSegment)) = true then 0
        else if (env.api.readback (s.log ++ [Effect.api ApiCall.getActiveRamSegment])
            (ApiCall.getNumberOfImagesInSegment
              (env.api.ushort s.log ApiCall.getActiveRamSegment))).getD 1 0
              % 2 ^ env.c.ulongBits > 0 then
          if (env.api.readback (s.log ++ [Effect.api ApiCall.getActiveRamSegment])
              (ApiCall.getNumberOfImagesInSegment
                (env.api.ushort s.log ApiCall.getActiveRamSegment))).getD 0 0
                % 2 ^ env.c.ulongBits > 0 ∧
            toInt ((env.api.readback (s.log ++ [Effect.api ApiCall.getActiveRamSegment])
              (ApiCall.getNumberOfImagesInSegment
                (env.api.ushort s.log ApiCall.getActiveRamSegment))).getD 0 0
                % 2 ^ env.c.ulongBits * 100 % 2 ^ env.c.ulongBits /
              ((env.api.readback (s.log ++ [Effect.api ApiCall.getActiveRamSegment])
              (ApiCall.getNumberOfImagesInSegment
                (env.api.ushort s.log ApiCall.getActiveRamSegment))).getD 1 0
                % 2 ^ env.c.ulongBits)) = 0 then 1
          else
            toInt ((env.api.readback (s.log ++ [Effect.api ApiCall.getActiveRamSegment])
              (ApiCall.getNumberOfImagesInSegment
                (env.api.ushort s.log ApiCall.getActiveRamSegment))).getD 0 0
                % 2 ^ env.c.ulongBits * 100 % 2 ^ env.c.ulongBits /
              ((env.api.readback (s.log ++ [Effect.api ApiCall.getActiveRamSegment])
              (ApiCall.getNumberOfImagesInSegment
                (env.api.ushort s.log ApiCall.getActiveRamSegment))).getD 1 0
                % 2 ^ env.c.ulongBits))
        else 0
      else 0 := by
  unfold Pco.checkMemoryBuffer
  by_cases hram : s.camRamSize > 0
  · rw [if_pos hram, if_pos hram]
    cases h1 : env.api.raises s.log ApiCall.getActiveRamSegment
    · cases h2 : env.api.raises (s.log ++ [Effect.api ApiCall.getActiveRamSegment])
            (ApiCall.getNumberOfImagesInSegment
              (env.api.ushort s.log ApiCall.getActiveRamSegment))
      · simp only [Pco.call, h1, h2, Bool.false_eq_true, if_false]
        split <;> (try split) <;> rfl
      · simp only [Pco.call, h1, h2, Bool.false_eq_true, if_false, if_true]
    · simp only [Pco.call, h1, if_true]
  · rw [if_neg hram, if_neg hram]

/-- C21: `checkMemoryBuffer` returns 0 when `camRamSize` is not positive,
when `getActiveRamSegment` or `getNumberOfImagesInSegment` raises, and when
the SDK reports `maxImages = 0`.  Otherwise, with `v` valid images of at
most `m > 0` and `100 * v` within `unsigned long`: when the quotient
`100 * v / m` is within `int` the result is that quotient, except that it is
1 when `v > 0` and the quotient is 0, so that it is at least 1 when
`v > 0`; and it is at most 100 when `v <= m`. -/
theorem checkMemoryBuffer_percent (env : Env) (s : Pco) (v m : Nat)
    (hv : (env.api.readback (s.log ++ [Effect.api ApiCall.getActiveRamSegment])
        (ApiCall.getNumberOfImagesInSegment
          (env.api.ushort s.log ApiCall.getActiveRamSegment))).getD 0 0
            % 2 ^ env.c.ulongBits = v)
    (hm : (env.api.readback (s.log ++ [Effect.api ApiCall.getActiveRamSegment])
        (ApiCall.getNumberOfImagesInSegment
          (env.api.ushort s.log ApiCall.getActiveRamSegment))).getD 1 0
            % 2 ^ env.c.ulongBits = m) :
    (s.camRamSize ≤ 0 → (s.checkMemoryBuffer env).1 = 0) ∧
    (env.api.raises s.log ApiCall.getActiveRamSegment = true →
      (s.checkMemoryBuffer env).1 = 0) ∧
    (env.api.raises (s.log ++ [Effect.api ApiCall.getActiveRamSegment])
        (ApiCall.getNumberOfImagesInSegment
          (env.api.ushort s.log ApiCall.getActiveRamSegment)) = true →
      (s.checkMemoryBuffer env).1 = 0) ∧
    (m = 0 → (s.checkMemoryBuffer env).1 = 0) ∧
    (0 < s.camRamSize →
      env.api.raises s.log ApiCall.getActiveRamSegment = false →
      env.api.raises (s.log ++ [Effect.api ApiCall.getActiveRamSegment])
        (ApiCall.getNumberOfImagesInSegment
          (env.api.ushort s.log ApiCall.getActiveRamSegment)) = false →
      0 < m → 100 * v < 2 ^ env.c.ulongBits →
      (100 * v / m < 2 ^ 31 →
        (s.checkMemoryBuffer env).1
            = (if 0 < v ∧ 100 * v / m = 0 then 1 else ((100 * v / m : Nat) : Int)) ∧
        (0 < v → 1 ≤ (s.checkMemoryBuffer env).1)) ∧
      (v ≤ m → (s.checkMemoryBuffer env).1 ≤ 100)) := by
  rw [checkMemoryBuffer_value, hv, hm]
  refine ⟨?_, ?_, ?_, ?_, ?_⟩
  · intro h
    rw [if_neg (by omega)]
  · intro h
    rw [if_pos h]
    split <;> rfl
  · intro h
    rw [if_pos h]
    split <;> (try split) <;> rfl
  · intro h
    subst h
    simp
  · intro hram h1 h2 hpos hfit
    rw [if_pos hram, if_neg (by simp [h1]), if_neg (by simp [h2]), if_pos hpos,
      Nat.mul_comm v 100, Nat.mod_eq_of_lt hfit]
    have key : 100 * v / m < 2 ^ 31 →
        (if v > 0 ∧ toInt (100 * v / m) = 0 then (1 : Int) else toInt (100 * v / m))
          = (if 0 < v ∧ 100 * v / m = 0 then 1 else ((100 * v / m : Nat) : Int)) := by
      intro hq
      rw [toInt_small _ hq]
      by_cases hc : 0 < v ∧ 100 * v / m = 0
      · rw [if_pos hc, if_pos ⟨hc.1, by exact_mod_cast hc.2⟩]
      · rw [if_neg hc, if_neg (by intro h; exact hc ⟨h.1, by exact_mod_cast h.2⟩)]
    refine ⟨fun hq => ?_, fun hle => ?_⟩
    · rw [key hq]
      refine ⟨rfl, fun hv0 => ?_⟩
      by_cases hc : 0 < v ∧ 100 * v / m = 0
      · rw [if_pos hc]
      · rw [if_neg hc]
        have : 100 * v / m ≠ 0 := fun h => hc ⟨hv0, h⟩
        have : 1 ≤ 100 * v / m := Nat.one_le_iff_ne_zero.mpr this
        exact_mod_cast this
    · have hq : 100 * v / m ≤ 100 := by
        apply Nat.div_le_of_le_mul
        nlinarith
      rw [key (by omega)]
      split
      · norm_num
      · exact_mod_cast hq

theorem checkMemoryBuffer_percent_witness :
    ((withMemory.checkMemoryBuffer (memoryEnv 1 1000)).1
        = (if 0 < 1 ∧ 100 * 1 / 1000 = 0 then 1 else ((100 * 1 / 1000 : Nat) : Int)) ∧
      (0 < 1 → 1 ≤ (withMemory.checkMemoryBuffer (memoryEnv 1 1000)).1)) ∧
    (withMemory.checkMemoryBuffer (memoryEnv 1 1000)).1 = 1 ∧
    (withMemory.checkMemoryBuffer (memoryEnv 250 1000)).1 = 25 ∧
    (withMemory.checkMemoryBuffer (memoryEnv 250 0)).1 = 0 :=
  ⟨((checkMemoryBuffer_percent (memoryEnv 1 1000) withMemory 1 1000 (by decide)
      (by decide)).2.2.2.2 (by decide) rfl rfl (by decide) (by decide)).1 (by decide),
    by decide, by decide, by decide⟩

/-- With 30000000 valid images reported for a segment of at most one
image, `100 * v` is within `unsigned long` but the quotient 3000000000 is
not within `int`: `checkMemoryBuffer` returns -1294967296, which is neither
the quotient nor at least 1. -/
theorem checkMemoryBuffer_quotient_beyond_int :
    100 * 30000000 < 2 ^ sdkConstants.ulongBits ∧
    (withMemory.checkMemoryBuffer (memoryEnv 30000000 1)).1 = -1294967296 ∧
    (withMemory.checkMemoryBuffer (memoryEnv 30000000 1)).1 ≠ ((100 * 30000000 / 1 : Nat) : Int) ∧
    ¬ 1 ≤ (withMemory.checkMemoryBuffer (memoryEnv 30000000 1)).1 := by
  decide

/-! ## C22: the pixel rate information -/

/-- C22: for the camera `gappedRates`, whose description lists the pixel
rates 95333333 Hz and 286000000 Hz at the indices 0 and 2 and whose current
rate is 286000000 Hz, `initialisePixelRate` returns with
`pixRateNumEnums = 2`, `pixRateEnumValues = [0, 2, ..]`,
`pixRateMax = 286000000` and `pixRateMaxValue = 1`, as claimed, but with
`pixRateValue = 2`, the index of the rate in `camDescription.pixelRate`,
where its place among the enum entries is 1, the place `pixRateMaxValue`
records for the same rate: the lookup
`camDescription.pixelRate[pixRateEnumValues[pixRateValue]]` that `doArm`
makes gives 95333333, not the current rate. -/
theorem initialisePixelRate_stores_index :
    ∃ t : Pco,
      gappedRates.initialisePixelRate (pixelRateEnv 286000000) = Except.ok t ∧
      t.arm.pixRate = 286000000 ∧
      t.arm.pixRateNumEnums = 2 ∧
      t.arm.pixRateEnumValues = [0, 2, 0, 0] ∧
      t.arm.pixRateMax = 286000000 ∧
      t.arm.pixRateMaxValue = 1 ∧
      arrayAt t.arm.pixelRate (arrayAt t.arm.pixRateEnumValues 1) = t.arm.pixRate ∧
      t.arm.pixRateValue = 2 ∧
      t.arm.paramPixRate = 2 ∧
      arrayAt t.arm.pixelRate (arrayAt t.arm.pixRateEnumValues t.arm.pixRateValue) = 95333333 ∧
      (t.readSettings sdkConstants).arm.pixRate = 95333333 :=
  ⟨_, rfl, by decide, by decide, by decide, by decide, by decide, by decide, by decide,
    by decide, by decide, by decide⟩

/-! ## C23: the date decoded from a frame -/

/-- C23: for the frame `datedFrame`, stamped 2024-10-30 12:34:56 with valid
BCD digit pairs, `extractImageTimeStamp` gives the month, day, hour, minute
and second as `bcdToInt` of the pixels 6 to 10 (less one for the month),
but the year field is 2118 where
`bcdToInt(pixel4)*100 + bcdToInt(pixel5) - 1900` is 124: the code
subtracts 1900 from pixel 5 before decoding it, and gives
`bcdToInt(pixel4)*100 + bcdToInt(pixel5 - 1900)`. -/
theorem extractImageTimeStamp_year_differs :
    bcdToInt sdkConstants 1 14 (pixelAt datedFrame 4) * 100
        + bcdToInt sdkConstants 1 14 (pixelAt datedFrame 5) - 1900 = 124 ∧
    (extractImageTimeStamp sdkConstants 1 14 datedFrame).tm_year = 2118 ∧
    (extractImageTimeStamp sdkConstants 1 14 datedFrame).tm_year
      = bcdToInt sdkConstants 1 14 (pixelAt datedFrame 4) * 100
        + bcdToInt sdkConstants 1 14 (pixelAt datedFrame 5 - 1900) ∧
    (extractImageTimeStamp sdkConstants 1 14 datedFrame).tm_mon
      = bcdToInt sdkConstants 1 14 (pixelAt datedFrame 6) - 1 ∧
    (extractImageTimeStamp sdkConstants 1 14 datedFrame).tm_mon = 9 ∧
    (extractImageTimeStamp sdkConstants 1 14 datedFrame).tm_mday = 30 ∧
    (extractImageTimeStamp sdkConstants 1 14 datedFrame).tm_hour = 12 ∧
    (extractImageTimeStamp sdkConstants 1 14 datedFrame).tm_min = 34 ∧
    (extractImageTimeStamp sdkConstants 1 14 datedFrame).tm_sec = 56 := by
  decide

/-! ## The hardware region of interest: one axis -/

/-- Rounding a start down and an end up to the step, for values that are
not negative. -/
theorem stepped_bounds (x y k : Int) (hx : 0 ≤ x) (hy : 0 ≤ y) (hk : 1 ≤ k) :
    x.tdiv k * k ≤ x ∧ x - k < x.tdiv k * k ∧
    y ≤ (y + k - 1).tdiv k * k ∧ (y + k - 1).tdiv k * k < y + k := by
  have hk0 : (0 : Int) ≤ k := by omega
  rw [Int.tdiv_eq_ediv hx hk0, Int.tdiv_eq_ediv (by omega : 0 ≤ y + k - 1) hk0]
  have h1 := Int.ediv_mul_le x (by omega : k ≠ 0)
  have h2 := Int.lt_ediv_add_one_mul_self x (by omega : 0 < k)
  have h3 := Int.ediv_mul_le (y + k - 1) (by omega : k ≠ 0)
  have h4 := Int.lt_ediv_add_one_mul_self (y + k - 1) (by omega : 0 < k)
  rw [add_mul, one_mul] at h2 h4
  refine ⟨h1, by omega, by omega, by omega⟩

/-- A start and an end that add up to a multiple of the step still add up
to it after the rounding. -/
theorem stepped_symmetric (x y k w : Int) (hx : 0 ≤ x) (hy : 0 ≤ y) (hk : 1 ≤ k)
    (hsum : x + y = w) (hdvd : k ∣ w) :
    x.tdiv k * k + (y + k - 1).tdiv k * k = w := by
  obtain ⟨h1, h2, h3, h4⟩ := stepped_bounds x y k hx hy hk
  have hd : k ∣ x.tdiv k * k + (y + k - 1).tdiv k * k - w :=
    dvd_sub (dvd_add (dvd_mul_left k _) (dvd_mul_left k _)) hdvd
  obtain ⟨c, hc⟩ := hd
  have hlo : -k < k * c := by omega
  have hhi : k * c < k := by omega
  have hc0 : c = 0 := by
    have h5 : c < 1 := by
      by_contra hcon
      have : k * 1 ≤ k * c := mul_le_mul_of_nonneg_left (by omega) (by omega)
      omega
    have h6 : -1 < c := by
      by_contra hcon
      have : k * c ≤ k * (-1) := mul_le_mul_of_nonneg_left (by omega) (by omega)
      omega
    omega
  rw [hc0, mul_zero] at hc
  omega

/-- The two ends the symmetry rule gives add up to the size, and neither
is negative when the region lies within the size. -/
theorem symmetric_sum (w a e : Int) (h0 : 0 ≤ a) (h1 : a ≤ e) (h2 : e ≤ w) :
    (symmetric w (a, e)).1 + (symmetric w (a, e)).2 = w ∧
    0 ≤ (symmetric w (a, e)).1 ∧ 0 ≤ (symmetric w (a, e)).2 ∧
    (symmetric w (a, e)).1 ≤ a ∧ e ≤ (symmetric w (a, e)).2 := by
  unfold symmetric
  simp only []
  split
  · simp only []; omega
  · simp only []; omega

/-! ## The hardware region of interest: `fitRoi` -/

/-- The start of the hardware region less one and its end are multiples
of the step, in each axis. -/
theorem fitRoi_steps (c : Constants) (u : Pco) :
    u.arm.roiHorSteps ∣ (u.fitRoi c).arm.hwRoiX1 - 1 ∧
    u.arm.roiHorSteps ∣ (u.fitRoi c).arm.hwRoiX2 ∧
    u.arm.roiVertSteps ∣ (u.fitRoi c).arm.hwRoiY1 - 1 ∧
    u.arm.roiVertSteps ∣ (u.fitRoi c).arm.hwRoiY2 := by
  refine ⟨?_, ?_, ?_, ?_⟩
  · show u.arm.roiHorSteps ∣ _ * u.arm.roiHorSteps + 1 - 1
    rw [add_sub_cancel_right]; exact dvd_mul_left _ _
  · show u.arm.roiHorSteps ∣ _ * u.arm.roiHorSteps
    exact dvd_mul_left _ _
  · show u.arm.roiVertSteps ∣ _ * u.arm.roiVertSteps + 1 - 1
    rw [add_sub_cancel_right]; exact dvd_mul_left _ _
  · show u.arm.roiVertSteps ∣ _ * u.arm.roiVertSteps
    exact dvd_mul_left _ _

/-- The region one axis of `fitRoi` works out, from the size `w` of the
binned sensor, the requested start `r` and size `z`, the step `k` and
whether the axis has to be symmetric. -/
theorem axis_fit (w r z k : Int) (sym : Prop) [Decidable sym] (hk : 1 ≤ k) (hw : 1 ≤ w) :
    0 ≤ min (max r 0) (w - 1) ∧ min (max r 0) (w - 1) ≤ w - 1 ∧
    0 ≤ min (max z 0) (w - min (max r 0) (w - 1)) ∧
    min (max z 0) (w - min (max r 0) (w - 1)) ≤ w - min (max r 0) (w - 1) ∧
    0 ≤ min (max r 0) (w - 1)
        - (if sym then
            symmetric w (min (max r 0) (w - 1),
              min (max r 0) (w - 1) + min (max z 0) (w - min (max r 0) (w - 1)))
          else (min (max r 0) (w - 1),
              min (max r 0) (w - 1) + min (max z 0) (w - min (max r 0) (w - 1)))).1.tdiv k * k ∧
    min (max r 0) (w - 1)
        - (if sym then
            symmetric w (min (max r 0) (w - 1),
              min (max r 0) (w - 1) + min (max z 0) (w - min (max r 0) (w - 1)))
          else (min (max r 0) (w - 1),
              min (max r 0) (w - 1) + min (max z 0) (w - min (max r 0) (w - 1)))).1.tdiv k * k
        + min (max z 0) (w - min (max r 0) (w - 1))
      ≤ ((if sym then
            symmetric w (min (max r 0) (w - 1),
              min (max r 0) (w - 1) + min (max z 0) (w - min (max r 0) (w - 1)))
          else (min (max r 0) (w - 1),
              min (max r 0) (w - 1) + min (max z 0) (w - min (max r 0) (w - 1)))).2
            + k - 1).tdiv k * k
        - (if sym then
            symmetric w (min (max r 0) (w - 1),
              min (max r 0) (w - 1) + min (max z 0) (w - min (max r 0) (w - 1)))
          else (min (max r 0) (w - 1),
              min (max r 0) (w - 1) + min (max z 0) (w - min (max r 0) (w - 1)))).1.tdiv k * k ∧
    (sym → k ∣ w →
      (if sym then
            symmetric w (min (max r 0) (w - 1),
              min (max r 0) (w - 1) + min (max z 0) (w - min (max r 0) (w - 1)))
          else (min (max r 0) (w - 1),
              min (max r 0) (w - 1) + min (max z 0) (w - min (max r 0) (w - 1)))).1.tdiv k * k
        + 1 - 1
      + ((if sym then
            symmetric w (min (max r 0) (w - 1),
              min (max r 0) (w - 1) + min (max z 0) (w - min (max r 0) (w - 1)))
          else (min (max r 0) (w - 1),
              min (max r 0) (w - 1) + min (max z 0) (w - min (max r 0) (w - 1)))).2
            + k - 1).tdiv k * k = w) := by
  generalize hA : min (max r 0) (w - 1) = A
  have hA0 : 0 ≤ A := by omega
  have hA1 : A ≤ w - 1 := by omega
  generalize hB : min (max z 0) (w - A) = B
  have hB0 : 0 ≤ B := by omega
  have hB1 : B ≤ w - A := by omega
  obtain ⟨s1, s2, s3, s4, s5⟩ := symmetric_sum w A (A + B) hA0 (by omega) (by omega)
  refine ⟨hA0, hA1, hB0, hB1, ?_⟩
  by_cases hs : sym
  · simp only [if_pos hs]
    obtain ⟨b1, b2, b3, b4⟩ := stepped_bounds _ _ k s2 s3 hk
    refine ⟨by omega, by omega, fun _ hd => ?_⟩
    rw [add_sub_cancel_right]
    exact stepped_symmetric _ _ k w s2 s3 hk s1 hd
  · simp only [if_neg hs]
    obtain ⟨b1, b2, b3, b4⟩ := stepped_bounds A (A + B) k hA0 (by omega) hk
    exact ⟨by omega, by omega, fun h => absurd h hs⟩

/-- The horizontal axis of `fitRoi`, for a step and a binned sensor width
of at least 1. -/
theorem fitRoi_horizontal (c : Constants) (u : Pco) (hk : 1 ≤ u.arm.roiHorSteps)
    (hw : 1 ≤ u.arm.xResActual.tdiv u.arm.hwBinX) :
    0 ≤ (u.fitRoi c).arm.reqRoiStartX ∧
    (u.fitRoi c).arm.reqRoiStartX ≤ u.arm.xResActual.tdiv u.arm.hwBinX - 1 ∧
    0 ≤ (u.fitRoi c).arm.reqRoiSizeX ∧
    (u.fitRoi c).arm.reqRoiSizeX
      ≤ u.arm.xResActual.tdiv u.arm.hwBinX - (u.fitRoi c).arm.reqRoiStartX ∧
    0 ≤ (u.fitRoi c).arm.swRoiStartX ∧
    (u.fitRoi c).arm.swRoiStartX + (u.fitRoi c).arm.swRoiSizeX ≤ (u.fitRoi c).xCamSize ∧
    ((u.arm.adcMode = c.adcModeDual ∨ u.camType = c.cameraTypeDimaxStd ∨
        u.camType = c.cameraTypeDimaxTv ∨ u.camType = c.cameraTypeDimaxAutomotive) →
      u.arm.roiHorSteps ∣ u.arm.xResActual.tdiv u.arm.hwBinX →
      (u.fitRoi c).arm.hwRoiX1 - 1 + (u.fitRoi c).arm.hwRoiX2
        = u.arm.xResActual.tdiv u.arm.hwBinX) :=
  axis_fit (u.arm.xResActual.tdiv u.arm.hwBinX) u.arm.reqRoiStartX u.arm.reqRoiSizeX
    u.arm.roiHorSteps
    (u.arm.adcMode = c.adcModeDual ∨ u.camType = c.cameraTypeDimaxStd ∨
        u.camType = c.cameraTypeDimaxTv ∨ u.camType = c.cameraTypeDimaxAutomotive) hk hw

/-- The vertical axis of `fitRoi`, for a step and a binned sensor height
of at least 1. -/
theorem fitRoi_vertical (c : Constants) (u : Pco) (hk : 1 ≤ u.arm.roiVertSteps)
    (hw : 1 ≤ u.arm.yResActual.tdiv u.arm.hwBinY) :
    0 ≤ (u.fitRoi c).arm.reqRoiStartY ∧
    (u.fitRoi c).arm.reqRoiStartY ≤ u.arm.yResActual.tdiv u.arm.hwBinY - 1 ∧
    0 ≤ (u.fitRoi c).arm.reqRoiSizeY ∧
    (u.fitRoi c).arm.reqRoiSizeY
      ≤ u.arm.yResActual.tdiv u.arm.hwBinY - (u.fitRoi c).arm.reqRoiStartY ∧
    0 ≤ (u.fitRoi c).arm.swRoiStartY ∧
    (u.fitRoi c).arm.swRoiStartY + (u.fitRoi c).arm.swRoiSizeY ≤ (u.fitRoi c).yCamSize ∧
    ((u.camType = c.cameraTypeEdge ∨ u.camType = c.cameraTypeEdgeGl ∨
        u.camType = c.cameraTypeDimaxStd ∨ u.camType = c.cameraTypeDimaxTv ∨
        u.camType = c.cameraTypeDimaxAutomotive) →
      u.arm.roiVertSteps ∣ u.arm.yResActual.tdiv u.arm.hwBinY →
      (u.fitRoi c).arm.hwRoiY1 - 1 + (u.fitRoi c).arm.hwRoiY2
        = u.arm.yResActual.tdiv u.arm.hwBinY) :=
  axis_fit (u.arm.yResActual.tdiv u.arm.hwBinY) u.arm.reqRoiStartY u.arm.reqRoiSizeY
    u.arm.roiVertSteps
    (u.camType = c.cameraTypeEdge ∨ u.camType = c.cameraTypeEdgeGl ∨
        u.camType = c.cameraTypeDimaxStd ∨ u.camType = c.cameraTypeDimaxTv ∨
        u.camType = c.cameraTypeDimaxAutomotive) hk hw

/-! ## The hardware region of interest: `cfgBinningAndRoi` -/

/-- What `chooseBinning` leaves alone, and the binning it chooses. -/
theorem chooseBinning_fields (s : Pco) :
    s.chooseBinning.camType = s.camType ∧
    s.chooseBinning.arm.adcMode = s.arm.adcMode ∧
    s.chooseBinning.arm.xResActual = s.arm.xResActual ∧
    s.chooseBinning.arm.yResActual = s.arm.yResActual ∧
    s.chooseBinning.arm.roiHorSteps = s.arm.roiHorSteps ∧
    s.chooseBinning.arm.roiVertSteps = s.arm.roiVertSteps ∧
    s.chooseBinning.arm.hwBinX * s.chooseBinning.arm.swBinX = s.arm.reqBinX ∧
    s.chooseBinning.arm.hwBinY * s.chooseBinning.arm.swBinY = s.arm.reqBinY ∧
    (s.chooseBinning.arm.swBinX = 1 ↔ s.arm.reqBinX ∈ s.arm.availBinX ∨ s.arm.reqBinX = 1) ∧
    (s.chooseBinning.arm.swBinY = 1 ↔ s.arm.reqBinY ∈ s.arm.availBinY ∨ s.arm.reqBinY = 1) := by
  unfold Pco.chooseBinning
  simp only []
  by_cases hx : s.arm.reqBinX ∉ s.arm.availBinX <;> by_cases hy : s.arm.reqBinY ∉ s.arm.availBinY
  all_goals
    simp only [hx, hy, if_true, if_false, not_true_eq_false, not_false_eq_true]
    refine ⟨trivial, trivial, trivial, trivial, trivial, trivial, ?_, ?_, ?_, ?_⟩ <;>
      simp_all [defaultHorzBin, defaultVertBin]

/-- The state `cfgBinningAndRoi` returns with is the one `chooseBinning`,
`fitRoi` and `setUpSoftwareRoi` work out, with the two SDK calls logged. -/
theorem cfgBinningAndRoi_fit (env : Env) (s t : Pco)
    (h : s.cfgBinningAndRoi env = Except.ok t) :
    t = ({ s.chooseBinning.fitRoi env.c with
            log := s.log ++
              [Effect.api (ApiCall.setBinning s.chooseBinning.arm.hwBinX
                s.chooseBinning.arm.hwBinY)] ++
              [Effect.api (ApiCall.setRoi
                (toUShort (s.chooseBinning.fitRoi env.c).arm.hwRoiX1)
                (toUShort (s.chooseBinning.fitRoi env.c).arm.hwRoiY1)
                (toUShort (s.chooseBinning.fitRoi env.c).arm.hwRoiX2)
                (toUShort (s.chooseBinning.fitRoi env.c).arm.hwRoiY2))] } : Pco).setUpSoftwareRoi
          env.c := by
  unfold Pco.cfgBinningAndRoi at h
  simp only [] at h
  rcases call_cases env.api s.chooseBinning
    (ApiCall.setBinning s.chooseBinning.arm.hwBinX s.chooseBinning.arm.hwBinY) with h1 | h1
  · rw [h1] at h
    simp only [Except.bind] at h
    rcases call_cases env.api
      (Pco.fitRoi env.c { s.chooseBinning with
        log := s.chooseBinning.log ++
          [Effect.api (ApiCall.setBinning s.chooseBinning.arm.hwBinX
            s.chooseBinning.arm.hwBinY)] })
      (ApiCall.setRoi
        (toUShort (Pco.fitRoi env.c { s.chooseBinning with
          log := s.chooseBinning.log ++
            [Effect.api (ApiCall.setBinning s.chooseBinning.arm.hwBinX
              s.chooseBinning.arm.hwBinY)] }).arm.hwRoiX1)
        (toUShort (Pco.fitRoi env.c { s.chooseBinning with
          log := s.chooseBinning.log ++
            [Effect.api (ApiCall.setBinning s.chooseBinning.arm.hwBinX
              s.chooseBinning.arm.hwBinY)] }).arm.hwRoiY1)
        (toUShort (Pco.fitRoi env.c { s.chooseBinning with
          log := s.chooseBinning.log ++
            [Effect.api (ApiCall.setBinning s.chooseBinning.arm.hwBinX
              s.chooseBinning.arm.hwBinY)] }).arm.hwRoiX2)
        (toUShort (Pco.fitRoi env.c { s.chooseBinning with
          log := s.chooseBinning.log ++
            [Effect.api (ApiCall.setBinning s.chooseBinning.arm.hwBinX
              s.chooseBinning.arm.hwBinY)] }).arm.hwRoiY2)) with h2 | h2
    · rw [h2] at h
      simp only [Except.ok.injEq] at h
      rw [← h]
      rfl
    · rw [h2] at h
      simp at h
  · rw [h1] at h
    simp [Except.bind] at h

/-! ## C24: symmetry and stepping of the hardware ROI -/

/-- C24: when `cfgBinningAndRoi` returns, with ROI steps of at least 1 in
each axis, the hardware ROI in the members is the one sent to the camera
by `setRoi`; its zero-based start `hwRoiX1 - 1` and its end `hwRoiX2` are
multiples of the horizontal step, and likewise in Y; for a camera requiring
horizontal symmetry (dual ADC mode or a Dimax type) start + end is the
binned sensor width when that width is at least 1 and a multiple of the
horizontal step, and for a camera requiring vertical symmetry (Edge or
Dimax types) start + end is the binned sensor height when that height is
at least 1 and a multiple of the vertical step.  The arithmetic is over
unbounded integers. -/
theorem cfgBinningAndRoi_symmetry_stepping (env : Env) (s t : Pco)
    (h : s.cfgBinningAndRoi env = Except.ok t)
    (hkx : 1 ≤ s.arm.roiHorSteps) (hky : 1 ≤ s.arm.roiVertSteps) :
    Effect.api (ApiCall.setRoi (toUShort t.arm.hwRoiX1) (toUShort t.arm.hwRoiY1)
      (toUShort t.arm.hwRoiX2) (toUShort t.arm.hwRoiY2)) ∈ t.log ∧
    s.arm.roiHorSteps ∣ t.arm.hwRoiX1 - 1 ∧
    s.arm.roiHorSteps ∣ t.arm.hwRoiX2 ∧
    s.arm.roiVertSteps ∣ t.arm.hwRoiY1 - 1 ∧
    s.arm.roiVertSteps ∣ t.arm.hwRoiY2 ∧
    ((s.arm.adcMode = env.c.adcModeDual ∨ s.camType = env.c.cameraTypeDimaxStd ∨
        s.camType = env.c.cameraTypeDimaxTv ∨ s.camType = env.c.cameraTypeDimaxAutomotive) →
      1 ≤ s.arm.xResActual.tdiv t.arm.hwBinX →
      s.arm.roiHorSteps ∣ s.arm.xResActual.tdiv t.arm.hwBinX →
      t.arm.hwRoiX1 - 1 + t.arm.hwRoiX2 = s.arm.xResActual.tdiv t.arm.hwBinX) ∧
    ((s.camType = env.c.cameraTypeEdge ∨ s.camType = env.c.cameraTypeEdgeGl ∨
        s.camType = env.c.cameraTypeDimaxStd ∨ s.camType = env.c.cameraTypeDimaxTv ∨
        s.camType = env.c.cameraTypeDimaxAutomotive) →
      1 ≤ s.arm.yResActual.tdiv t.arm.hwBinY →
      s.arm.roiVertSteps ∣ s.arm.yResActual.tdiv t.arm.hwBinY →
      t.arm.hwRoiY1 - 1 + t.arm.hwRoiY2 = s.arm.yResActual.tdiv t.arm.hwBinY) := by
  have ht := cfgBinningAndRoi_fit env s t h
  obtain ⟨c1, c2, c3, c4, c5, c6, _⟩ := chooseBinning_fields s
  have e1 : t.arm.hwRoiX1 = (s.chooseBinning.fitRoi env.c).arm.hwRoiX1 := by rw [ht]; rfl
  have e2 : t.arm.hwRoiX2 = (s.chooseBinning.fitRoi env.c).arm.hwRoiX2 := by rw [ht]; rfl
  have e3 : t.arm.hwRoiY1 = (s.chooseBinning.fitRoi env.c).arm.hwRoiY1 := by rw [ht]; rfl
  have e4 : t.arm.hwRoiY2 = (s.chooseBinning.fitRoi env.c).arm.hwRoiY2 := by rw [ht]; rfl
  have e5 : t.arm.hwBinX = s.chooseBinning.arm.hwBinX := by rw [ht]; rfl
  have e6 : t.arm.hwBinY = s.chooseBinning.arm.hwBinY := by rw [ht]; rfl
  have elog : t.log = s.log ++
      [Effect.api (ApiCall.setBinning s.chooseBinning.arm.hwBinX
        s.chooseBinning.arm.hwBinY)] ++
      [Effect.api (ApiCall.setRoi
        (toUShort (s.chooseBinning.fitRoi env.c).arm.hwRoiX1)
        (toUShort (s.chooseBinning.fitRoi env.c).arm.hwRoiY1)
        (toUShort (s.chooseBinning.fitRoi env.c).arm.hwRoiX2)
        (toUShort (s.chooseBinning.fitRoi env.c).arm.hwRoiY2))] := by rw [ht]; rfl
  obtain ⟨d1, d2, d3, d4⟩ := fitRoi_steps env.c s.chooseBinning
  rw [c5] at d1 d2
  rw [c6] at d3 d4
  rw [e1, e2, e3, e4, e5, e6]
  refine ⟨?_, d1, d2, d3, d4, ?_, ?_⟩
  · rw [elog]; simp
  · intro hsym hw hd
    rw [← c3] at hw hd ⊢
    rw [← c5] at hd
    exact (fitRoi_horizontal env.c s.chooseBinning (by rw [c5]; exact hkx) hw).2.2.2.2.2.2
      (by rw [c1, c2]; exact hsym) hd
  · intro hsym hw hd
    rw [← c4] at hw hd ⊢
    rw [← c6] at hd
    exact (fitRoi_vertical env.c s.chooseBinning (by rw [c6]; exact hky) hw).2.2.2.2.2.2
      (by rw [c1]; exact hsym) hd

theorem cfgBinningAndRoi_symmetry_stepping_witness :
    (Throwing.state ((dimaxOfWidth 12).cfgBinningAndRoi quietEnv)).arm.hwRoiX1 - 1 = 0 ∧
    (Throwing.state ((dimaxOfWidth 12).cfgBinningAndRoi quietEnv)).arm.hwRoiX2 = 12 ∧
    (Throwing.state ((dimaxOfWidth 12).cfgBinningAndRoi quietEnv)).arm.hwRoiX1 - 1
        + (Throwing.state ((dimaxOfWidth 12).cfgBinningAndRoi quietEnv)).arm.hwRoiX2
      = (dimaxOfWidth 12).arm.xResActual.tdiv
          (Throwing.state ((dimaxOfWidth 12).cfgBinningAndRoi quietEnv)).arm.hwBinX :=
  ⟨by decide, by decide,
    (cfgBinningAndRoi_symmetry_stepping quietEnv (dimaxOfWidth 12)
      (Throwing.state ((dimaxOfWidth 12).cfgBinningAndRoi quietEnv)) rfl (by decide)
      (by decide)).2.2.2.2.2.1 (by decide) (by decide) (by decide)⟩

/-- For the Dimax camera `dimaxOfWidth 10`, whose binned width 10 is not a
multiple of the horizontal step 4, `cfgBinningAndRoi` returns with the
zero-based start 0 and the end 8, which do not add up to the width: the
symmetric region from 2 to 8 is widened to the step at each end by
itself.  For `dimaxOfWidth 0`, whose binned width is 0, it returns with
the start 0 and the end 4. -/
theorem cfgBinningAndRoi_symmetry_lost :
    (∃ t : Pco,
      (dimaxOfWidth 10).cfgBinningAndRoi quietEnv = Except.ok t ∧
      (dimaxOfWidth 10).camType = quietEnv.c.cameraTypeDimaxStd ∧
      1 ≤ (dimaxOfWidth 10).arm.roiHorSteps ∧
      (dimaxOfWidth 10).arm.xResActual.tdiv t.arm.hwBinX = 10 ∧
      t.arm.hwRoiX1 - 1 = 0 ∧
      t.arm.hwRoiX2 = 8 ∧
      t.arm.hwRoiX1 - 1 + t.arm.hwRoiX2
        ≠ (dimaxOfWidth 10).arm.xResActual.tdiv t.arm.hwBinX) ∧
    (∃ t : Pco,
      (dimaxOfWidth 0).cfgBinningAndRoi quietEnv = Except.ok t ∧
      (dimaxOfWidth 0).camType = quietEnv.c.cameraTypeDimaxStd ∧
      1 ≤ (dimaxOfWidth 0).arm.roiHorSteps ∧
      (dimaxOfWidth 0).arm.xResActual.tdiv t.arm.hwBinX = 0 ∧
      (dimaxOfWidth 0).arm.roiHorSteps ∣ (dimaxOfWidth 0).arm.xResActual.tdiv t.arm.hwBinX ∧
      t.arm.hwRoiX1 - 1 = 0 ∧
      t.arm.hwRoiX2 = 4 ∧
      t.arm.hwRoiX1 - 1 + t.arm.hwRoiX2
        ≠ (dimaxOfWidth 0).arm.xResActual.tdiv t.arm.hwBinX) :=
  ⟨⟨_, rfl, by decide, by decide, by decide, by decide, by decide, by decide⟩,
    ⟨_, rfl, by decide, by decide, by decide, by decide, by decide, by decide, by decide⟩⟩

/-! ## C25: the requested ROI and the binning -/

/-- C25: when `cfgBinningAndRoi` returns, with ROI steps of at least 1 and
a binned sensor size of at least 1 in each axis, the requested ROI is
clamped inside the binned sensor (`0 <= start <= size - 1`,
`0 <= length <= size - start`), the software ROI offset is not negative
and offset + length is at most the size of the frame the camera delivers,
in X and in Y; the hardware and software binning factors multiply to the
requested binning, and the software binning is 1 exactly when the camera
supports the requested value or the requested value is 1.  The arithmetic
is over unbounded integers. -/
theorem cfgBinningAndRoi_clamps_and_covers (env : Env) (s t : Pco)
    (h : s.cfgBinningAndRoi env = Except.ok t)
    (hkx : 1 ≤ s.arm.roiHorSteps) (hky : 1 ≤ s.arm.roiVertSteps)
    (hwx : 1 ≤ s.arm.xResActual.tdiv t.arm.hwBinX)
    (hwy : 1 ≤ s.arm.yResActual.tdiv t.arm.hwBinY) :
    (0 ≤ t.arm.reqRoiStartX ∧
      t.arm.reqRoiStartX ≤ s.arm.xResActual.tdiv t.arm.hwBinX - 1 ∧
      0 ≤ t.arm.reqRoiSizeX ∧
      t.arm.reqRoiSizeX ≤ s.arm.xResActual.tdiv t.arm.hwBinX - t.arm.reqRoiStartX) ∧
    (0 ≤ t.arm.reqRoiStartY ∧
      t.arm.reqRoiStartY ≤ s.arm.yResActual.tdiv t.arm.hwBinY - 1 ∧
      0 ≤ t.arm.reqRoiSizeY ∧
      t.arm.reqRoiSizeY ≤ s.arm.yResActual.tdiv t.arm.hwBinY - t.arm.reqRoiStartY) ∧
    (0 ≤ t.arm.swRoiStartX ∧ t.arm.swRoiStartX + t.arm.swRoiSizeX ≤ t.xCamSize ∧
      t.arm.swRoiSizeX = t.arm.reqRoiSizeX ∧
      t.xCamSize = t.arm.hwRoiX2 - (t.arm.hwRoiX1 - 1)) ∧
    (0 ≤ t.arm.swRoiStartY ∧ t.arm.swRoiStartY + t.arm.swRoiSizeY ≤ t.yCamSize ∧
      t.arm.swRoiSizeY = t.arm.reqRoiSizeY ∧
      t.yCamSize = t.arm.hwRoiY2 - (t.arm.hwRoiY1 - 1)) ∧
    t.arm.hwBinX * t.arm.swBinX = s.arm.reqBinX ∧
    t.arm.hwBinY * t.arm.swBinY = s.arm.reqBinY ∧
    (t.arm.swBinX = 1 ↔ s.arm.reqBinX ∈ s.arm.availBinX ∨ s.arm.reqBinX = 1) ∧
    (t.arm.swBinY = 1 ↔ s.arm.reqBinY ∈ s.arm.availBinY ∨ s.arm.reqBinY = 1) := by
  have hsub : ∀ a b : Int, a - b = a - (b + 1 - 1) := by intro a b; ring
  have ht := cfgBinningAndRoi_fit env s t h
  obtain ⟨_, _, c3, c4, c5, c6, c7, c8, c9, c10⟩ := chooseBinning_fields s
  have e5 : t.arm.hwBinX = s.chooseBinning.arm.hwBinX := by rw [ht]; rfl
  have e6 : t.arm.hwBinY = s.chooseBinning.arm.hwBinY := by rw [ht]; rfl
  have e7 : t.arm.swBinX = s.chooseBinning.arm.swBinX := by rw [ht]; rfl
  have e8 : t.arm.swBinY = s.chooseBinning.arm.swBinY := by rw [ht]; rfl
  have f1 : t.arm.reqRoiStartX = (s.chooseBinning.fitRoi env.c).arm.reqRoiStartX := by
    rw [ht]; rfl
  have f2 : t.arm.reqRoiSizeX = (s.chooseBinning.fitRoi env.c).arm.reqRoiSizeX := by
    rw [ht]; rfl
  have f3 : t.arm.swRoiStartX = (s.chooseBinning.fitRoi env.c).arm.swRoiStartX := by
    rw [ht]; rfl
  have f4 : t.arm.swRoiSizeX = (s.chooseBinning.fitRoi env.c).arm.swRoiSizeX := by
    rw [ht]; rfl
  have f5 : t.xCamSize = (s.chooseBinning.fitRoi env.c).xCamSize := by rw [ht]; rfl
  have g1 : t.arm.reqRoiStartY = (s.chooseBinning.fitRoi env.c).arm.reqRoiStartY := by
    rw [ht]; rfl
  have g2 : t.arm.reqRoiSizeY = (s.chooseBinning.fitRoi env.c).arm.reqRoiSizeY := by
    rw [ht]; rfl
  have g3 : t.arm.swRoiStartY = (s.chooseBinning.fitRoi env.c).arm.swRoiStartY := by
    rw [ht]; rfl
  have g4 : t.arm.swRoiSizeY = (s.chooseBinning.fitRoi env.c).arm.swRoiSizeY := by
    rw [ht]; rfl
  have g5 : t.yCamSize = (s.chooseBinning.fitRoi env.c).yCamSize := by rw [ht]; rfl
  have k1 : t.arm.hwRoiX1 = (s.chooseBinning.fitRoi env.c).arm.hwRoiX1 := by rw [ht]; rfl
  have k2 : t.arm.hwRoiX2 = (s.chooseBinning.fitRoi env.c).arm.hwRoiX2 := by rw [ht]; rfl
  have k3 : t.arm.hwRoiY1 = (s.chooseBinning.fitRoi env.c).arm.hwRoiY1 := by rw [ht]; rfl
  have k4 : t.arm.hwRoiY2 = (s.chooseBinning.fitRoi env.c).arm.hwRoiY2 := by rw [ht]; rfl
  rw [e5, ← c3] at hwx
  rw [e6, ← c4] at hwy
  obtain ⟨x1, x2, x3, x4, x5, x6, _⟩ :=
    fitRoi_horizontal env.c s.chooseBinning (by rw [c5]; exact hkx) hwx
  obtain ⟨y1, y2, y3, y4, y5, y6, _⟩ :=
    fitRoi_vertical env.c s.chooseBinning (by rw [c6]; exact hky) hwy
  rw [e5, e6, e7, e8, f1, f2, f3, f4, f5, g1, g2, g3, g4, g5, k1, k2, k3, k4, ← c3, ← c4]
  refine ⟨⟨x1, x2, x3, x4⟩, ⟨y1, y2, y3, y4⟩, ⟨x5, x6, rfl, ?_⟩, ⟨y5, y6, rfl, ?_⟩,
    c7, c8, c9, c10⟩
  · exact hsub _ _
  · exact hsub _ _

theorem cfgBinningAndRoi_clamps_and_covers_witness :
    (Throwing.state ((dimaxOfWidth 10).cfgBinningAndRoi quietEnv)).arm.reqRoiStartX = 2 ∧
    (Throwing.state ((dimaxOfWidth 10).cfgBinningAndRoi quietEnv)).arm.swRoiStartX = 2 ∧
    (Throwing.state ((dimaxOfWidth 10).cfgBinningAndRoi quietEnv)).xCamSize = 8 ∧
    (0 ≤ (Throwing.state ((dimaxOfWidth 10).cfgBinningAndRoi quietEnv)).arm.swRoiStartX ∧
      (Throwing.state ((dimaxOfWidth 10).cfgBinningAndRoi quietEnv)).arm.swRoiStartX
          + (Throwing.state ((dimaxOfWidth 10).cfgBinningAndRoi quietEnv)).arm.swRoiSizeX
        ≤ (Throwing.state ((dimaxOfWidth 10).cfgBinningAndRoi quietEnv)).xCamSize ∧
      (Throwing.state ((dimaxOfWidth 10).cfgBinningAndRoi quietEnv)).arm.swRoiSizeX
        = (Throwing.state ((dimaxOfWidth 10).cfgBinningAndRoi quietEnv)).arm.reqRoiSizeX ∧
      (Throwing.state ((dimaxOfWidth 10).cfgBinningAndRoi quietEnv)).xCamSize
        = (Throwing.state ((dimaxOfWidth 10).cfgBinningAndRoi quietEnv)).arm.hwRoiX2
          - ((Throwing.state ((dimaxOfWidth 10).cfgBinningAndRoi quietEnv)).arm.hwRoiX1 - 1)) :=
  ⟨by decide, by decide, by decide,
    (cfgBinningAndRoi_clamps_and_covers quietEnv (dimaxOfWidth 10)
      (Throwing.state ((dimaxOfWidth 10).cfgBinningAndRoi quietEnv)) rfl (by decide)
      (by decide) (by decide) (by decide)).2.2.1⟩

/-- For the camera `noBinning`, whose description allows no binning value,
`cfgBinningAndRoi` returns with the software binning 1 in X for the
requested binning 1, which the camera does not support; the steps and the
binned sensor size are at least 1. -/
theorem cfgBinningAndRoi_unsupported_binning_one :
    ∃ t : Pco,
      noBinning.cfgBinningAndRoi quietEnv = Except.ok t ∧
      1 ≤ noBinning.arm.roiHorSteps ∧ 1 ≤ noBinning.arm.roiVertSteps ∧
      1 ≤ noBinning.arm.xResActual.tdiv t.arm.hwBinX ∧
      1 ≤ noBinning.arm.yResActual.tdiv t.arm.hwBinY ∧
      t.arm.swBinX = 1 ∧
      noBinning.arm.reqBinX ∉ noBinning.arm.availBinX :=
  ⟨_, rfl, by decide, by decide, by decide, by decide, by decide, by decide⟩

/-! ## C26: the valid binning values -/

theorem setValidBinningLoop_linear (c : Constants) (max step : Int)
    (hstep : step = c.binSteppingLinear) (n : Nat) :
    ∀ (bin : Int) (acc : List Int), (max - bin + 1).toNat ≤ n →
      ∃ valid : List Int,
        (∀ extra : Nat, setValidBinningLoop c max step (n + 1 + extra) bin acc = some valid) ∧
        ∀ b : Int, b ∈ valid ↔ b ∈ acc ∨ (bin ≤ b ∧ b ≤ max) := by
  induction n with
  | zero =>
    intro bin acc h
    have hlt : ¬ bin ≤ max := by omega
    refine ⟨acc, ?_, ?_⟩
    · intro extra
      rw [show 0 + 1 + extra = extra + 1 by omega, setValidBinningLoop, if_neg hlt]
    · intro b
      constructor
      · intro hb; exact Or.inl hb
      · rintro (hb | ⟨h1, h2⟩)
        · exact hb
        · omega
  | succ m ih =>
    intro bin acc h
    by_cases hle : bin ≤ max
    · obtain ⟨valid, hv, hm⟩ := ih (bin + 1) (acc.insert bin) (by omega)
      refine ⟨valid, ?_, ?_⟩
      · intro extra
        rw [show m + 1 + 1 + extra = (m + 1 + extra) + 1 by omega, setValidBinningLoop,
          if_pos hle, if_pos hstep]
        exact hv extra
      · intro b
        rw [hm b, List.mem_insert_iff]
        constructor
        · rintro ((hb | hb) | ⟨h1, h2⟩)
          · exact Or.inr ⟨by omega, by omega⟩
          · exact Or.inl hb
          · exact Or.inr ⟨by omega, h2⟩
        · rintro (hb | ⟨h1, h2⟩)
          · exact Or.inl (Or.inr hb)
          · by_cases e : b = bin
            · exact Or.inl (Or.inl e)
            · exact Or.inr ⟨by omega, h2⟩
    · refine ⟨acc, ?_, ?_⟩
      · intro extra
        rw [show m + 1 + 1 + extra = (m + 1 + extra) + 1 by omega, setValidBinningLoop,
          if_neg hle]
      · intro b
        constructor
        · intro hb; exact Or.inl hb
        · rintro (hb | ⟨h1, h2⟩)
          · exact hb
          · omega

theorem setValidBinningLoop_doubling (c : Constants) (max step : Int)
    (hstep : step ≠ c.binSteppingLinear) (n : Nat) :
    ∀ (k : Nat) (acc : List Int), (max - 2 ^ k + 1).toNat ≤ n →
      ∃ valid : List Int,
        (∀ extra : Nat,
          setValidBinningLoop c max step (n + 1 + extra) (2 ^ k) acc = some valid) ∧
        ∀ b : Int, b ∈ valid ↔ b ∈ acc ∨ ∃ j : Nat, k ≤ j ∧ b = 2 ^ j ∧ b ≤ max := by
  induction n with
  | zero =>
    intro k acc h
    have hlt : ¬ (2 : Int) ^ k ≤ max := by omega
    refine ⟨acc, ?_, ?_⟩
    · intro extra
      rw [show 0 + 1 + extra = extra + 1 by omega, setValidBinningLoop, if_neg hlt]
    · intro b
      constructor
      · intro hb; exact Or.inl hb
      · rintro (hb | ⟨j, h1, h2, h3⟩)
        · exact hb
        · have : (2 : Int) ^ k ≤ 2 ^ j := pow_le_pow_right₀ (by norm_num) h1
          omega
  | succ m ih =>
    intro k acc h
    have hpos : (1 : Int) ≤ 2 ^ k := one_le_pow₀ (by norm_num)
    by_cases hle : (2 : Int) ^ k ≤ max
    · have e2 : (2 : Int) ^ (k + 1) = 2 ^ k * 2 := pow_succ 2 k
      obtain ⟨valid, hv, hm⟩ := ih (k + 1) (acc.insert (2 ^ k)) (by omega)
      refine ⟨valid, ?_, ?_⟩
      · intro extra
        rw [show m + 1 + 1 + extra = (m + 1 + extra) + 1 by omega, setValidBinningLoop,
          if_pos hle, if_neg hstep, ← e2]
        exact hv extra
      · intro b
        rw [hm b, List.mem_insert_iff]
        constructor
        · rintro ((hb | hb) | ⟨j, h1, h2, h3⟩)
          · exact Or.inr ⟨k, le_refl k, hb, by omega⟩
          · exact Or.inl hb
          · exact Or.inr ⟨j, by omega, h2, h3⟩
        · rintro (hb | ⟨j, h1, h2, h3⟩)
          · exact Or.inl (Or.inr hb)
          · by_cases e : j = k
            · subst e; exact Or.inl (Or.inl h2)
            · exact Or.inr ⟨j, by omega, h2, h3⟩
    · refine ⟨acc, ?_, ?_⟩
      · intro extra
        rw [show m + 1 + 1 + extra = (m + 1 + extra) + 1 by omega, setValidBinningLoop,
          if_neg hle]
      · intro b
        constructor
        · intro hb; exact Or.inl hb
        · rintro (hb | ⟨j, h1, h2, h3⟩)
          · exact hb
          · have : (2 : Int) ^ k ≤ 2 ^ j := pow_le_pow_right₀ (by norm_num) h1
            omega

/-- C26: for every `max` and `step`, over unbounded integers, the loop of
`setValidBinning` ends within `max + 1` turns (within one turn when `max`
is negative) whatever more fuel it is given, and it leaves one set, the same
for every previous content `previous` of `valid`: the integers from 1 to
`max` when `step` is `binSteppingLinear`, the powers of two that are at most
`max` otherwise, so the empty set when `max < 1`. -/
theorem setValidBinning_result (c : Constants) (max step : Int) :
    ∃ valid : List Int,
      (∀ (previous : List Int) (extra : Nat),
        setValidBinning c previous max step (max.toNat + 1 + extra) = some valid) ∧
      (∀ b : Int, b ∈ valid ↔
        if step = c.binSteppingLinear then 1 ≤ b ∧ b ≤ max
        else ∃ k : Nat, b = 2 ^ k ∧ b ≤ max) ∧
      (max < 1 → valid = []) := by
  by_cases hstep : step = c.binSteppingLinear
  · obtain ⟨valid, hv, hm⟩ :=
      setValidBinningLoop_linear c max step hstep max.toNat 1 [] (by omega)
    have hmem : ∀ b : Int, b ∈ valid ↔ 1 ≤ b ∧ b ≤ max := by
      intro b; rw [hm b]; simp
    refine ⟨valid, fun _ extra => hv extra, ?_, ?_⟩
    · intro b; rw [if_pos hstep]; exact hmem b
    · intro hlt
      apply List.eq_nil_iff_forall_not_mem.mpr
      intro b hb
      have := (hmem b).mp hb
      omega
  · obtain ⟨valid, hv, hm⟩ :=
      setValidBinningLoop_doubling c max step hstep max.toNat 0 [] (by norm_num)
    have hmem : ∀ b : Int, b ∈ valid ↔ ∃ k : Nat, b = 2 ^ k ∧ b ≤ max := by
      intro b; rw [hm b]; simp
    refine ⟨valid, fun _ extra => ?_, ?_, ?_⟩
    · have := hv extra
      rw [pow_zero] at this
      exact this
    · intro b; rw [if_neg hstep]; exact hmem b
    · intro hlt
      apply List.eq_nil_iff_forall_not_mem.mpr
      intro b hb
      obtain ⟨k, h1, h2⟩ := (hmem b).mp hb
      have hpos : (1 : Int) ≤ 2 ^ k := one_le_pow₀ (by norm_num)
      omega

theorem setValidBinning_result_witness :
    setValidBinning sdkConstants [7, 9] 4 sdkConstants.binSteppingLinear 5 = some [4, 3, 2, 1] ∧
    setValidBinning sdkConstants [7, 9] 4 0 5 = some [4, 2, 1] ∧
    setValidBinning sdkConstants [7, 9] 0 0 1 = some [] ∧
    ∃ valid : List Int,
      (∀ (previous : List Int) (extra : Nat),
        setValidBinning sdkConstants previous 4 0 ((4 : Int).toNat + 1 + extra) = some valid) ∧
      (∀ b : Int, b ∈ valid ↔
        if (0 : Int) = sdkConstants.binSteppingLinear then 1 ≤ b ∧ b ≤ 4
        else ∃ k : Nat, b = 2 ^ k ∧ b ≤ 4) ∧
      ((4 : Int) < 1 → valid = []) :=
  ⟨by decide, by decide, by decide, setValidBinning_result sdkConstants 4 0⟩

/-! ## C27: the ordinal an action returns selects a registered state -/

theorem smRequestArm_results (env : Env) (s : Pco) :
    (s.smRequestArm env).1 ∈ Action.smRequestArm.results := by
  unfold Pco.smRequestArm
  split <;> simp [Pco.armFailed, Action.results]

theorem smArmAndAcquire_results (env : Env) (s : Pco) :
    (s.smArmAndAcquire env).1 ∈ Action.smArmAndAcquire.results := by
  unfold Pco.smArmAndAcquire
  split <;> simp [Pco.armFailed, Action.results]

theorem smFirstImageWhileArmed_results (env : Env) (s : Pco) :
    (s.smFirstImageWhileArmed env).1 ∈ Action.smFirstImageWhileArmed.results := by
  unfold Pco.smFirstImageWhileArmed
  simp only []
  split <;> (try split) <;> (try split) <;> simp [Action.results]

theorem smAcquireImage_results (env : Env) (s : Pco) :
    (s.smAcquireImage env).1 ∈ Action.smAcquireImage.results := by
  unfold Pco.smAcquireImage
  simp only []
  split <;> (try split) <;> simp [Action.results]

theorem smUnarmedAcquireImage_results (env : Env) (s : Pco) :
    (s.smUnarmedAcquireImage env).1 ∈ Action.smUnarmedAcquireImage.results := by
  unfold Pco.smUnarmedAcquireImage
  simp only []
  split <;> simp [Action.results]

theorem smExternalAcquireImage_results (env : Env) (s : Pco) :
    (s.smExternalAcquireImage env).1 ∈ Action.smExternalAcquireImage.results := by
  unfold Pco.smExternalAcquireImage
  simp only []
  split <;> (try split) <;> simp [Action.results]

theorem smMakeGangedImage_results (env : Env) (s : Pco) :
    (s.smMakeGangedImage env).1 ∈ Action.smMakeGangedImage.results := by
  unfold Pco.smMakeGangedImage
  simp only []
  split <;> (try split) <;> simp [Action.results]

theorem smUnarmedMakeGangedImage_results (env : Env) (s : Pco) :
    (s.smUnarmedMakeGangedImage env).1 ∈ Action.smUnarmedMakeGangedImage.results := by
  unfold Pco.smUnarmedMakeGangedImage
  simp only []
  split <;> simp [Action.results]

theorem smStopAcquisition_results (env : Env) (s : Pco) :
    (s.smStopAcquisition env).1 ∈ Action.smStopAcquisition.results := by
  unfold Pco.smStopAcquisition
  split <;> simp [Action.results]

theorem smConnectToCamera_results (env : Env) (s : Pco) (r : StateSelector × Pco)
    (h : s.smConnectToCamera env = Except.ok r) :
    r.1 ∈ Action.smConnectToCamera.results := by
  unfold Pco.smConnectToCamera at h
  split at h
  · simp only [Except.ok.injEq] at h
    rw [← h]; simp [Action.results]
  · simp only [Except.ok.injEq] at h
    rw [← h]; simp [Action.results]
  · simp at h

theorem smRequestReboot_results (env : Env) (s : Pco) (r : StateSelector × Pco)
    (h : s.smRequestReboot env = Except.ok r) :
    r.1 ∈ Action.smRequestReboot.results := by
  unfold Pco.smRequestReboot at h
  simp only [] at h
  split at h
  · simp at h
  · simp only [Except.ok.injEq] at h
    rw [← h]; simp [Action.results]

/-- Every ordinal an action returns is among those of its `return`
statements. -/
theorem act_results (env : Env) (s : Pco) (a : Action) (r : StateSelector × Pco)
    (h : s.act env a = Except.ok r) : r.1 ∈ a.results := by
  cases a <;> simp only [Pco.act, Except.ok.injEq] at h
  case smConnectToCamera => exact smConnectToCamera_results env s r h
  case smRequestReboot => exact smRequestReboot_results env s r h
  case smRequestArm => rw [← h]; exact smRequestArm_results env s
  case smArmAndAcquire => rw [← h]; exact smArmAndAcquire_results env s
  case smFirstImageWhileArmed => rw [← h]; exact smFirstImageWhileArmed_results env s
  case smAcquireImage => rw [← h]; exact smAcquireImage_results env s
  case smUnarmedAcquireImage => rw [← h]; exact smUnarmedAcquireImage_results env s
  case smExternalAcquireImage => rw [← h]; exact smExternalAcquireImage_results env s
  case smMakeGangedImage => rw [← h]; exact smMakeGangedImage_results env s
  case smUnarmedMakeGangedImage => rw [← h]; exact smUnarmedMakeGangedImage_results env s
  case smStopAcquisition => rw [← h]; exact smStopAcquisition_results env s
  all_goals (rw [← h]; simp [Action.results, Pco.smInitialiseWait, Pco.smPollWhileIdle,
    Pco.smPollWhileAcquiring, Pco.smAcquire, Pco.smDiscardImages, Pco.smDisarmAndDiscard,
    Pco.smTrigger, Pco.smExternalStopAcquisition])

/-- Each ordinal of the `return` statements of the action of a registered
transition is a place in the list of its candidate states. -/
theorem results_registered :
    ∀ t ∈ transitions, ∀ sel ∈ t.action.results, sel.ordinal < t.states.length := by
  decide

/-- Every action but `smConnectToCamera` and `smRequestReboot` returns. -/
theorem act_returns (env : Env) (s : Pco) (a : Action)
    (h1 : a ≠ Action.smConnectToCamera) (h2 : a ≠ Action.smRequestReboot) :
    ∃ r : StateSelector × Pco, s.act env a = Except.ok r := by
  cases a <;> first
    | exact absurd rfl h1
    | exact absurd rfl h2
    | exact ⟨_, rfl⟩

/-- C27: for every transition registered in the table and every state of
the driver and environment (whatever the SDK calls return or raise,
whatever `doArm` and `initialiseCamera` do, whatever the trigger mode and
the queue hold), an ordinal returned by the action of the transition is a
place in its list of candidate states, so that the selected destination
exists.  Every action returns, except that an exception other than
`PcoException` leaves `smConnectToCamera` and that an exception raised by
`doReboot` leaves `smRequestReboot`, which returns when `doReboot`
does. -/
theorem action_ordinal_registered (env : Env) (s : Pco) (t : Transition)
    (ht : t ∈ transitions) :
    (∀ r : StateSelector × Pco, s.act env t.action = Except.ok r →
      r.1.ordinal < t.states.length ∧ ∃ st : State, t.destination r.1 = some st) ∧
    (t.action ≠ Action.smConnectToCamera → t.action ≠ Action.smRequestReboot →
      ∃ r : StateSelector × Pco, s.act env t.action = Except.ok r) ∧
    (∀ (e : Exn) (u : Pco), s.act env Action.smConnectToCamera = Except.error (e, u) →
      ∃ w : String, e = Exn.badAlloc w) ∧
    (∀ u : Pco, s.stopTimer.clear.doReboot env = Except.ok u →
      ∃ r : StateSelector × Pco, s.act env Action.smRequestReboot = Except.ok r) := by
  refine ⟨fun r h => ?_, act_returns env s t.action, ?_, ?_⟩
  · have hlt := results_registered t ht r.1 (act_results env s t.action r h)
    refine ⟨hlt, ?_⟩
    unfold Transition.destination
    rw [List.get?_eq_get hlt]
    exact ⟨_, rfl⟩
  · intro e u h
    simp only [Pco.act] at h
    unfold Pco.smConnectToCamera at h
    split at h
    · simp at h
    · simp at h
    · simp only [Except.error.injEq, Prod.mk.injEq] at h
      exact ⟨_, h.1.symm⟩
  · intro u h
    simp only [Pco.act]
    unfold Pco.smRequestReboot
    simp only []
    rw [h]
    exact ⟨_, rfl⟩

theorem action_ordinal_registered_witness :
    ((targetReached 1).smFirstImageWhileArmed quietEnv).1 = StateSelector.fourthState ∧
    (((targetReached 1).smFirstImageWhileArmed quietEnv).1.ordinal
        < [State.ExternalAcquiring, State.Idle, State.Armed, State.Armed].length ∧
      ∃ st : State,
        Transition.destination
          ⟨State.Armed, Event.ImageReceived, Action.smFirstImageWhileArmed,
            [State.ExternalAcquiring, State.Idle, State.Armed, State.Armed]⟩
          ((targetReached 1).smFirstImageWhileArmed quietEnv).1 = some st) :=
  ⟨by decide,
    (action_ordinal_registered quietEnv (targetReached 1)
      ⟨State.Armed, Event.ImageReceived, Action.smFirstImageWhileArmed,
        [State.ExternalAcquiring, State.Idle, State.Armed, State.Armed]⟩ (by decide)).1
      ((targetReached 1).smFirstImageWhileArmed quietEnv) rfl⟩

/-! ## C28: the image counter stays within the target -/

theorem sumExposures_output (s : Pco) (image : NDArray) :
    (s.sumExposures image).2.2.delivered = s.delivered ∧
    (s.sumExposures image).2.2.numImagesCounter = s.numImagesCounter := by
  unfold Pco.sumExposures
  split
  · simp only []
    split <;> split <;> (try split) <;> exact ⟨rfl, rfl⟩
  · exact ⟨rfl, rfl⟩

/-- One turn of the loop without a gang server: at most one image is
delivered, and the image counter advances with it. -/
theorem processImage_advance (env : Env) (s : Pco) (image : NDArray)
    (hgang : s.gangServer = none) :
    ∃ new : List NDArray, new.length ≤ 1 ∧
      (s.processImage env image).delivered = s.delivered ++ new ∧
      (s.processImage env image).numImagesCounter = s.numImagesCounter + new.length := by
  have hc1 := checkImageNumber_sameConfig env.c s image
  have hc2 := softwareRoi_sameConfig env (s.checkImageNumber env.c image) image
  have hc3 := sumExposures_sameConfig ((s.checkImageNumber env.c image).softwareRoi env image).2
    ((s.checkImageNumber env.c image).softwareRoi env image).1
  have ho1 := checkImageNumber_sameOutput env.c s image
  have ho2 := softwareRoi_sameOutput env (s.checkImageNumber env.c image) image
  have ho3 := sumExposures_output ((s.checkImageNumber env.c image).softwareRoi env image).2
    ((s.checkImageNumber env.c image).softwareRoi env image).1
  have hc := sameConfig_trans (sameConfig_trans hc1 hc2) hc3
  have ho := sameOutput_trans ho1 ho2
  unfold Pco.processImage
  simp only []
  split
  · obtain ⟨h1, _, h3⟩ := finishImage_delivers env.c
      (((s.checkImageNumber env.c image).softwareRoi env image).2.sumExposures
        ((s.checkImageNumber env.c image).softwareRoi env image).1).2.2
      (((s.checkImageNumber env.c image).softwareRoi env image).2.sumExposures
        ((s.checkImageNumber env.c image).softwareRoi env image).1).1
      (by rw [hc.gangServer]; exact hgang)
    refine ⟨[Pco.attachInfo env.c (((s.checkImageNumber env.c image).softwareRoi env image).2.sumExposures
        ((s.checkImageNumber env.c image).softwareRoi env image).1).2.2
      (((s.checkImageNumber env.c image).softwareRoi env image).2.sumExposures
        ((s.checkImageNumber env.c image).softwareRoi env image).1).1], by simp, ?_, ?_⟩
    · rw [h1, ho3.1, ho.delivered]
    · rw [h3, ho3.2, ho.numImagesCounter]; simp
  · refine ⟨[], by simp, ?_, ?_⟩
    · rw [ho3.1, ho.delivered]; simp
    · rw [ho3.2, ho.numImagesCounter]; simp

theorem receiveLoop_within_target (env : Env) (q : List NDArray) (s : Pco)
    (hq : s.receivedFrameQueue = q)
    (hmode : s.imageMode ≠ env.c.ADImageContinuous) (hgang : s.gangServer = none)
    (hinv : s.numImagesCounter ≤ s.numImages) :
    ∃ taken new : List NDArray,
      q = taken ++ (Pco.receiveLoop env q s).receivedFrameQueue ∧
      (Pco.receiveLoop env q s).delivered = s.delivered ++ new ∧
      (Pco.receiveLoop env q s).numImagesCounter = s.numImagesCounter + new.length ∧
      (Pco.receiveLoop env q s).numImagesCounter ≤ s.numImages ∧
      new.length ≤ taken.length ∧
      ((Pco.receiveLoop env q s).receivedFrameQueue ≠ [] →
        (Pco.receiveLoop env q s).numImagesCounter = s.numImages) ∧
      (s.numImagesCounter = s.numImages → taken = [] ∧ new = []) := by
  induction q generalizing s with
  | nil =>
    refine ⟨[], [], ?_, ?_, ?_, ?_, ?_, ?_, ?_⟩ <;> simp [Pco.receiveLoop, hq, hinv]
  | cons image rest ih =>
    by_cases hw : s.wantsImages env.c = true
    · have hlt : s.numImagesCounter < s.numImages := by
        unfold Pco.wantsImages at hw
        rcases of_decide_eq_true hw with h | h
        · exact absurd h hmode
        · exact h
      rw [Pco.receiveLoop, if_pos hw]
      have hcfg : Pco.SameConfig s ((s.withQueue rest).processImage env image) :=
        sameConfig_trans (withQueue_sameConfig s rest) (processImage_sameConfig env _ image)
      obtain ⟨one, hone, hd, hn⟩ := processImage_advance env (s.withQueue rest) image hgang
      have hd1 : ((s.withQueue rest).processImage env image).delivered = s.delivered ++ one := hd
      have hn1 : ((s.withQueue rest).processImage env image).numImagesCounter
          = s.numImagesCounter + one.length := hn
      obtain ⟨taken, new, h1, h2, h3, h4, h5, h6, _⟩ :=
        ih ((s.withQueue rest).processImage env image)
          (by rw [processImage_queue]; rfl)
          (by rw [hcfg.imageMode]; exact hmode)
          (by rw [hcfg.gangServer]; exact hgang)
          (by rw [hcfg.numImages, hn1]; have : (one.length : Int) ≤ 1 := by exact_mod_cast hone
              omega)
      rw [hcfg.numImages] at h4 h6
      refine ⟨image :: taken, one ++ new, ?_, ?_, ?_, h4, ?_, h6, ?_⟩
      · rw [List.cons_append, ← h1]
      · rw [h2, hd1, List.append_assoc]
      · rw [h3, hn1, List.length_append]; push_cast; ring
      · rw [List.length_append, List.length_cons]; omega
      · intro h; omega
    · have hge : s.numImagesCounter = s.numImages := by
        unfold Pco.wantsImages at hw
        have h : ¬ s.imageMode = env.c.ADImageContinuous ∧ s.numImages ≤ s.numImagesCounter := by
          simpa using hw
        omega
      rw [Pco.receiveLoop, if_neg hw]
      refine ⟨[], [], ?_, ?_, ?_, ?_, ?_, ?_, ?_⟩ <;> simp [hq, hinv, hge]

/-- C28: in an image mode other than continuous, with no gang server and
`numImagesCounter <= numImages` on entry, `receiveImages` returns with
`numImagesCounter <= numImages` and `numImages` unchanged, for every
content of the pending queue.  The frames `taken` from the queue are its
front part and the rest is left in it; the images `new` delivered are
appended to those delivered before, `numImagesCounter` has grown by their
number, and at most one image is delivered per frame taken.  Frames are
left in the queue only with the target reached, and when the target is
reached on entry no frame is taken and no image delivered. -/
theorem receiveImages_within_target (env : Env) (s : Pco)
    (hmode : s.imageMode ≠ env.c.ADImageContinuous) (hgang : s.gangServer = none)
    (hinv : s.numImagesCounter ≤ s.numImages) :
    (Pco.receiveImages env s).2.numImagesCounter ≤ (Pco.receiveImages env s).2.numImages ∧
    (Pco.receiveImages env s).2.numImages = s.numImages ∧
    ∃ taken new : List NDArray,
      s.receivedFrameQueue = taken ++ (Pco.receiveImages env s).2.receivedFrameQueue ∧
      (Pco.receiveImages env s).2.delivered = s.delivered ++ new ∧
      (Pco.receiveImages env s).2.numImagesCounter = s.numImagesCounter + new.length ∧
      new.length ≤ taken.length ∧
      ((Pco.receiveImages env s).2.receivedFrameQueue ≠ [] →
        (Pco.receiveImages env s).2.numImagesCounter = s.numImages) ∧
      (s.numImagesCounter = s.numImages → taken = [] ∧ new = []) := by
  obtain ⟨taken, new, h1, h2, h3, h4, h5, h6, h7⟩ :=
    receiveLoop_within_target env s.receivedFrameQueue s rfl hmode hgang hinv
  have hn : (Pco.receiveImages env s).2.numImages = s.numImages :=
    (receiveImages_config env s).numImages
  refine ⟨?_, hn, taken, new, h1, h2, h3, h5, h6, h7⟩
  rw [hn]
  exact h4

theorem receiveImages_within_target_witness :
    (Pco.receiveImages quietEnv threeForTwo).2.numImagesCounter = 2 ∧
    (Pco.receiveImages quietEnv threeForTwo).2.delivered.map NDArray.id = [1, 2] ∧
    (Pco.receiveImages quietEnv threeForTwo).2.receivedFrameQueue = [frame 3 [9, 10]] ∧
    (Pco.receiveImages quietEnv threeForTwo).2.numImagesCounter
      ≤ (Pco.receiveImages quietEnv threeForTwo).2.numImages :=
  ⟨by decide, by decide, by decide,
    (receiveImages_within_target quietEnv threeForTwo (by decide) rfl (by decide)).1⟩

/-! ## C29: the element indices of `sumArray` -/

/-- When the loop body calls `sumArray`, the image it goes on with is the
result of `sumArray` on the two images of `sumArrayCall`. -/
theorem sumArrayCall_sums (env : Env) (s : Pco) (image a b : NDArray)
    (h : s.sumArrayCall env image = some (a, b)) :
    ∃ bits : Nat,
      (((s.checkImageNumber env.c image).softwareRoi env image).2.sumExposures
          ((s.checkImageNumber env.c image).softwareRoi env image).1).1
        = sumArray bits
            { ((s.checkImageNumber env.c image).softwareRoi env image).2 with
              numExposuresCounter :=
                ((s.checkImageNumber env.c image).softwareRoi env image).2.numExposuresCounter
                  + 1 }
            a b := by
  unfold Pco.sumArrayCall at h
  simp only [] at h
  generalize ((s.checkImageNumber env.c image).softwareRoi env image).2 = u at h ⊢
  generalize ((s.checkImageNumber env.c image).softwareRoi env image).1 = img at h ⊢
  by_cases hc : u.numExposures > 1 ∧ u.numExposuresCounter + 1 > 1
  · rw [if_pos hc] at h
    unfold Pco.sumExposures
    rw [if_pos hc.1]
    simp only []
    rw [if_pos hc.2]
    cases hs : u.imageSum with
    | none => rw [hs] at h; simp at h
    | some acc =>
      rw [hs] at h
      simp only [] at h
      cases hd : img.dataType <;> rw [hd] at h <;> simp only [] at h
      all_goals first
        | (obtain ⟨rfl, rfl⟩ := h; done)
        | (obtain ⟨rfl, rfl⟩ := h
           simp only [sumByType, hd]
           split <;> exact ⟨_, rfl⟩)
  · rw [if_neg hc] at h
    simp at h

/-- C29: with the software ROI keeping two samples of frames of 2 by 2
pixels and two exposures summed, `receiveImages` takes the first frame and
keeps its conversion in `imageSum`; for the second frame the loop body
calls `sumArray` with the conversion of that frame and `imageSum`, of two
elements each, and the loop of `sumArray` runs over the indices 0 to 3 of
the camera frame size `xCamSize * yCamSize = 4`: the indices 2 and 3 are
outside both images. -/
theorem sumArray_indices_beyond_images :
    (Pco.receiveImages cropEnv croppedFirst).2.imageSum
      = some { id := 101, pData := [1, 2] } ∧
    (Pco.receiveImages cropEnv croppedFirst).2.sumArrayCall cropEnv (frame 2 [5, 6, 7, 8])
      = some ({ id := 102, pData := [5, 6] }, { id := 101, pData := [1, 2] }) ∧
    sumArrayIndices (Pco.receiveImages cropEnv croppedFirst).2 = [0, 1, 2, 3] ∧
    ¬ sumArrayInBounds (Pco.receiveImages cropEnv croppedFirst).2
        { id := 102, pData := [5, 6] } { id := 101, pData := [1, 2] } := by
  refine ⟨by decide, by decide, by decide, by decide⟩

/-! ## C30: the performance counters -/

namespace PerformanceMonitor

open Param Counter

theorem set_value (m : PerformanceMonitor) (k : Counter) (v : Int) (j : Counter) :
    (m.set k v).value j = if j = k then v else m.value j := rfl

theorem advance_value (m : PerformanceMonitor) (map : Param → Option Counter) (param : Param)
    (k : Counter) :
    (m.advance map param).value k = m.value k + (if map param = some k then 1 else 0) := by
  unfold advance
  cases h : map param with
  | none => simp
  | some j =>
    simp only [set_value, Option.some.injEq]
    by_cases hk : k = j
    · subst hk; simp
    · have hk2 : ¬ j = k := fun e => hk e.symm
      simp [hk, hk2]

theorem count_value (m : PerformanceMonitor) (param : Param) (fault : Bool) (k : Counter) :
    (m.count param fault).value k
      = m.value k + (if session param = some k then 1 else 0)
          + (if accumulating param = some k then 1 else 0)
          + (if fault = true ∧ (k = paramCntFault ∨ k = paramAccFault) then 1 else 0) := by
  unfold count
  cases fault
  · simp only [Bool.false_eq_true, if_false, false_and, advance_value, add_zero]
  · simp only [if_true, true_and, set_value, advance_value]
    by_cases h1 : k = paramAccFault
    · subst h1
      simp
    · by_cases h2 : k = paramCntFault
      · subst h2
        simp
      · simp [h1, h2]

theorem zeroEntry_value (map : Param → Option Counter) (m : PerformanceMonitor)
    (param : Param) (k : Counter) :
    (zeroEntry map m param).value k = if map param = some k then 0 else m.value k := by
  unfold zeroEntry
  cases hp : map param with
  | none => simp
  | some j =>
    simp only [set_value, Option.some.injEq]
    by_cases hk : j = k
    · subst hk; simp
    · have hk2 : ¬ k = j := fun e => hk e.symm
      simp [hk, hk2]

theorem foldl_zero_value (map : Param → Option Counter) (k : Counter) (ps : List Param)
    (m : PerformanceMonitor) :
    (ps.foldl (zeroEntry map) m).value k
      = if ps.any (fun param => decide (map param = some k)) = true then 0 else m.value k := by
  induction ps generalizing m with
  | nil => simp
  | cons p ps ih =>
    rw [List.foldl_cons, ih, zeroEntry_value]
    by_cases hany : ps.any (fun param => decide (map param = some k)) = true
    · simp [hany]
    · by_cases hp : map p = some k
      · simp [hp]
      · simp [hany, hp]

theorem zero_hit (m : PerformanceMonitor) (map : Param → Option Counter) (param : Param)
    (k : Counter) (h : map param = some k) : (m.zero map).value k = 0 := by
  unfold zero
  rw [foldl_zero_value]
  have hmem : param ∈ params := by cases param <;> decide
  have : params.any (fun p => decide (map p = some k)) = true :=
    List.any_eq_true.mpr ⟨param, hmem, by simpa using h⟩
  rw [if_pos this]

theorem zero_miss (m : PerformanceMonitor) (map : Param → Option Counter) (k : Counter)
    (h : ∀ param, map param ≠ some k) : (m.zero map).value k = m.value k := by
  unfold zero
  rw [foldl_zero_value]
  have : ¬ params.any (fun p => decide (map p = some k)) = true := by
    intro hany
    obtain ⟨p, _, hp⟩ := List.any_eq_true.mp hany
    exact h p (by simpa using hp)
  rw [if_neg this]

theorem session_ne_fault (param : Param) :
    session param ≠ some paramCntFault ∧ session param ≠ some paramAccFault := by
  cases param <;> decide

theorem accumulating_ne_fault (param : Param) :
    accumulating param ≠ some paramCntFault ∧ accumulating param ≠ some paramAccFault := by
  cases param <;> decide

theorem session_ne_accumulating (p q : Param) (k : Counter) (h : accumulating p = some k) :
    session q ≠ some k := by
  intro hq
  have hpq : accumulating p = session q := h.trans hq.symm
  revert hpq
  cases p <;> cases q <;> decide

theorem session_injective (p q : Param) (k : Counter) (hp : session p = some k)
    (hq : session q = some k) : p = q := by
  have hpq : session p = session q := hp.trans hq.symm
  have hs : session p ≠ none := by rw [hp]; simp
  revert hpq hs
  cases p <;> cases q <;> decide

theorem session_accumulating (p q : Param) (k a : Counter) (hk : session p = some k)
    (ha : accumulating p = some a) (hq : session q = some k) : accumulating q = some a := by
  rw [← session_injective p q k hk hq]
  exact ha

theorem clear_session (m : PerformanceMonitor) (param : Param) (k : Counter)
    (h : session param = some k) : m.clear.value k = 0 := by
  unfold clear
  rw [set_value, zero_hit m session param k h]
  simp

theorem clear_accumulating (m : PerformanceMonitor) (param : Param) (a : Counter)
    (h : accumulating param = some a) : m.clear.value a = m.value a := by
  unfold clear
  have hne : a ≠ paramCntFault := fun e => (accumulating_ne_fault param).1 (e ▸ h)
  rw [set_value, if_neg hne, zero_miss m session a (fun q => session_ne_accumulating param q a h)]

theorem clear_fault (m : PerformanceMonitor) :
    m.clear.value paramCntFault = 0 ∧ m.clear.value paramAccFault = m.value paramAccFault := by
  unfold clear
  constructor
  · simp [set_value]
  · rw [set_value, if_neg (by decide),
      zero_miss m session paramAccFault (fun q => (session_ne_fault q).2)]

theorem counter_covered (k : Counter) :
    k = paramCntFault ∨ k = paramAccFault ∨ (∃ param, session param = some k) ∨
      (∃ param, accumulating param = some k) := by
  cases k <;>
    first
    | exact Or.inl rfl
    | exact Or.inr (Or.inl rfl)
    | exact Or.inr (Or.inr (Or.inl ⟨PERF_GOODFRAME, rfl⟩))
    | exact Or.inr (Or.inr (Or.inl ⟨PERF_MISSINGFRAME, rfl⟩))
    | exact Or.inr (Or.inr (Or.inl ⟨PERF_OUTOFARRAYS, rfl⟩))
    | exact Or.inr (Or.inr (Or.inl ⟨PERF_INVALIDFRAME, rfl⟩))
    | exact Or.inr (Or.inr (Or.inl ⟨PERF_FRAMESTATUSERROR, rfl⟩))
    | exact Or.inr (Or.inr (Or.inl ⟨PERF_WAITFAULT, rfl⟩))
    | exact Or.inr (Or.inr (Or.inl ⟨PERF_DRIVERERROR, rfl⟩))
    | exact Or.inr (Or.inr (Or.inl ⟨PERF_CAPTUREERROR, rfl⟩))
    | exact Or.inr (Or.inr (Or.inl ⟨PERF_POLLGETFRAME, rfl⟩))
    | exact Or.inr (Or.inr (Or.inr ⟨PERF_REBOOT, rfl⟩))
    | exact Or.inr (Or.inr (Or.inr ⟨PERF_CONNECT, rfl⟩))
    | exact Or.inr (Or.inr (Or.inr ⟨PERF_ARM, rfl⟩))
    | exact Or.inr (Or.inr (Or.inr ⟨PERF_START, rfl⟩))
    | exact Or.inr (Or.inr (Or.inr ⟨PERF_GOODFRAME, rfl⟩))
    | exact Or.inr (Or.inr (Or.inr ⟨PERF_MISSINGFRAME, rfl⟩))
    | exact Or.inr (Or.inr (Or.inr ⟨PERF_OUTOFARRAYS, rfl⟩))
    | exact Or.inr (Or.inr (Or.inr ⟨PERF_INVALIDFRAME, rfl⟩))
    | exact Or.inr (Or.inr (Or.inr ⟨PERF_FRAMESTATUSERROR, rfl⟩))
    | exact Or.inr (Or.inr (Or.inr ⟨PERF_WAITFAULT, rfl⟩))
    | exact Or.inr (Or.inr (Or.inr ⟨PERF_DRIVERERROR, rfl⟩))
    | exact Or.inr (Or.inr (Or.inr ⟨PERF_CAPTUREERROR, rfl⟩))
    | exact Or.inr (Or.inr (Or.inr ⟨PERF_POLLGETFRAME, rfl⟩))

theorem onReset_value (m : PerformanceMonitor) (k : Counter) : m.onReset.value k = 0 := by
  unfold onReset
  rw [set_value]
  by_cases hf : k = paramAccFault
  · rw [if_pos hf]
  · rw [if_neg hf]
    by_cases ha : ∃ param, accumulating param = some k
    · obtain ⟨param, hp⟩ := ha
      exact zero_hit _ accumulating param k hp
    · rw [zero_miss _ accumulating k (fun q hq => ha ⟨q, hq⟩)]
      rcases counter_covered k with hc | hc | ⟨param, hp⟩ | hc
      · rw [hc]; exact (clear_fault m).1
      · exact absurd hc hf
      · exact clear_session m param k hp
      · exact absurd hc ha

theorem count_nonneg (m : PerformanceMonitor) (param : Param) (fault : Bool)
    (h : ∀ k, 0 ≤ m.value k) (k : Counter) : 0 ≤ (m.count param fault).value k := by
  rw [count_value]
  have := h k
  split <;> split <;> split <;> omega

theorem count_pairs (m : PerformanceMonitor) (param : Param) (fault : Bool)
    (h : ∀ q k a, session q = some k → accumulating q = some a → m.value k ≤ m.value a)
    (q : Param) (k a : Counter) (hk : session q = some k) (ha : accumulating q = some a) :
    (m.count param fault).value k ≤ (m.count param fault).value a := by
  rw [count_value, count_value]
  have h0 := h q k a hk ha
  have hkf : ¬ (fault = true ∧ (k = paramCntFault ∨ k = paramAccFault)) := by
    rintro ⟨_, e | e⟩
    · exact (session_ne_fault q).1 (e ▸ hk)
    · exact (session_ne_fault q).2 (e ▸ hk)
  have haf : ¬ (fault = true ∧ (a = paramCntFault ∨ a = paramAccFault)) := by
    rintro ⟨_, e | e⟩
    · exact (accumulating_ne_fault q).1 (e ▸ ha)
    · exact (accumulating_ne_fault q).2 (e ▸ ha)
  have hka : ¬ accumulating param = some k :=
    fun e => session_ne_accumulating param q k e hk
  rw [if_neg hkf, if_neg haf, if_neg hka]
  by_cases hs : session param = some k
  · rw [if_pos hs, if_pos (session_accumulating q param k a hk ha hs)]
    split <;> omega
  · rw [if_neg hs]
    split <;> split <;> omega

theorem count_fault (m : PerformanceMonitor) (param : Param) (fault : Bool)
    (h : m.value paramCntFault ≤ m.value paramAccFault) :
    (m.count param fault).value paramCntFault ≤ (m.count param fault).value paramAccFault := by
  rw [count_value, count_value]
  rw [if_neg (session_ne_fault param).1, if_neg (session_ne_fault param).2,
    if_neg (accumulating_ne_fault param).1, if_neg (accumulating_ne_fault param).2]
  cases fault <;> simp <;> omega

/-- What holds of the counters after every sequence of calls: none is
negative, every session counter is at most its accumulating counter and
the session fault counter at most the accumulated one. -/
theorem foldl_step_invariant (ops : List Op) (m : PerformanceMonitor)
    (h1 : ∀ k, 0 ≤ m.value k)
    (h2 : ∀ q k a, session q = some k → accumulating q = some a → m.value k ≤ m.value a)
    (h3 : m.value paramCntFault ≤ m.value paramAccFault) :
    (∀ k, 0 ≤ (ops.foldl step m).value k) ∧
    (∀ q k a, session q = some k → accumulating q = some a →
      (ops.foldl step m).value k ≤ (ops.foldl step m).value a) ∧
    (ops.foldl step m).value paramCntFault ≤ (ops.foldl step m).value paramAccFault := by
  induction ops generalizing m with
  | nil => exact ⟨h1, h2, h3⟩
  | cons op ops ih =>
    rw [List.foldl_cons]
    cases op with
    | count param fault =>
      exact ih _ (count_nonneg m param fault h1) (count_pairs m param fault h2)
        (count_fault m param fault h3)
    | clear =>
      have hc : ∀ k, (m.clear).value k = 0 ∨ (m.clear).value k = m.value k := by
        intro k
        rcases counter_covered k with e | e | ⟨q, hq⟩ | ⟨q, hq⟩
        · rw [e]; exact Or.inl (clear_fault m).1
        · rw [e]; exact Or.inr (clear_fault m).2
        · exact Or.inl (clear_session m q k hq)
        · exact Or.inr (clear_accumulating m q k hq)
      refine ih _ ?_ ?_ ?_
      · intro k
        rcases hc k with e | e
        · rw [step, e]
        · rw [step, e]; exact h1 k
      · intro q k a hk ha
        rw [step, clear_session m q k hk, clear_accumulating m q a ha]
        exact h1 a
      · rw [step, (clear_fault m).1, (clear_fault m).2]
        exact h1 _
    | onReset =>
      refine ih _ ?_ ?_ ?_
      · intro k; rw [step, onReset_value]
      · intro q k a _ _; rw [step, onReset_value, onReset_value]
      · rw [step, onReset_value, onReset_value]

end PerformanceMonitor

section

open PerformanceMonitor

/-- C30: starting from all counters at zero, after every sequence of
`count`, `clear` and `onReset` each accumulating counter is at least the
session counter registered for the same parameter and the accumulated
fault counter at least the session fault counter; `count` adds one to
the session and the accumulating counter registered for its parameter,
and to both fault counters when `fault` is set, and leaves every other
counter as it was; `clear` makes every session counter and the session
fault counter zero and leaves the accumulating counters and the
accumulated fault counter as they were; `onReset` makes every counter
zero.  The counters are taken as unbounded integers. -/
theorem performance_counters_invariant (ops : List Op) :
    (∀ param k a, session param = some k → accumulating param = some a →
      (after ops).value k ≤ (after ops).value a) ∧
    (after ops).value Counter.paramCntFault ≤ (after ops).value Counter.paramAccFault ∧
    (∀ (m : PerformanceMonitor) (param : Param) (fault : Bool) (k : Counter),
      (m.count param fault).value k
        = m.value k + (if session param = some k ∨ accumulating param = some k then 1 else 0)
            + (if fault = true ∧ (k = Counter.paramCntFault ∨ k = Counter.paramAccFault)
                then 1 else 0)) ∧
    (∀ (m : PerformanceMonitor) (param : Param) (k : Counter), session param = some k →
      m.clear.value k = 0) ∧
    (∀ m : PerformanceMonitor, m.clear.value Counter.paramCntFault = 0) ∧
    (∀ (m : PerformanceMonitor) (param : Param) (a : Counter), accumulating param = some a →
      m.clear.value a = m.value a) ∧
    (∀ m : PerformanceMonitor,
      m.clear.value Counter.paramAccFault = m.value Counter.paramAccFault) ∧
    (∀ (m : PerformanceMonitor) (k : Counter), m.onReset.value k = 0) := by
  have hinv := foldl_step_invariant ops {} (fun _ => le_refl _) (fun _ _ _ _ _ => le_refl _)
    (le_refl _)
  refine ⟨hinv.2.1, hinv.2.2, ?_, clear_session, fun m => (clear_fault m).1, clear_accumulating,
    fun m => (clear_fault m).2, onReset_value⟩
  intro m param fault k
  rw [count_value]
  by_cases hs : session param = some k
  · have ha : ¬ accumulating param = some k :=
      fun e => session_ne_accumulating param param k e hs
    simp [hs, ha]
  · simp [hs]

/-- Three good frames, the second a fault, with a `clear` after the
second: the session counter shows 1 and the accumulating counter 3. -/
theorem performance_counters_witness :
    (after threeGoodFrames).value Counter.paramCntGoodFrame = 1 ∧
    (after threeGoodFrames).value Counter.paramAccGoodFrame = 3 ∧
    (after threeGoodFrames).value Counter.paramCntGoodFrame
      ≤ (after threeGoodFrames).value Counter.paramAccGoodFrame :=
  ⟨by decide, by decide,
   (performance_counters_invariant threeGoodFrames).1 Param.PERF_GOODFRAME _ _ rfl rfl⟩

end

end ADpco
